import Mathlib

/-!
# Preferences chaincode (`preferences.go`)

A shallow embedding of the dispatcher `Invoke` and of the chaincode handlers
`setPreferences` (`sp`), `batchPreferences` (`abp`), `delPreferences` (`dp`),
`portOut` (`po`) and `queryPreferences` (`qp`).

The chaincode talks to three collaborators whose code is outside the
repository: the Fabric shim (`GetState`, `PutState`, `DelState`, `SetEvent`,
`GetTxID`, `GetQueryResult`), the client-identity library
(`cid.GetX509Certificate`) and Go's `encoding/json`.  Their behaviour is an
explicit parameter (`Env`); the handlers are ordinary functions from a ledger
to a response and a ledger.  Logging calls have no effect on the result and
are left out.
-/

set_option maxRecDepth 100000

namespace Preferences

/-! ## Constants and records -/

def EVTADDPREFERENCES : String := "ADD-PREFERENCES"
def EVTUPDATEPREFERENCES : String := "UPDATE-PREFERENCES"
def EVTDELPREFERENCES : String := "DELETE-PREFERENCES"
def EVTPORTOUT : String := "PORT-OUT"

/-- Output entry of a rejected batch item (`type Output struct`). -/
structure Output where
  Data : String
  ErrorDetails : String
  deriving DecidableEq, Repr

/-- Event payload (`type Event struct`). -/
structure Event where
  Data : String
  Txid : String
  deriving DecidableEq, Repr

/-- The stored record (`type Preference struct`). -/
structure Preference where
  ObjType : String
  Phone : String
  ServiceProvider : String
  RequestNumber : String
  RegistrationMode : String
  Category : String
  CommunicationMode : String
  DayType : String
  DayTimeBand : String
  Lrn : String
  UpdateTs : String
  CreateTs : String
  UpdatedBy : String
  deriving DecidableEq, Repr

/-! ## Go values -/

/-- A decoded JSON value held in an `interface{}`: only whether it is a string
matters to the type assertion `.(string)`. -/
inductive JVal where
  | str (s : String)
  | other (raw : String)
  deriving DecidableEq, Repr

/-- A decoded `map[string]interface{}`, as an association list; the first
binding of a key is the one the map holds. -/
abbrev JMap := List (String × JVal)

/-- Map indexing `data[k]`: the value, or `none` (Go's nil interface) when the key is absent. -/
def JMap.index (data : JMap) (k : String) : Option JVal :=
  List.lookup k data

/-- Builtin `len(data)`: the number of distinct keys. -/
def JMap.len (data : JMap) : Nat :=
  (data.map Prod.fst).dedup.length

/-- Type assertion `data[k].(string)`: `none` stands for the run-time panic
raised when the key is missing or the value is not a string. -/
def fieldStr (data : JMap) (k : String) : Option String :=
  match data.index k with
  | some (JVal.str s) => some s
  | _ => none

/-- Width of Go's `int` on the platforms the chaincode runs on. -/
def intSize : Nat := 64

/-- Value of a decimal digit, `none` for any other character. -/
def digitVal (c : Char) : Option Nat :=
  if '0' ≤ c ∧ c ≤ '9' then some (c.toNat - '0'.toNat) else none

/-- Value of a run of decimal digits read after `acc`; `none` on a non-digit. -/
def digitsFrom : Nat → List Char → Option Nat
  | acc, [] => some acc
  | acc, c :: cs =>
    match digitVal c with
    | none => none
    | some d => digitsFrom (acc * 10 + d) cs

/-- A non-empty run of decimal digits. -/
def parseDigits : List Char → Option Nat
  | [] => none
  | cs => digitsFrom 0 cs

/-- Go's `strconv.Atoi`: an optional sign `+` or `-`, then one or more decimal
digits, and the value has to fit `int`; `none` stands for a non-nil error
(syntax or range). -/
def atoi (s : String) : Option Int :=
  match s.data with
  | [] => none
  | c :: cs =>
    if c = '-' then
      match parseDigits cs with
      | some n => if n ≤ 2 ^ (intSize - 1) then some (-(n : Int)) else none
      | none => none
    else if c = '+' then
      match parseDigits cs with
      | some n => if n < 2 ^ (intSize - 1) then some (n : Int) else none
      | none => none
    else
      match parseDigits (c :: cs) with
      | some n => if n < 2 ^ (intSize - 1) then some (n : Int) else none
      | none => none

/-- Builtin `len(s)` of a Go string: its length in bytes. -/
def strLen (s : String) : Nat := s.utf8ByteSize


/-! ## Collaborators and ledger -/

/-- Response of a handler: `shim.Success(payload)`, `shim.Error(message)`, or a
Go run-time panic (failed type assertion, index out of range), which ends the
invocation without a response. -/
inductive Response where
  | success (payload : String)
  | error (message : String)
  | panic
  deriving DecidableEq, Repr

/-- A query result `queryresult.KV`, with its value read as text. -/
structure KV where
  Key : String
  Value : String
  deriving DecidableEq, Repr

/-- Behaviour of the collaborators during one invocation.  An `Except.error e`
or `some e` is a non-nil Go `error` whose text is `e`. -/
structure Env where
  /-- Result of `json.Unmarshal([]byte(arg), &data)` into a `map[string]interface{}`. -/
  jsonUnmarshalMap : String → Except String JMap
  /-- Result of `json.Unmarshal(value, &preference)` into a `Preference`. -/
  unmarshalPreference : String → Except String Preference
  /-- Result of `json.Marshal(PrfStruct)`. -/
  marshalPreference : Preference → Except String String
  /-- Result of `json.Marshal(eventbytes)`. -/
  marshalEvent : Event → Except String String
  /-- Result of `json.Marshal(out)`. -/
  marshalOutput : Output → Except String String
  /-- Result of `cid.GetX509Certificate(stub)`: its error, or the list
  `certData.Issuer.Organization` of the certificate it returns. -/
  cert : Except String (List String)
  /-- Result of `stub.GetTxID()`. -/
  txid : String
  /-- Error of `stub.GetState(key)`, if any. -/
  getStateErr : String → Option String
  /-- Error of `stub.PutState(key, value)`, if any. -/
  putStateErr : String → String → Option String
  /-- Error of `stub.DelState(key)`, if any. -/
  delStateErr : String → Option String
  /-- Error of `stub.SetEvent(name, payload)`, if any. -/
  setEventErr : String → String → Option String
  /-- Whether `GetState` sees the writes of the running invocation (as the
  shim's `MockStub` does) or only the committed state (as a peer does). -/
  readOwnWrites : Bool
  /-- Result of `stub.GetQueryResult(queryString)`: its error, or the iterator,
  given by what its successive `Next()` calls return until `HasNext()` is false. -/
  getQueryResult : String → Except String (List (Except String KV))

/-- The ledger as one invocation sees and changes it. -/
structure Ledger where
  /-- World state committed before the invocation. -/
  committed : String → Option String
  /-- World state with the writes and deletes of the invocation applied. -/
  state : String → Option String
  /-- The `PutState` calls made, oldest first. -/
  puts : List (String × String)
  /-- The `SetEvent` calls made, oldest first, as (name, payload). -/
  events : List (String × String)

/-- What a handler leaves behind: its response and the ledger. -/
structure Outcome where
  resp : Response
  ledger : Ledger

/-- What `stub.GetState(key)` returns when it does not fail. -/
def Ledger.read (env : Env) (l : Ledger) (key : String) : Option String :=
  if env.readOwnWrites then l.state key else l.committed key

/-- Call `stub.GetState(key)`; `none` is the nil value of an absent key. -/
def getState (env : Env) (l : Ledger) (key : String) : Except String (Option String) :=
  match env.getStateErr key with
  | some e => .error e
  | none => .ok (l.read env key)

/-- Call `stub.PutState(key, value)`. -/
def putState (env : Env) (l : Ledger) (key value : String) : Except String Ledger :=
  match env.putStateErr key value with
  | some e => .error e
  | none =>
    .ok { l with
          state := fun k => if k = key then some value else l.state k
          puts := l.puts ++ [(key, value)] }

/-- Call `stub.DelState(key)`. -/
def delState (env : Env) (l : Ledger) (key : String) : Except String Ledger :=
  match env.delStateErr key with
  | some e => .error e
  | none => .ok { l with state := fun k => if k = key then none else l.state k }

/-- Call `stub.SetEvent(name, payload)`. -/
def setEvent (env : Env) (l : Ledger) (name payload : String) : Except String Ledger :=
  match env.setEventErr name payload with
  | some e => .error e
  | none => .ok { l with events := l.events ++ [(name, payload)] }

/-! ## Building and persisting a record -/

/-- The record `sp` and `abp` build from the decoded input (lines 137-150,
197-210, 321-334, 388-401); `none` is the panic of a failed `.(string)`
assertion or of `Organizations[0]` on an empty list. -/
def buildPreference (data : JMap) (Organizations : List String) : Option Preference :=
  match fieldStr data "msisdn", fieldStr data "svcprv", fieldStr data "reqno",
        fieldStr data "rmode", fieldStr data "ctgr", fieldStr data "cmode",
        fieldStr data "day", fieldStr data "time", fieldStr data "lrn",
        fieldStr data "uts", fieldStr data "cts", Organizations.head? with
  | some msisdn, some svcprv, some reqno, some rmode, some ctgr, some cmode,
    some day, some time, some lrn, some uts, some cts, some org =>
    some { ObjType := "Preferences"
           Phone := msisdn
           ServiceProvider := svcprv
           RequestNumber := reqno
           RegistrationMode := rmode
           Category := ctgr
           CommunicationMode := cmode
           DayType := day
           DayTimeBand := time
           Lrn := lrn
           UpdateTs := uts
           CreateTs := cts
           UpdatedBy := org }
  | _, _, _, _, _, _, _, _, _, _, _, _ => none

/-- The record `po` derives from the stored one (lines 577-590). -/
def portedPreference (preference : Preference) (phone svc uts org : String) : Preference :=
  { ObjType := "Preferences"
    Phone := phone
    ServiceProvider := svc
    RequestNumber := preference.RequestNumber
    RegistrationMode := preference.RegistrationMode
    Category := preference.Category
    CommunicationMode := preference.CommunicationMode
    DayType := preference.DayType
    DayTimeBand := preference.DayTimeBand
    Lrn := preference.Lrn
    UpdateTs := uts
    CreateTs := preference.CreateTs
    UpdatedBy := org }

/-- Wording of the four error responses of one write-and-publish sequence. -/
structure Wording where
  marshal : String
  put : String
  payload : String
  event : String

/-- The sequence every write path runs (lines 152-175, 212-234, 336-358,
403-425, 592-614): marshal the record, `PutState` it under its phone, marshal
the event and `SetEvent` it.  The first component is the message of the error
response, `none` when all four steps succeeded; the ledger keeps whatever was
done before a failing step. -/
def persist (env : Env) (l : Ledger) (w : Wording) (evt : String) (PrfStruct : Preference) :
    Option String × Ledger :=
  match env.marshalPreference PrfStruct with
  | .error e => (some (w.marshal ++ e), l)
  | .ok PrfAsBytes =>
    match putState env l PrfStruct.Phone PrfAsBytes with
    | .error e => (some (w.put ++ e), l)
    | .ok l1 =>
      match env.marshalEvent { Data := PrfAsBytes, Txid := env.txid } with
      | .error e => (some (w.payload ++ e), l1)
      | .ok payload =>
        match setEvent env l1 evt payload with
        | .error _ => (some (w.event ++ evt), l1)
        | .ok l2 => (none, l2)

/-- Error wording of the add path of `sp` (lines 154-174). -/
def wordingSpAdd : Wording :=
  ⟨"setPreferences : Marshalling Error : ",
   "setPreferences : PutState Failed Error : ",
   "setPreferences : Event Payload Marshalling Error : ",
   "setPreferences : Event Creation Error for EventID : "⟩

/-- Error wording of the update path of `sp` (lines 214-233). -/
def wordingSpUpdate : Wording :=
  ⟨"setPreferences : Marshaling Error : ",
   "setPreferences : PutState Failed Error : ",
   "setPreferences : Event Payload marshaling Error : ",
   "setPreferences : Event Creation Error for EventID : "⟩

/-- Error wording of the add path of `abp` (lines 338-357). -/
def wordingAbpAdd : Wording :=
  ⟨"batchPreferences : Marshalling Error : ",
   "batchPreferences : PutState Failed Error : ",
   "batchPreferences : Event Payload Marshalling Error :",
   "batchPreferences : Event Creation Error for EventID : "⟩

/-- Error wording of the update path of `abp` (lines 405-424). -/
def wordingAbpUpdate : Wording :=
  ⟨"batchPreferences : Marshalling Error : ",
   "batchPreferences : PutState Failed Error : ",
   "batchPreferences : Event Payload Marshalling Error : ",
   "batchPreferences : Event Creation Error for EventID : "⟩

/-- Error wording of `po` (lines 594-613). -/
def wordingPo : Wording :=
  ⟨"portOut : Marshalling Error : ",
   "portOut : PutState Failed Error : ",
   "portOut : Event Payload Marshalling Error : ",
   "portOut : Event Creation Error for EventID : "⟩

/-- The text `jsonResp` of the wrong-number-of-keys response. -/
def expectedJson : String :=
  "\x7b\"msisdn\":\"value\",\"svcprv\":\"value\",\"reqno\":\"value\",\"rmode\":\"value\",\"ctgr\":\"value\",\"cmode\":\"value\",\"day\":\"value\",\"time\":\"value\",\"lrn\":\"value\",\"uts\":\"value\",\"cts\":\"value\"\x7d"

def msgNotNumeric : String := "\x7b\"Error\":\"MSISDN is not numeric \"\x7d"
def msgNotValidLength : String := "\x7b\"Error\":\"MSISDN is not a valid length \"\x7d"
def msgLrnNotNumeric : String := "\x7b\"Error\":\"LRN is not numeric \"\x7d"

/-! ## `sp` -/

/-- The arm `if value == nil` of `setPreferences` (lines 135-183): no record is
stored under the msisdn. -/
def spAbsent (env : Env) (l : Ledger) (data : JMap) (Organizations : List String) : Outcome :=
  if data.len = 11 then
    match buildPreference data Organizations with
    | none => ⟨.panic, l⟩
    | some PrfStruct =>
      match persist env l
          wordingSpAdd
          EVTADDPREFERENCES PrfStruct with
      | (some msg, l1) => ⟨.error msg, l1⟩
      | (none, l1) =>
        ⟨.success ("setPreferences : Preferences data added Successfully for MSISDN : "
            ++ PrfStruct.Phone ++ " , TransactionID      " ++ env.txid), l1⟩
  else
    ⟨.error ("setPreferences : Incorrect Number Of Arguments, Expected json structure : "
        ++ expectedJson), l⟩

/-- The `else` arm of `setPreferences` (lines 184-248): `value` is stored under
the msisdn. -/
def spPresent (env : Env) (l : Ledger) (data : JMap) (Organizations : List String)
    (value : String) : Outcome :=
  if data.len = 11 then
    match env.unmarshalPreference value with
    | .error e =>
      ⟨.error ("setPreferences : Existing prefernce data Unmarhsaling Error : " ++ e), l⟩
    | .ok preference =>
      match Organizations.head? with
      | none => ⟨.panic, l⟩
      | some organizationName =>
        if preference.UpdatedBy = organizationName then
          match buildPreference data Organizations with
          | none => ⟨.panic, l⟩
          | some PrfStruct =>
            match persist env l
                wordingSpUpdate
                EVTUPDATEPREFERENCES PrfStruct with
            | (some msg, l1) => ⟨.error msg, l1⟩
            | (none, l1) =>
              ⟨.success ("setPreferences : Preference data updated  successfully for MSISDN : "
                  ++ PrfStruct.Phone ++ " , TransactionID      " ++ env.txid), l1⟩
        else ⟨.error "Unauthorized Access", l⟩
  else
    ⟨.error ("setPreferences : Incorrect Number Of Arguments, Expected json structure : "
        ++ expectedJson), l⟩

/-- Handler `setPreferences` (lines 100-249); its two arms are `spAbsent` and
`spPresent`.  `args[0]` is read without a length check. -/
def setPreferences (env : Env) (l : Ledger) (args : List String) : Outcome :=
  match args with
  | [] => ⟨.panic, l⟩
  | arg0 :: _ =>
  match env.jsonUnmarshalMap arg0 with
  | .error e => ⟨.error ("setPreferences : Input arguments unmarhsaling Error : " ++ e), l⟩
  | .ok data =>
  match env.cert with
  | .error e => ⟨.error ("setPreferences : Getting certificate Details Error : " ++ e), l⟩
  | .ok Organizations =>
  match fieldStr data "msisdn" with
  | none => ⟨.panic, l⟩
  | some msisdn =>
  if (atoi msisdn).isNone then ⟨.error msgNotNumeric, l⟩
  else if strLen msisdn < 10 then ⟨.error msgNotValidLength, l⟩
  else
  match fieldStr data "lrn" with
  | none => ⟨.panic, l⟩
  | some lrn =>
  if (atoi lrn).isNone then ⟨.error msgLrnNotNumeric, l⟩
  else
  match getState env l msisdn with
  | .error e =>
    ⟨.error ("setPreferences : GetState Failed for MSISDN : " ++ msisdn ++ " Error : " ++ e), l⟩
  | .ok none => spAbsent env l data Organizations
  | .ok (some value) => spPresent env l data Organizations value

/-! ## `abp` -/

/-- Where the loop of `batchPreferences` stands after an item: it goes on with
the ledger, the `result` strings and `errorCount`, or the handler has returned
(or panicked) inside the loop. -/
inductive BatchStep where
  | next (l : Ledger) (result : List String) (errorCount : Nat)
  | halt (resp : Response) (l : Ledger)

/-- The ledger a loop step leaves behind. -/
def BatchStep.ledger : BatchStep → Ledger
  | .next l _ _ => l
  | .halt _ l => l

/-- The running `result`, `errorCount` and `errorCheck` of one loop iteration. -/
structure Tally where
  result : List String
  errorCount : Nat
  errorCheck : Nat

/-- One format check of `abp` (lines 276-286, 287-298, 299-310): when `failed`,
marshal the Output entry, append it and count it; the error is that of
`json.Marshal(out)`. -/
def noteFormat (env : Env) (failed : Bool) (out : Output) (t : Tally) : Except String Tally :=
  if failed then
    match env.marshalOutput out with
    | .error e => .error e
    | .ok edata => .ok ⟨t.result ++ [edata], t.errorCount + 1, t.errorCheck + 1⟩
  else .ok t

/-- The rejection of an item after the format checks (lines 363-371, 431-439,
444-452): marshal the Output entry, append it, count it and `continue`. -/
def rejectItem (env : Env) (l : Ledger) (result : List String) (errorCount : Nat)
    (out : Output) : BatchStep :=
  match env.marshalOutput out with
  | .error e => .halt (.error ("batchPreferences : Marshalling Error : " ++ e)) l
  | .ok edata => .next l (result ++ [edata]) (errorCount + 1)

/-- The arm `if value == nil` of the loop body (lines 319-372). -/
def batchAbsent (env : Env) (l : Ledger) (result : List String) (errorCount : Nat)
    (arg : String) (data : JMap) (Organizations : List String) : BatchStep :=
  if data.len = 11 then
    match buildPreference data Organizations with
    | none => .halt .panic l
    | some PrfStruct =>
      match persist env l
          wordingAbpAdd
          EVTADDPREFERENCES PrfStruct with
      | (some msg, l1) => .halt (.error msg) l1
      | (none, l1) => .next l1 result errorCount
  else
    rejectItem env l result errorCount ⟨arg, "IncorrectNumberOfArGumentsExceptin[11 keys]"⟩

/-- The `else` arm of the loop body (lines 373-454). -/
def batchPresent (env : Env) (l : Ledger) (result : List String) (errorCount : Nat)
    (arg : String) (data : JMap) (Organizations : List String) (value : String) : BatchStep :=
  if data.len = 11 then
    match env.unmarshalPreference value with
    | .error e => .halt (.error ("batchPreferences : Unmarhsaling Error : " ++ e)) l
    | .ok preference =>
      match Organizations.head? with
      | none => .halt .panic l
      | some organizationName =>
        if preference.UpdatedBy = organizationName then
          match buildPreference data Organizations with
          | none => .halt .panic l
          | some PrfStruct =>
            match persist env l
                wordingAbpUpdate
                EVTUPDATEPREFERENCES PrfStruct with
            | (some msg, l1) => .halt (.error msg) l1
            | (none, l1) => .next l1 result errorCount
        else
          rejectItem env l result errorCount ⟨arg, "Unaithorized Access"⟩
  else
    rejectItem env l result errorCount ⟨arg, "IncorrectNumberOfArGumentsExceptin[11 keys]"⟩

/-- The three format checks of the loop body (lines 276-310), run one after
the other whatever the earlier ones found; `none` is the panic of a failed
`.(string)` assertion, an error that of `json.Marshal(out)`. -/
def batchChecks (env : Env) (data : JMap) (result : List String) (errorCount : Nat) :
    Option (Except String Tally) :=
  match fieldStr data "msisdn" with
  | none => none
  | some msisdn =>
  match noteFormat env (atoi msisdn).isNone
      ⟨msisdn, "MobileNumber Contains Only Numeric Characters,It is Not Numeric"⟩
      ⟨result, errorCount, 0⟩ with
  | .error e => some (.error e)
  | .ok t1 =>
  match noteFormat env (decide (strLen msisdn < 10))
      ⟨msisdn, "MobileNumber is not Valid Length"⟩ t1 with
  | .error e => some (.error e)
  | .ok t2 =>
  match fieldStr data "lrn" with
  | none => none
  | some lrn =>
  match noteFormat env (atoi lrn).isNone
      ⟨lrn, "Lrn Containts Only Numeric Charcters,It is Not Numeric"⟩ t2 with
  | .error e => some (.error e)
  | .ok t3 => some (.ok t3)

/-- One iteration of the loop of `batchPreferences` (lines 261-454) on
`args[i] = arg`; its parts are `batchChecks`, `batchAbsent` and `batchPresent`. -/
def batchItem (env : Env) (l : Ledger) (result : List String) (errorCount : Nat)
    (arg : String) : BatchStep :=
  match env.jsonUnmarshalMap arg with
  | .error e =>
    .halt (.error ("batchPreferences : Input arguments unmarhsaling Error : " ++ e)) l
  | .ok data =>
  match env.cert with
  | .error e =>
    .halt (.error ("batchPreferences : Getting certificate Details Error : " ++ e)) l
  | .ok Organizations =>
  match batchChecks env data result errorCount with
  | none => .halt .panic l
  | some (.error e) => .halt (.error ("batchPreferences : Marshalling Error : " ++ e)) l
  | some (.ok t) =>
  if t.errorCheck ≠ 0 then .next l t.result t.errorCount
  else
  match fieldStr data "msisdn" with
  | none => .halt .panic l
  | some msisdn =>
  match getState env l msisdn with
  | .error e =>
    .halt (.error ("batchPreferences : GetState Failed for MSISDN : " ++ msisdn
      ++ " , Error : " ++ e)) l
  | .ok none => batchAbsent env l t.result t.errorCount arg data Organizations
  | .ok (some value) => batchPresent env l t.result t.errorCount arg data Organizations value

/-- The loop `for i := 0; i < len(args); i++` of `batchPreferences`. -/
def batchLoop (env : Env) (l : Ledger) (result : List String) (errorCount : Nat) :
    List String → BatchStep
  | [] => .next l result errorCount
  | arg :: rest =>
    match batchItem env l result errorCount arg with
    | .halt r l1 => .halt r l1
    | .next l1 result1 errorCount1 => batchLoop env l1 result1 errorCount1 rest

/-- Handler `batchPreferences` (lines 255-465). -/
def batchPreferences (env : Env) (l : Ledger) (args : List String) : Outcome :=
  match batchLoop env l [] 0 args with
  | .halt r l1 => ⟨r, l1⟩
  | .next l1 result errorCount =>
    if errorCount = 0 then
      ⟨.success ("batchPreferences : Batch Preferences data added Successfully. TransactionID : "
          ++ env.txid), l1⟩
    else
      ⟨.success ("batchPreferences : Updating batch Error : " ++ "|".intercalate result), l1⟩

/-! ## `dp` -/

/-- Handler `delPreferences` (lines 471-527). -/
def delPreferences (env : Env) (l : Ledger) (args : List String) : Outcome :=
  match args with
  | [key] =>
    match getState env l key with
    | .error e =>
      ⟨.error ("delPreferences : GetState Failed for MSISDN :" ++ key ++ " , Error : " ++ e), l⟩
    | .ok none => ⟨.success ("delPreferences : No Existing preferences for MSISDN : " ++ key), l⟩
    | .ok (some value) =>
      match env.unmarshalPreference value with
      | .error e => ⟨.error ("delPreferences : Unmarshaling Error : " ++ e), l⟩
      | .ok preference =>
        match env.cert with
        | .error e => ⟨.error ("delPreferences : Getting certificate Details Error : " ++ e), l⟩
        | .ok Organizations =>
          match Organizations.head? with
          | none => ⟨.panic, l⟩
          | some organizationName =>
            if preference.UpdatedBy = organizationName then
              match delState env l key with
              | .error e =>
                ⟨.error ("delPreferences : Removing Preferences from DLT error for MSISDN "
                    ++ key ++ " , Error : " ++ e), l⟩
              | .ok l1 =>
                match env.marshalEvent { Data := key, Txid := env.txid } with
                | .error e =>
                  ⟨.error ("delPreferences : Event Payload Marshalling Error : " ++ e), l1⟩
                | .ok payload =>
                  match setEvent env l1 EVTDELPREFERENCES payload with
                  | .error _ =>
                    ⟨.error ("delPreferences : Event Creation Error for EventID : "
                        ++ EVTDELPREFERENCES), l1⟩
                  | .ok l2 =>
                    ⟨.success ("Preferences is deleled from dlt for msisdn is " ++ key
                        ++ "with TransactionID is " ++ env.txid), l2⟩
            else ⟨.error "Unauthorized access", l⟩
  | _ => ⟨.error "delPreferences : Incorrect Number Of Arguments, MSISDN Expected.", l⟩

/-! ## `po` -/

/-- Handler `portOut` (lines 533-623).  The logging call on line 537 reads
`args[0]` before the length check, hence the panic on an empty list. -/
def portOut (env : Env) (l : Ledger) (args : List String) : Outcome :=
  match args with
  | [] => ⟨.panic, l⟩
  | [phone, svc, uts] =>
    if (atoi phone).isNone then ⟨.error msgNotNumeric, l⟩
    else if strLen phone < 10 then ⟨.error msgNotValidLength, l⟩
    else
    match getState env l phone with
    | .error e =>
      ⟨.error ("portOut : GetState Failed for MSISDN : " ++ phone ++ " , Error : " ++ e), l⟩
    | .ok none => ⟨.success ("portOut : No Existing preferences for MSISDN : " ++ phone), l⟩
    | .ok (some value) =>
      match env.unmarshalPreference value with
      | .error e =>
        ⟨.error ("portOut : Existing prefernce data Unmarhsaling Error : " ++ e), l⟩
      | .ok preference =>
        match env.cert with
        | .error e => ⟨.error ("portOut : Getting certificate Details Error : " ++ e), l⟩
        | .ok Organizations =>
          match Organizations.head? with
          | none => ⟨.panic, l⟩
          | some organizationName =>
            if preference.UpdatedBy = organizationName then
              let PrfStruct := portedPreference preference phone svc uts organizationName
              match persist env l
                  wordingPo
                  EVTPORTOUT PrfStruct with
              | (some msg, l1) => ⟨.error msg, l1⟩
              | (none, l1) =>
                ⟨.success ("portOut : PutState Success for MSISDN : " ++ PrfStruct.Phone
                    ++ " , TransactionID : " ++ env.txid), l1⟩
            else ⟨.error "Unauthorized Access", l⟩
  | _ :: _ =>
    ⟨.error "portOut : Incorrect number of arguments, Excepted 3  [msisdn,serviceprovide,updatedtime]", l⟩

/-! ## `qp` -/

/-- The loop `for resultsIterator.HasNext()` of
`constructQueryResponseFromIterator` (lines 667-686) on what is left of the
iterator, with the buffer and `bArrayMemberAlreadyWritten` as they stand; an
error of `Next()` ends it without the buffer. -/
def queryLoop : String → Bool → List (Except String KV) → Except String String
  | buffer, _, [] => .ok buffer
  | _, _, .error e :: _ => .error e
  | buffer, bArrayMemberAlreadyWritten, .ok queryResponse :: rest =>
    queryLoop
      ((if bArrayMemberAlreadyWritten then buffer ++ "," else buffer)
        ++ "\x7b\"Key\":" ++ "\"" ++ queryResponse.Key ++ "\"" ++ ", \"Record\":"
        ++ queryResponse.Value ++ "\x7d")
      true rest

/-- Function `constructQueryResponseFromIterator` (lines 661-690). -/
def constructQueryResponseFromIterator (resultsIterator : List (Except String KV)) :
    Except String String :=
  match queryLoop "[" false resultsIterator with
  | .error e => .error e
  | .ok buffer => .ok (buffer ++ "]")

/-- Function `getQueryResultForQueryString` (lines 643-655).  The deferred
`resultsIterator.Close()` changes neither the result nor the ledger. -/
def getQueryResultForQueryString (env : Env) (queryString : String) : Except String String :=
  match env.getQueryResult queryString with
  | .error e => .error e
  | .ok resultsIterator =>
    match constructQueryResponseFromIterator resultsIterator with
    | .error e => .error e
    | .ok buffer => .ok buffer

/-- Handler `queryPreferences` (lines 629-641). -/
def queryPreferences (env : Env) (l : Ledger) (args : List String) : Outcome :=
  match args with
  | [queryString] =>
    match getQueryResultForQueryString env queryString with
    | .error e =>
      ⟨.error ("queryPreferences : getQueryResultForQueryString Failed Error : " ++ e), l⟩
    | .ok queryResults => ⟨.success queryResults, l⟩
  | _ =>
    ⟨.error "queryPreferences : Incorrect number of arguments, Expected 1 [Query String]", l⟩

/-! ## The dispatcher -/

/-- The message of the `default` case of `Invoke` (line 94). -/
def msgAvailableFunctions : String := "Available Functions: sp,abp,DP,po,qp"

/-- Method `Invoke` (lines 78-96), on the function name and the parameters
that `stub.GetFunctionAndParameters()` returns. -/
def Invoke (env : Env) (l : Ledger) (function : String) (args : List String) : Outcome :=
  if function = "sp" then setPreferences env l args
  else if function = "abp" then batchPreferences env l args
  else if function = "dp" then delPreferences env l args
  else if function = "po" then portOut env l args
  else if function = "qp" then queryPreferences env l args
  else ⟨.error msgAvailableFunctions, l⟩

/-! ## Vocabulary of the properties -/

/-- The caller organization: the first entry of the issuer organizations of
the certificate, when the lookup succeeds and there is one. -/
def callerOrg (env : Env) : Option String :=
  match env.cert with
  | .ok (org :: _) => some org
  | _ => none

/-- The phone check of `sp`, `abp` and `po`: `strconv.Atoi` accepts the text
and it has at least 10 bytes. -/
def phoneOK (s : String) : Prop := (atoi s).isSome ∧ 10 ≤ strLen s

instance (s : String) : Decidable (phoneOK s) := by unfold phoneOK; infer_instance

/-- The lrn check of `sp` and `abp`: `strconv.Atoi` accepts the text. -/
def lrnOK (s : String) : Prop := (atoi s).isSome

instance (s : String) : Decidable (lrnOK s) := by unfold lrnOK; infer_instance

/-! ### Vocabulary of the batch properties -/

/-- The number of format checks of `abp` (msisdn numeric, msisdn length, lrn
numeric) an item fails. -/
def formatFaults (msisdn lrn : String) : Nat :=
  (if (atoi msisdn).isNone then 1 else 0) + (if strLen msisdn < 10 then 1 else 0)
    + (if (atoi lrn).isNone then 1 else 0)

/-- The value read under a key decodes to a record of another organization. -/
def foreignAt (env : Env) (org : String) (v : Option String) : Bool :=
  match v with
  | none => false
  | some value =>
    match env.unmarshalPreference value with
    | .ok old => decide (old.UpdatedBy ≠ org)
    | .error _ => false

/-- Nothing is read under a key, or a record of the organization itself. -/
def ownAt (env : Env) (org : String) (v : Option String) : Bool :=
  match v with
  | none => true
  | some value =>
    match env.unmarshalPreference value with
    | .ok old => decide (old.UpdatedBy = org)
    | .error _ => false

/-- A parseable item (msisdn and lrn being strings) is malformed: it fails a
format check, or its map has not 11 keys. -/
def itemMalformed (env : Env) (arg : String) : Bool :=
  match env.jsonUnmarshalMap arg with
  | .ok data =>
    match fieldStr data "msisdn", fieldStr data "lrn" with
    | some msisdn, some lrn => decide (formatFaults msisdn lrn ≠ 0) || decide (data.len ≠ 11)
    | _, _ => false
  | .error _ => false

/-- A parseable item (msisdn and lrn being strings) is unauthorized: under its
msisdn, `view` holds a record of another organization than `org`. -/
def itemUnauthorized (env : Env) (view : String → Option String) (org : String)
    (arg : String) : Bool :=
  match env.jsonUnmarshalMap arg with
  | .ok data =>
    match fieldStr data "msisdn", fieldStr data "lrn" with
    | some msisdn, some _ => foreignAt env org (view msisdn)
    | _, _ => false
  | .error _ => false

/-- An item is rejected: malformed or unauthorized. -/
def itemRejected (env : Env) (view : String → Option String) (org : String)
    (arg : String) : Bool :=
  itemMalformed env arg || itemUnauthorized env view org arg

/-- An item is valid: it parses to a map of 11 keys with the eleven required
fields as strings, passes the three format checks, and `view` holds nothing
under its msisdn or a record of `org`. -/
def itemValid (env : Env) (view : String → Option String) (org : String)
    (arg : String) : Bool :=
  match env.jsonUnmarshalMap arg with
  | .ok data =>
    match fieldStr data "msisdn", fieldStr data "lrn" with
    | some msisdn, some lrn =>
      decide (formatFaults msisdn lrn = 0) && decide (data.len = 11)
        && (buildPreference data [org]).isSome && ownAt env org (view msisdn)
    | _, _ => false
  | .error _ => false

/-- The number of Output entries `abp` appends for an item: one per failed
format check; failing none, one for a wrong number of keys or for a record of
another organization; otherwise none. -/
def itemEntries (env : Env) (view : String → Option String) (org : String)
    (arg : String) : Nat :=
  match env.jsonUnmarshalMap arg with
  | .ok data =>
    match fieldStr data "msisdn", fieldStr data "lrn" with
    | some msisdn, some lrn =>
      if formatFaults msisdn lrn ≠ 0 then formatFaults msisdn lrn
      else if data.len ≠ 11 then 1
      else if foreignAt env org (view msisdn) then 1
      else 0
    | _, _ => 0
  | .error _ => 0

/-- No collaborator fails: every ledger call and every `json.Marshal` succeeds. -/
def Env.reliable (env : Env) : Prop :=
  (∀ k, env.getStateErr k = none) ∧ (∀ k v, env.putStateErr k v = none) ∧
  (∀ name payload, env.setEventErr name payload = none) ∧
  (∀ r, ∃ bytes, env.marshalPreference r = .ok bytes) ∧
  (∀ e, ∃ payload, env.marshalEvent e = .ok payload) ∧
  (∀ o, ∃ edata, env.marshalOutput o = .ok edata)

/-- Where `GetState` sees the writes of the invocation, a record that was
marshalled decodes again, to a record of the same organization. -/
def Env.readsBack (env : Env) : Prop :=
  env.readOwnWrites = true → ∀ r bytes, env.marshalPreference r = .ok bytes →
    ∃ r1, env.unmarshalPreference bytes = .ok r1 ∧ r1.UpdatedBy = r.UpdatedBy

/-! ## A concrete environment

An instance of the collaborators on which the handlers can be run: JSON texts
are rendered as `encoding/json` renders them, and decoding is the inverse of
rendering on the documents and records the instance is told about. -/

/-- A JSON string literal: quotes and backslashes escaped. -/
def quoteJson (s : String) : String :=
  let dq := Char.ofNat 34
  let bs := Char.ofNat 92
  String.mk ([dq] ++ (s.data.flatMap fun c => if c = dq ∨ c = bs then [bs, c] else [c]) ++ [dq])

/-- JSON text of a record, keys in the order of the struct tags. -/
def renderPreference (r : Preference) : String :=
  "\x7b\"obj\":" ++ quoteJson r.ObjType ++ ",\"msisdn\":" ++ quoteJson r.Phone
    ++ ",\"svcprv\":" ++ quoteJson r.ServiceProvider ++ ",\"reqno\":" ++ quoteJson r.RequestNumber
    ++ ",\"rmode\":" ++ quoteJson r.RegistrationMode ++ ",\"ctgr\":" ++ quoteJson r.Category
    ++ ",\"cmode\":" ++ quoteJson r.CommunicationMode ++ ",\"day\":" ++ quoteJson r.DayType
    ++ ",\"time\":" ++ quoteJson r.DayTimeBand ++ ",\"lrn\":" ++ quoteJson r.Lrn
    ++ ",\"uts\":" ++ quoteJson r.UpdateTs ++ ",\"cts\":" ++ quoteJson r.CreateTs
    ++ ",\"uby\":" ++ quoteJson r.UpdatedBy ++ "\x7d"

/-- JSON text of an event payload. -/
def renderEvent (e : Event) : String :=
  "\x7b\"data\":" ++ quoteJson e.Data ++ ",\"txid\":" ++ quoteJson e.Txid ++ "\x7d"

/-- JSON text of an Output entry. -/
def renderOutput (o : Output) : String :=
  "\x7b\"data\":" ++ quoteJson o.Data ++ ",\"error\":" ++ quoteJson o.ErrorDetails ++ "\x7d"

/-- JSON text of one member of an object. -/
def renderMember : String × JVal → String
  | (k, JVal.str v) => quoteJson k ++ ":" ++ quoteJson v
  | (k, JVal.other raw) => quoteJson k ++ ":" ++ raw

/-- JSON text of an object. -/
def renderMap (data : JMap) : String :=
  "\x7b" ++ ",".intercalate (data.map renderMember) ++ "\x7d"

/-- The collaborators with no failing ledger call: `docs` are the input
documents and `records` the stored records that decode, `orgs` is the outcome
of the certificate lookup. -/
def demoEnv (docs : List JMap) (records : List Preference)
    (orgs : Except String (List String)) : Env where
  jsonUnmarshalMap arg :=
    match docs.find? (fun d => renderMap d == arg) with
    | some d => .ok d
    | none => .error "invalid character"
  unmarshalPreference value :=
    match records.find? (fun r => renderPreference r == value) with
    | some r => .ok r
    | none => .error "unexpected end of JSON input"
  marshalPreference r := .ok (renderPreference r)
  marshalEvent e := .ok (renderEvent e)
  marshalOutput o := .ok (renderOutput o)
  cert := orgs
  txid := "tx1"
  getStateErr _ := none
  putStateErr _ _ := none
  delStateErr _ := none
  setEventErr _ _ := none
  readOwnWrites := true
  getQueryResult _ := .ok []

/-- A ledger holding `kvs`, before any write or event of an invocation. -/
def ledgerOf (kvs : List (String × String)) : Ledger where
  committed k := kvs.lookup k
  state k := kvs.lookup k
  puts := []
  events := []

/-- An input document with the eleven required fields. -/
def sampleDoc (msisdn svcprv lrn cts : String) : JMap :=
  [("msisdn", .str msisdn), ("svcprv", .str svcprv), ("reqno", .str "R1"),
   ("rmode", .str "web"), ("ctgr", .str "1"), ("cmode", .str "sms"),
   ("day", .str "all"), ("time", .str "day"), ("lrn", .str lrn),
   ("uts", .str "1700000000"), ("cts", .str cts)]

/-- A stored record of organization `org` for `phone`. -/
def sampleRecord (phone svcprv cts org : String) : Preference :=
  { ObjType := "Preferences", Phone := phone, ServiceProvider := svcprv,
    RequestNumber := "R0", RegistrationMode := "ivr", Category := "2",
    CommunicationMode := "voice", DayType := "weekday", DayTimeBand := "night",
    Lrn := "4001", UpdateTs := "1600000000", CreateTs := cts, UpdatedBy := org }

/-- The phone of the examples. -/
def phone1 : String := "9876543210"

/-- A stored record for `phone1` owned by `OrgA`. -/
def recOfA : Preference := sampleRecord phone1 "P1" "1500000000" "OrgA"

/-- A stored record for `phone1` owned by `OrgB`. -/
def recOfB : Preference := sampleRecord phone1 "P1" "1500000000" "OrgB"

/-- The record `OrgA` submits with `goodDoc`. -/
def goodRecord : Preference :=
  { ObjType := "Preferences", Phone := phone1, ServiceProvider := "P2",
    RequestNumber := "R1", RegistrationMode := "web", Category := "1",
    CommunicationMode := "sms", DayType := "all", DayTimeBand := "day", Lrn := "4001",
    UpdateTs := "1700000000", CreateTs := "1700000000", UpdatedBy := "OrgA" }

/-- The collaborators for a caller of `OrgA` submitting `docs`. -/
def envA (docs : List JMap) : Env :=
  demoEnv docs [recOfA, recOfB, goodRecord] (.ok ["OrgA"])

/-- A ledger where `phone1` holds the record of `OrgA`. -/
def ledgerA : Ledger := ledgerOf [(phone1, renderPreference recOfA)]

/-- A ledger where `phone1` holds the record of `OrgB`. -/
def ledgerB : Ledger := ledgerOf [(phone1, renderPreference recOfB)]

/-- A well-formed input for `phone1`. -/
def goodDoc : JMap := sampleDoc phone1 "P2" "4001" "1700000000"

/-- The input `goodDoc` without its `svcprv` member: ten keys. -/
def tenKeyDoc : JMap := goodDoc.filter fun kv => kv.1 != "svcprv"

/-- Whether a text consists of decimal digits only (the empty text does not). -/
def allDigits (s : String) : Bool := !s.data.isEmpty && s.data.all Char.isDigit

/-- An input whose msisdn carries a minus sign. -/
def signedDoc : JMap := sampleDoc "-123456789" "P2" "4001" "1700000000"

/-- An input whose msisdn has twenty digits. -/
def longDoc : JMap := sampleDoc "99999999999999999999" "P2" "4001" "1700000000"

/-- An input whose lrn carries a plus sign. -/
def plusLrnDoc : JMap := sampleDoc phone1 "P2" "+4001" "1700000000"

/-- An input with ten keys (no `svcprv`) and a msisdn of five digits. -/
def shortTenKeyDoc : JMap :=
  (sampleDoc "12345" "P2" "4001" "1700000000").filter fun kv => kv.1 != "svcprv"

/-- An input whose msisdn is neither numeric nor ten bytes long. -/
def badDoc : JMap := sampleDoc "abc" "P2" "4001" "1700000000"

/-- The collaborators of `envA` on a peer: `GetState` reads the committed state only. -/
def peerEnv (docs : List JMap) : Env := { envA docs with readOwnWrites := false }

/-- The input `goodDoc` with its msisdn given as a JSON number. -/
def numberDoc : JMap :=
  ("msisdn", JVal.other "9876543210") :: goodDoc.filter fun kv => kv.1 != "msisdn"

/-- The collaborators of `envA` when the certificate lookup fails. -/
def noCertEnv (docs : List JMap) : Env :=
  demoEnv docs [recOfA, recOfB, goodRecord] (.error "no certificate")

/-- JSON object that `qp` writes for one query result: the key quoted, the record as it is. -/
def queryEntry (kv : KV) : String :=
  "\x7b\"Key\":\"" ++ kv.Key ++ "\", \"Record\":" ++ kv.Value ++ "\x7d"

/-- The collaborators of `envA` with `it` as the outcome of every query. -/
def queryEnv (it : Except String (List (Except String KV))) : Env :=
  { envA [] with getQueryResult := fun _ => it }

/-- The function names `Invoke` has a case for (lines 82-91). -/
def routedFunctions : List String := ["sp", "abp", "dp", "po", "qp"]

/-- The texts between the commas of a text, read after the characters `acc`
(kept in reverse). -/
def splitCommas : List Char → List Char → List String
  | acc, [] => [String.mk acc.reverse]
  | acc, c :: cs =>
    if c = ',' then String.mk acc.reverse :: splitCommas [] cs else splitCommas (c :: acc) cs

/-- The function names that the message of the default case lists after its
heading. -/
def listedFunctions : List String :=
  splitCommas [] (msgAvailableFunctions.data.drop "Available Functions: ".data.length)

/-- The collaborators of `envA` when every `SetEvent` fails. -/
def eventFailEnv (docs : List JMap) : Env :=
  { envA docs with setEventErr := fun _ _ => some "event failed" }

/-! ## Sequences of invocations, and what they write -/

/-- The collaborators of `envA` for a caller whose certificate issuer names no organization. -/
def noOrgEnv (docs : List JMap) : Env :=
  demoEnv docs [recOfA, recOfB, goodRecord] (.ok [])

/-- What an invocation under `env` can put under key `k`: the marshalled text
`v` of a record of kind `Preferences` whose phone is `k`, with `k` passing the
phone check, and whose `UpdatedBy` is the caller organization. -/
def WrittenBy (env : Env) (k v : String) : Prop :=
  ∃ r : Preference, env.marshalPreference r = .ok v ∧ r.ObjType = "Preferences" ∧
    r.Phone = k ∧ phoneOK k ∧ callerOrg env = some r.UpdatedBy

/-- The msisdn an argument submits, when it decodes to a map that has one as a string. -/
def msisdnOf (env : Env) (arg : String) : Option String :=
  match env.jsonUnmarshalMap arg with
  | .ok data => fieldStr data "msisdn"
  | .error _ => none

/-- One invocation: the collaborators it meets (its caller among them), the
function name and the parameters. -/
structure Call where
  env : Env
  function : String
  args : List String

/-- The ledger the next invocation starts from: the state as the last one
left it, with no write or event of its own yet. -/
def commit (l : Ledger) : Ledger where
  committed := l.state
  state := l.state
  puts := []
  events := []

/-- The ledger after a sequence of invocations, each starting from what the
one before left (whatever its response was). -/
def runCalls : Ledger → List Call → Ledger
  | l, [] => l
  | l, c :: rest => runCalls (commit (Invoke c.env l c.function c.args).ledger) rest

theorem persist_committed (env : Env) (l : Ledger) (w : Wording) (evt : String)
    (r : Preference) : (persist env l w evt r).2.committed = l.committed := by
  cases hm : env.marshalPreference r with
  | error e => simp [persist, hm]
  | ok b =>
    cases hp : env.putStateErr r.Phone b with
    | some e => simp [persist, putState, hm, hp]
    | none =>
      cases he : env.marshalEvent ⟨b, env.txid⟩ with
      | error e => simp [persist, putState, hm, hp, he]
      | ok pl =>
        cases hs : env.setEventErr evt pl <;>
          simp [persist, putState, setEvent, hm, hp, he, hs]

theorem persist_state_other (env : Env) (l : Ledger) (w : Wording) (evt : String)
    (r : Preference) (k : String) (hk : k ≠ r.Phone) :
    (persist env l w evt r).2.state k = l.state k := by
  cases hm : env.marshalPreference r with
  | error e => simp [persist, hm]
  | ok b =>
    cases hp : env.putStateErr r.Phone b with
    | some e => simp [persist, putState, hm, hp]
    | none =>
      cases he : env.marshalEvent ⟨b, env.txid⟩ with
      | error e => simp [persist, putState, hm, hp, he, hk]
      | ok pl =>
        cases hs : env.setEventErr evt pl <;>
          simp [persist, putState, setEvent, hm, hp, he, hs, hk]

theorem buildPreference_phone (data : JMap) (orgs : List String) (r : Preference)
    (h : buildPreference data orgs = some r) : fieldStr data "msisdn" = some r.Phone := by
  unfold buildPreference at h
  split at h
  · simp at h
    subst h
    simp_all
  · simp at h

theorem callerOrg_head (env : Env) (orgs : List String) (org : String)
    (hc : env.cert = .ok orgs) (hh : orgs.head? = some org) : callerOrg env = some org := by
  unfold callerOrg
  cases orgs with
  | nil => simp at hh
  | cons o os =>
    simp at hh
    simp [hc, hh]

theorem persist_eq_committed (env : Env) (l l1 : Ledger) (w : Wording) (evt : String)
    (r : Preference) (m : Option String) (h : persist env l w evt r = (m, l1)) :
    l1.committed = l.committed := by
  have := persist_committed env l w evt r
  rw [h] at this
  exact this

theorem persist_eq_state (env : Env) (l l1 : Ledger) (w : Wording) (evt : String)
    (r : Preference) (m : Option String) (k : String)
    (h : persist env l w evt r = (m, l1)) (hk : k ≠ r.Phone) : l1.state k = l.state k := by
  have := persist_state_other env l w evt r k hk
  rw [h] at this
  exact this

/-! ### Frame of the two arms of `sp` -/

theorem spAbsent_committed (env : Env) (l : Ledger) (data : JMap) (orgs : List String) :
    (spAbsent env l data orgs).ledger.committed = l.committed := by
  unfold spAbsent
  split
  · cases hb : buildPreference data orgs with
    | none => rfl
    | some r =>
      dsimp only
      split <;> (rename_i heq; exact persist_eq_committed _ _ _ _ _ _ _ heq)
  · rfl

theorem spAbsent_frame (env : Env) (l : Ledger) (data : JMap) (orgs : List String)
    (k : String) (hk : fieldStr data "msisdn" ≠ some k) :
    (spAbsent env l data orgs).ledger.state k = l.state k := by
  unfold spAbsent
  split
  · cases hb : buildPreference data orgs with
    | none => rfl
    | some r =>
      have hne : k ≠ r.Phone := by
        intro h
        exact hk (by rw [buildPreference_phone _ _ _ hb, h])
      dsimp only
      split <;> (rename_i heq; exact persist_eq_state _ _ _ _ _ _ _ _ heq hne)
  · rfl

theorem spPresent_committed (env : Env) (l : Ledger) (data : JMap) (orgs : List String)
    (value : String) :
    (spPresent env l data orgs value).ledger.committed = l.committed := by
  unfold spPresent
  split
  · cases hu : env.unmarshalPreference value with
    | error e => rfl
    | ok old =>
      cases ho : orgs.head? with
      | none => rfl
      | some org =>
        dsimp only
        split
        · cases hb : buildPreference data orgs with
          | none => rfl
          | some r =>
            dsimp only
            split <;> (rename_i heq; exact persist_eq_committed _ _ _ _ _ _ _ heq)
        · rfl
  · rfl

theorem spPresent_frame (env : Env) (l : Ledger) (data : JMap) (orgs : List String)
    (value : String) (k : String) (hk : fieldStr data "msisdn" ≠ some k) :
    (spPresent env l data orgs value).ledger.state k = l.state k := by
  unfold spPresent
  split
  · cases hu : env.unmarshalPreference value with
    | error e => rfl
    | ok old =>
      cases ho : orgs.head? with
      | none => rfl
      | some org =>
        dsimp only
        split
        · cases hb : buildPreference data orgs with
          | none => rfl
          | some r =>
            have hne : k ≠ r.Phone := by
              intro h
              exact hk (by rw [buildPreference_phone _ _ _ hb, h])
            dsimp only
            split <;> (rename_i heq; exact persist_eq_state _ _ _ _ _ _ _ _ heq hne)
        · rfl
  · rfl

/-- A record of another organization stops the `else` arm before any write. -/
theorem spPresent_foreign (env : Env) (l : Ledger) (data : JMap) (orgs : List String)
    (value : String) (old : Preference) (hc : env.cert = .ok orgs)
    (hdec : env.unmarshalPreference value = .ok old)
    (hforeign : callerOrg env ≠ some old.UpdatedBy) :
    (spPresent env l data orgs value).ledger = l := by
  unfold spPresent
  split
  · rw [hdec]
    cases ho : orgs.head? with
    | none => rfl
    | some org =>
      have hco := callerOrg_head env orgs org hc ho
      have hne : ¬ old.UpdatedBy = org := by
        intro h
        exact hforeign (by rw [hco, h])
      simp [hne]
  · rfl

/-! ### The way through `sp` -/

/-- Either `sp` stops in its checks with the ledger untouched, or it reaches
one of its two arms with the input decoded, the certificate read, both format
checks passed and the state read. -/
theorem setPreferences_path (env : Env) (l : Ledger) (args : List String) :
    ((setPreferences env l args).ledger = l ∧
      ∀ msg, (setPreferences env l args).resp ≠ .success msg) ∨
    ∃ a rest data orgs msisdn, args = a :: rest ∧ env.jsonUnmarshalMap a = .ok data ∧
      env.cert = .ok orgs ∧ fieldStr data "msisdn" = some msisdn ∧
      ((l.read env msisdn = none ∧ setPreferences env l args = spAbsent env l data orgs) ∨
       ∃ value, l.read env msisdn = some value ∧
         setPreferences env l args = spPresent env l data orgs value) := by
  cases args with
  | nil => exact Or.inl (by simp [setPreferences])
  | cons a rest =>
    cases hj : env.jsonUnmarshalMap a with
    | error e => exact Or.inl (by simp [setPreferences, hj])
    | ok data =>
      cases hc : env.cert with
      | error e => exact Or.inl (by simp [setPreferences, hj, hc])
      | ok orgs =>
        cases hm : fieldStr data "msisdn" with
        | none => exact Or.inl (by simp [setPreferences, hj, hc, hm])
        | some msisdn =>
          by_cases h1 : (atoi msisdn).isNone = true
          · exact Or.inl (by simp [setPreferences, hj, hc, hm, h1])
          by_cases h2 : strLen msisdn < 10
          · exact Or.inl (by simp [setPreferences, hj, hc, hm, h1, h2])
          cases hl : fieldStr data "lrn" with
          | none => exact Or.inl (by simp [setPreferences, hj, hc, hm, h1, h2, hl])
          | some lrn =>
            by_cases h3 : (atoi lrn).isNone = true
            · exact Or.inl (by simp [setPreferences, hj, hc, hm, h1, h2, hl, h3])
            cases hg : env.getStateErr msisdn with
            | some e =>
              exact Or.inl (by simp [setPreferences, getState, hj, hc, hm, h1, h2, hl, h3, hg])
            | none =>
              refine Or.inr ⟨a, rest, data, orgs, msisdn, rfl, hj, rfl, hm, ?_⟩
              cases hr : l.read env msisdn with
              | none =>
                exact Or.inl ⟨rfl, by
                  simp [setPreferences, getState, hj, hc, hm, h1, h2, hl, h3, hg, hr]⟩
              | some value =>
                exact Or.inr ⟨value, rfl, by
                  simp [setPreferences, getState, hj, hc, hm, h1, h2, hl, h3, hg, hr]⟩

theorem setPreferences_committed (env : Env) (l : Ledger) (args : List String) :
    (setPreferences env l args).ledger.committed = l.committed := by
  rcases setPreferences_path env l args with ⟨h, _⟩ | ⟨a, rest, data, orgs, m, _, _, _, _, h⟩
  · rw [h]
  · rcases h with ⟨_, h⟩ | ⟨value, _, h⟩
    · rw [h]
      exact spAbsent_committed env l data orgs
    · rw [h]
      exact spPresent_committed env l data orgs value

/-- A record of another organization stored under `p` survives every `sp`. -/
theorem setPreferences_frozen (env : Env) (l : Ledger) (p value : String)
    (old : Preference) (hread : l.read env p = some value)
    (hdec : env.unmarshalPreference value = .ok old)
    (hforeign : callerOrg env ≠ some old.UpdatedBy) (args : List String) :
    (setPreferences env l args).ledger.state p = l.state p := by
  rcases setPreferences_path env l args with ⟨h, _⟩ | ⟨a, rest, data, orgs, m, _, _, hc, hm, h⟩
  · rw [h]
  · by_cases hmp : m = p
    · subst hmp
      rcases h with ⟨hr, _⟩ | ⟨v, hr, h⟩
      · rw [hread] at hr
        simp at hr
      · rw [hread] at hr
        simp at hr
        subst hr
        rw [h, spPresent_foreign env l data orgs _ old hc hdec hforeign]
    · have hk : fieldStr data "msisdn" ≠ some p := by
        rw [hm]
        simpa using hmp
      rcases h with ⟨_, h⟩ | ⟨v, _, h⟩
      · rw [h]
        exact spAbsent_frame env l data orgs p hk
      · rw [h]
        exact spPresent_frame env l data orgs v p hk

/-! ### Frame of the loop body of `abp` -/

theorem rejectItem_ledger (env : Env) (l : Ledger) (result : List String) (n : Nat)
    (out : Output) : (rejectItem env l result n out).ledger = l := by
  unfold rejectItem
  cases env.marshalOutput out <;> rfl

theorem batchAbsent_committed (env : Env) (l : Ledger) (result : List String) (n : Nat)
    (arg : String) (data : JMap) (orgs : List String) :
    (batchAbsent env l result n arg data orgs).ledger.committed = l.committed := by
  unfold batchAbsent
  split
  · cases hb : buildPreference data orgs with
    | none => rfl
    | some r =>
      dsimp only
      split <;> (rename_i heq; exact persist_eq_committed _ _ _ _ _ _ _ heq)
  · rw [rejectItem_ledger]

theorem batchAbsent_frame (env : Env) (l : Ledger) (result : List String) (n : Nat)
    (arg : String) (data : JMap) (orgs : List String)
    (k : String) (hk : fieldStr data "msisdn" ≠ some k) :
    (batchAbsent env l result n arg data orgs).ledger.state k = l.state k := by
  unfold batchAbsent
  split
  · cases hb : buildPreference data orgs with
    | none => rfl
    | some r =>
      have hne : k ≠ r.Phone := by
        intro h
        exact hk (by rw [buildPreference_phone _ _ _ hb, h])
      dsimp only
      split <;> (rename_i heq; exact persist_eq_state _ _ _ _ _ _ _ _ heq hne)
  · rw [rejectItem_ledger]

theorem batchPresent_committed (env : Env) (l : Ledger) (result : List String) (n : Nat)
    (arg : String) (data : JMap) (orgs : List String) (value : String) :
    (batchPresent env l result n arg data orgs value).ledger.committed = l.committed := by
  unfold batchPresent
  split
  · cases hu : env.unmarshalPreference value with
    | error e => rfl
    | ok old =>
      cases ho : orgs.head? with
      | none => rfl
      | some org =>
        dsimp only
        split
        · cases hb : buildPreference data orgs with
          | none => rfl
          | some r =>
            dsimp only
            split <;> (rename_i heq; exact persist_eq_committed _ _ _ _ _ _ _ heq)
        · rw [rejectItem_ledger]
  · rw [rejectItem_ledger]

theorem batchPresent_frame (env : Env) (l : Ledger) (result : List String) (n : Nat)
    (arg : String) (data : JMap) (orgs : List String) (value : String)
    (k : String) (hk : fieldStr data "msisdn" ≠ some k) :
    (batchPresent env l result n arg data orgs value).ledger.state k = l.state k := by
  unfold batchPresent
  split
  · cases hu : env.unmarshalPreference value with
    | error e => rfl
    | ok old =>
      cases ho : orgs.head? with
      | none => rfl
      | some org =>
        dsimp only
        split
        · cases hb : buildPreference data orgs with
          | none => rfl
          | some r =>
            have hne : k ≠ r.Phone := by
              intro h
              exact hk (by rw [buildPreference_phone _ _ _ hb, h])
            dsimp only
            split <;> (rename_i heq; exact persist_eq_state _ _ _ _ _ _ _ _ heq hne)
        · rw [rejectItem_ledger]
  · rw [rejectItem_ledger]

theorem batchPresent_foreign (env : Env) (l : Ledger) (result : List String) (n : Nat)
    (arg : String) (data : JMap) (orgs : List String)
    (value : String) (old : Preference) (hc : env.cert = .ok orgs)
    (hdec : env.unmarshalPreference value = .ok old)
    (hforeign : callerOrg env ≠ some old.UpdatedBy) :
    (batchPresent env l result n arg data orgs value).ledger = l := by
  unfold batchPresent
  split
  · rw [hdec]
    cases ho : orgs.head? with
    | none => rfl
    | some org =>
      have hco := callerOrg_head env orgs org hc ho
      have hne : ¬ old.UpdatedBy = org := by
        intro h
        exact hforeign (by rw [hco, h])
      simp [hne, rejectItem_ledger]
  · rw [rejectItem_ledger]

/-- Either the loop body leaves the ledger untouched, or it reaches one of its
two arms with the item decoded, the certificate read and the state read. -/
theorem batchItem_path (env : Env) (l : Ledger) (result : List String) (n : Nat)
    (arg : String) :
    (batchItem env l result n arg).ledger = l ∨
    ∃ (data : JMap) (orgs : List String) (msisdn : String) (t : Tally),
      env.jsonUnmarshalMap arg = .ok data ∧
      env.cert = .ok orgs ∧ fieldStr data "msisdn" = some msisdn ∧
      ((l.read env msisdn = none ∧
          batchItem env l result n arg = batchAbsent env l t.result t.errorCount arg data orgs) ∨
       ∃ value, l.read env msisdn = some value ∧
          batchItem env l result n arg
            = batchPresent env l t.result t.errorCount arg data orgs value) := by
  cases hj : env.jsonUnmarshalMap arg with
  | error e => exact Or.inl (by simp [batchItem, hj, BatchStep.ledger])
  | ok data =>
    cases hc : env.cert with
    | error e => exact Or.inl (by simp [batchItem, hj, hc, BatchStep.ledger])
    | ok orgs =>
      cases hk : batchChecks env data result n with
      | none => exact Or.inl (by simp [batchItem, hj, hc, hk, BatchStep.ledger])
      | some ck =>
        cases ck with
        | error e => exact Or.inl (by simp [batchItem, hj, hc, hk, BatchStep.ledger])
        | ok t =>
          by_cases h0 : t.errorCheck = 0
          · cases hm : fieldStr data "msisdn" with
            | none => exact Or.inl (by simp [batchItem, hj, hc, hk, h0, hm, BatchStep.ledger])
            | some msisdn =>
              cases hg : env.getStateErr msisdn with
              | some e =>
                exact Or.inl (by
                  simp [batchItem, getState, hj, hc, hk, h0, hm, hg, BatchStep.ledger])
              | none =>
                refine Or.inr ⟨data, orgs, msisdn, t, rfl, rfl, hm, ?_⟩
                cases hr : l.read env msisdn with
                | none =>
                  exact Or.inl ⟨rfl, by simp [batchItem, getState, hj, hc, hk, h0, hm, hg, hr]⟩
                | some value =>
                  exact Or.inr ⟨value, rfl, by
                    simp [batchItem, getState, hj, hc, hk, h0, hm, hg, hr]⟩
          · exact Or.inl (by simp [batchItem, hj, hc, hk, h0, BatchStep.ledger])

theorem batchItem_committed (env : Env) (l : Ledger) (result : List String) (n : Nat)
    (arg : String) : (batchItem env l result n arg).ledger.committed = l.committed := by
  rcases batchItem_path env l result n arg with h | ⟨data, orgs, m, t, _, _, _, h⟩
  · rw [h]
  · rcases h with ⟨_, h⟩ | ⟨value, _, h⟩
    · rw [h]
      exact batchAbsent_committed env l _ _ arg data orgs
    · rw [h]
      exact batchPresent_committed env l _ _ arg data orgs value

theorem batchItem_frozen (env : Env) (l : Ledger) (p value : String)
    (old : Preference) (hread : l.read env p = some value)
    (hdec : env.unmarshalPreference value = .ok old)
    (hforeign : callerOrg env ≠ some old.UpdatedBy)
    (result : List String) (n : Nat) (arg : String) :
    (batchItem env l result n arg).ledger.state p = l.state p := by
  rcases batchItem_path env l result n arg with h | ⟨data, orgs, m, t, _, hc, hm, h⟩
  · rw [h]
  · by_cases hmp : m = p
    · subst hmp
      rcases h with ⟨hr, _⟩ | ⟨v, hr, h⟩
      · rw [hread] at hr
        simp at hr
      · rw [hread] at hr
        simp at hr
        subst hr
        rw [h, batchPresent_foreign env l _ _ arg data orgs _ old hc hdec hforeign]
    · have hk : fieldStr data "msisdn" ≠ some p := by
        rw [hm]
        simpa using hmp
      rcases h with ⟨_, h⟩ | ⟨v, _, h⟩
      · rw [h]
        exact batchAbsent_frame env l _ _ arg data orgs p hk
      · rw [h]
        exact batchPresent_frame env l _ _ arg data orgs v p hk

theorem read_congr (env : Env) (l l1 : Ledger) (k : String)
    (hs : l1.state k = l.state k) (hc : l1.committed = l.committed) :
    l1.read env k = l.read env k := by
  unfold Ledger.read
  rw [hs, hc]

theorem batchLoop_frozen (env : Env) (p value : String) (old : Preference)
    (hdec : env.unmarshalPreference value = .ok old)
    (hforeign : callerOrg env ≠ some old.UpdatedBy) (args : List String) :
    ∀ (l : Ledger) (result : List String) (n : Nat), l.read env p = some value →
      (batchLoop env l result n args).ledger.state p = l.state p := by
  induction args with
  | nil =>
    intro l result n _
    rfl
  | cons arg rest ih =>
    intro l result n hread
    have hs := batchItem_frozen env l p value old hread hdec hforeign result n arg
    have hc := batchItem_committed env l result n arg
    unfold batchLoop
    cases hi : batchItem env l result n arg with
    | halt r l1 =>
      rw [hi] at hs
      exact hs
    | next l1 result1 n1 =>
      rw [hi] at hs hc
      have hr1 : l1.read env p = some value := by
        rw [read_congr env l l1 p hs hc]
        exact hread
      dsimp only
      rw [ih l1 result1 n1 hr1]
      exact hs

theorem batchPreferences_ledger (env : Env) (l : Ledger) (args : List String) :
    (batchPreferences env l args).ledger = (batchLoop env l [] 0 args).ledger := by
  unfold batchPreferences
  cases batchLoop env l [] 0 args with
  | halt r l1 => rfl
  | next l1 result n =>
    dsimp only
    split <;> rfl

/-! ### Frame of `dp` and `po` -/

theorem delPreferences_frame (env : Env) (l : Ledger) (key k : String) (hk : k ≠ key) :
    (delPreferences env l [key]).ledger.state k = l.state k := by
  cases hg : env.getStateErr key with
  | some e => simp [delPreferences, getState, hg]
  | none =>
    cases hr : l.read env key with
    | none => simp [delPreferences, getState, hg, hr]
    | some value =>
      cases hu : env.unmarshalPreference value with
      | error e => simp [delPreferences, getState, hg, hr, hu]
      | ok old =>
        cases hc : env.cert with
        | error e => simp [delPreferences, getState, hg, hr, hu, hc]
        | ok orgs =>
          cases ho : orgs.head? with
          | none => simp [delPreferences, getState, hg, hr, hu, hc, ho]
          | some org =>
            by_cases hown : old.UpdatedBy = org
            · cases hd : env.delStateErr key with
              | some e => simp [delPreferences, getState, delState, hg, hr, hu, hc, ho, hown, hd]
              | none =>
                cases he : env.marshalEvent ⟨key, env.txid⟩ with
                | error e =>
                  simp [delPreferences, getState, delState, hg, hr, hu, hc, ho, hown, hd, he, hk]
                | ok pl =>
                  cases hs : env.setEventErr EVTDELPREFERENCES pl <;>
                    simp [delPreferences, getState, delState, setEvent, hg, hr, hu, hc, ho, hown,
                      hd, he, hs, hk]
            · simp [delPreferences, getState, hg, hr, hu, hc, ho, hown]

theorem delPreferences_arity (env : Env) (l : Ledger) (args : List String)
    (h : args.length ≠ 1) : (delPreferences env l args).ledger = l := by
  unfold delPreferences
  split
  · simp at h
  · rfl

/-- A record of another organization stops `dp` before the delete. -/
theorem delPreferences_foreign (env : Env) (l : Ledger) (p value : String)
    (old : Preference) (hread : l.read env p = some value)
    (hdec : env.unmarshalPreference value = .ok old)
    (hforeign : callerOrg env ≠ some old.UpdatedBy) :
    (delPreferences env l [p]).ledger = l := by
  cases hg : env.getStateErr p with
  | some e => simp [delPreferences, getState, hg]
  | none =>
    cases hc : env.cert with
    | error e => simp [delPreferences, getState, hg, hread, hdec, hc]
    | ok orgs =>
      cases ho : orgs.head? with
      | none => simp [delPreferences, getState, hg, hread, hdec, hc, ho]
      | some org =>
        have hne : ¬ old.UpdatedBy = org := by
          intro h
          exact hforeign (by rw [callerOrg_head env orgs org hc ho, h])
        simp [delPreferences, getState, hg, hread, hdec, hc, ho, hne]

theorem delPreferences_frozen (env : Env) (l : Ledger) (p value : String)
    (old : Preference) (hread : l.read env p = some value)
    (hdec : env.unmarshalPreference value = .ok old)
    (hforeign : callerOrg env ≠ some old.UpdatedBy) (args : List String) :
    (delPreferences env l args).ledger.state p = l.state p := by
  by_cases hlen : args.length = 1
  · obtain ⟨key, rfl⟩ := List.length_eq_one.mp hlen
    by_cases hk : p = key
    · subst hk
      rw [delPreferences_foreign env l p value old hread hdec hforeign]
    · exact delPreferences_frame env l key p hk
  · rw [delPreferences_arity env l args hlen]

/-- The ledger of `po` is the one it was given, or what `persist` leaves of the
ported record. -/
theorem portOut_path (env : Env) (l : Ledger) (args : List String) :
    (portOut env l args).ledger = l ∨
    ∃ phone svc uts value old orgs org, args = [phone, svc, uts] ∧
      l.read env phone = some value ∧ env.unmarshalPreference value = .ok old ∧
      env.cert = .ok orgs ∧ orgs.head? = some org ∧ old.UpdatedBy = org ∧
      (portOut env l args).ledger
        = (persist env l wordingPo EVTPORTOUT (portedPreference old phone svc uts org)).2 := by
  unfold portOut
  split
  · exact Or.inl rfl
  · rename_i phone svc uts
    by_cases h1 : (atoi phone).isNone = true
    · exact Or.inl (by simp [h1])
    by_cases h2 : strLen phone < 10
    · exact Or.inl (by simp [h1, h2])
    cases hg : env.getStateErr phone with
    | some e => exact Or.inl (by simp [getState, h1, h2, hg])
    | none =>
      cases hr : l.read env phone with
      | none => exact Or.inl (by simp [getState, h1, h2, hg, hr])
      | some value =>
        cases hu : env.unmarshalPreference value with
        | error e => exact Or.inl (by simp [getState, h1, h2, hg, hr, hu])
        | ok old =>
          cases hc : env.cert with
          | error e => exact Or.inl (by simp [getState, h1, h2, hg, hr, hu, hc])
          | ok orgs =>
            cases ho : orgs.head? with
            | none => exact Or.inl (by simp [getState, h1, h2, hg, hr, hu, hc, ho])
            | some org =>
              by_cases hown : old.UpdatedBy = org
              · refine Or.inr ⟨phone, svc, uts, value, old, orgs, org, rfl, hr, hu, rfl, ho,
                  hown, ?_⟩
                simp only [getState, h1, h2, hg, hr, hu, hc, ho, hown]
                simp only [Bool.false_eq_true, if_false, if_true]
                split <;> (rename_i heq; rw [heq])
              · exact Or.inl (by simp [getState, h1, h2, hg, hr, hu, hc, ho, hown])
  · exact Or.inl rfl

theorem portOut_committed (env : Env) (l : Ledger) (args : List String) :
    (portOut env l args).ledger.committed = l.committed := by
  rcases portOut_path env l args with h | ⟨phone, svc, uts, v, o, orgs, org, _, _, _, _, _, _, h⟩
  · rw [h]
  · rw [h]
    exact persist_committed _ _ _ _ _

theorem portOut_frame (env : Env) (l : Ledger) (phone svc uts k : String) (hk : k ≠ phone) :
    (portOut env l [phone, svc, uts]).ledger.state k = l.state k := by
  rcases portOut_path env l [phone, svc, uts] with
    h | ⟨phone1, svc1, uts1, v, o, orgs, org, harg, _, _, _, _, _, h⟩
  · rw [h]
  · simp at harg
    obtain ⟨rfl, rfl, rfl⟩ := harg
    rw [h]
    exact persist_state_other _ _ _ _ _ k hk

/-- A record of another organization stored under `p` survives every `po`. -/
theorem portOut_frozen (env : Env) (l : Ledger) (p value : String)
    (old : Preference) (hread : l.read env p = some value)
    (hdec : env.unmarshalPreference value = .ok old)
    (hforeign : callerOrg env ≠ some old.UpdatedBy) (args : List String) :
    (portOut env l args).ledger = l ∨
      ((portOut env l args).ledger.state p = l.state p ∧ ∀ a b, args ≠ [p, a, b]) := by
  rcases portOut_path env l args with
    h | ⟨phone, svc, uts, v, o, orgs, org, harg, hr, hu, hc, ho, hown, h⟩
  · exact Or.inl h
  · right
    subst harg
    have hne : p ≠ phone := by
      intro hpp
      subst hpp
      rw [hread] at hr
      simp at hr
      subst hr
      rw [hdec] at hu
      simp at hu
      subst hu
      exact hforeign (by rw [callerOrg_head env orgs org hc ho, hown])
    refine ⟨portOut_frame env l phone svc uts p hne, ?_⟩
    intro a b hab
    simp at hab
    exact hne hab.1.symm

/-- A record of another organization stored under the submitted msisdn stops
`sp` with the ledger untouched. -/
theorem setPreferences_foreign (env : Env) (l : Ledger) (p value : String)
    (old : Preference) (hread : l.read env p = some value)
    (hdec : env.unmarshalPreference value = .ok old)
    (hforeign : callerOrg env ≠ some old.UpdatedBy)
    (a : String) (rest : List String) (data : JMap)
    (hj : env.jsonUnmarshalMap a = .ok data) (hm : fieldStr data "msisdn" = some p) :
    (setPreferences env l (a :: rest)).ledger = l := by
  rcases setPreferences_path env l (a :: rest) with
    ⟨h, _⟩ | ⟨a1, rest1, data1, orgs, m, harg, hj1, hc, hm1, h⟩
  · exact h
  · simp at harg
    obtain ⟨rfl, rfl⟩ := harg
    rw [hj] at hj1
    simp at hj1
    subst hj1
    rw [hm] at hm1
    simp at hm1
    subst hm1
    rcases h with ⟨hr, _⟩ | ⟨v, hr, h⟩
    · rw [hread] at hr
      simp at hr
    · rw [hread] at hr
      simp at hr
      subst hr
      rw [h, spPresent_foreign env l data orgs _ old hc hdec hforeign]

/-! ## C1 -/

/-- C1: when the value read under key `p` decodes to a record whose `UpdatedBy`
is not the caller organization, no `sp`, `abp`, `dp` or `po`, whatever its
arguments, changes what is stored under `p`; and `sp` with msisdn `p`, `dp [p]`
and `po [p, sp2, ts2]` emit no event. -/
theorem foreign_record_untouched (env : Env) (l : Ledger) (p value : String)
    (old : Preference) (hread : l.read env p = some value)
    (hdec : env.unmarshalPreference value = .ok old)
    (hforeign : callerOrg env ≠ some old.UpdatedBy) :
    (∀ args, (setPreferences env l args).ledger.state p = l.state p) ∧
    (∀ args, (batchPreferences env l args).ledger.state p = l.state p) ∧
    (∀ args, (delPreferences env l args).ledger.state p = l.state p) ∧
    (∀ args, (portOut env l args).ledger.state p = l.state p) ∧
    (∀ a rest data, env.jsonUnmarshalMap a = .ok data → fieldStr data "msisdn" = some p →
      (setPreferences env l (a :: rest)).ledger.events = l.events) ∧
    (delPreferences env l [p]).ledger.events = l.events ∧
    (∀ sp2 ts2, (portOut env l [p, sp2, ts2]).ledger.events = l.events) := by
  refine ⟨?_, ?_, ?_, ?_, ?_, ?_, ?_⟩
  · exact setPreferences_frozen env l p value old hread hdec hforeign
  · intro args
    rw [batchPreferences_ledger]
    exact batchLoop_frozen env p value old hdec hforeign args l [] 0 hread
  · exact delPreferences_frozen env l p value old hread hdec hforeign
  · intro args
    rcases portOut_frozen env l p value old hread hdec hforeign args with h | h
    · rw [h]
    · exact h.1
  · intro a rest data hj hm
    rw [setPreferences_foreign env l p value old hread hdec hforeign a rest data hj hm]
  · rw [delPreferences_foreign env l p value old hread hdec hforeign]
  · intro sp2 ts2
    rcases portOut_frozen env l p value old hread hdec hforeign [p, sp2, ts2] with h | h
    · rw [h]
    · exact absurd rfl (h.2 sp2 ts2)

theorem foreign_record_untouched_witness :
    ledgerB.read (envA []) phone1 = some (renderPreference recOfB) ∧
    (envA []).unmarshalPreference (renderPreference recOfB) = .ok recOfB ∧
    callerOrg (envA []) ≠ some recOfB.UpdatedBy ∧
    (delPreferences (envA []) ledgerB [phone1]).ledger.events = ledgerB.events :=
  have h1 : ledgerB.read (envA []) phone1 = some (renderPreference recOfB) := by rfl
  have h2 : (envA []).unmarshalPreference (renderPreference recOfB) = .ok recOfB := by rfl
  have h3 : callerOrg (envA []) ≠ some recOfB.UpdatedBy := by decide
  ⟨h1, h2, h3, (foreign_record_untouched _ _ _ _ _ h1 h2 h3).2.2.2.2.2.1⟩

/-! ## C2 -/

theorem isNone_false_of_isSome {α : Type} (o : Option α) (h : o.isSome = true) :
    o.isNone = false := by
  cases o <;> simp_all

/-- Where `sp` arrives once the input is decoded, the certificate read, the
format checks passed and the state read: at one of its two arms. -/
theorem setPreferences_reach (env : Env) (l : Ledger) (a : String) (rest : List String)
    (data : JMap) (orgs : List String) (msisdn lrn : String)
    (hj : env.jsonUnmarshalMap a = .ok data) (hc : env.cert = .ok orgs)
    (hm : fieldStr data "msisdn" = some msisdn) (hp : phoneOK msisdn)
    (hl : fieldStr data "lrn" = some lrn) (hlo : lrnOK lrn)
    (hg : env.getStateErr msisdn = none) :
    setPreferences env l (a :: rest) =
      match l.read env msisdn with
      | none => spAbsent env l data orgs
      | some value => spPresent env l data orgs value := by
  have h1 := isNone_false_of_isSome _ hp.1
  have h2 : ¬ strLen msisdn < 10 := Nat.not_lt.mpr hp.2
  have h3 := isNone_false_of_isSome _ hlo
  cases hr : l.read env msisdn <;>
    simp [setPreferences, getState, hj, hc, hm, h1, h2, hl, h3, hg, hr]

/-- C2 (amended): on a record read under `p` that belongs to another
organization, `sp` with a map of 11 keys whose msisdn is `p` and whose msisdn
and lrn pass the format checks, `dp [p]`, and `po [p, sp2, ts2]` with `p`
passing the phone check, all answer with the Unauthorized error (the
certificate lookup and the state read succeeding). -/
theorem foreign_mutation_unauthorized (env : Env) (l : Ledger) (p value : String)
    (old : Preference) (org : String) (others : List String)
    (hread : l.read env p = some value)
    (hdec : env.unmarshalPreference value = .ok old)
    (hcert : env.cert = .ok (org :: others)) (hforeign : old.UpdatedBy ≠ org)
    (hg : env.getStateErr p = none) :
    (∀ a rest data lrn, env.jsonUnmarshalMap a = .ok data →
      fieldStr data "msisdn" = some p → phoneOK p →
      fieldStr data "lrn" = some lrn → lrnOK lrn → data.len = 11 →
      (setPreferences env l (a :: rest)).resp = .error "Unauthorized Access") ∧
    (delPreferences env l [p]).resp = .error "Unauthorized access" ∧
    (∀ sp2 ts2, phoneOK p →
      (portOut env l [p, sp2, ts2]).resp = .error "Unauthorized Access") := by
  refine ⟨?_, ?_, ?_⟩
  · intro a rest data lrn hj hm hp hl hlo hlen
    rw [setPreferences_reach env l a rest data _ p lrn hj hcert hm hp hl hlo hg, hread]
    simp [spPresent, hlen, hdec, hforeign]
  · simp [delPreferences, getState, hg, hread, hdec, hcert, hforeign]
  · intro sp2 ts2 hp
    have h1 := isNone_false_of_isSome _ hp.1
    have h2 : ¬ strLen p < 10 := Nat.not_lt.mpr hp.2
    simp [portOut, getState, h1, h2, hg, hread, hdec, hcert, hforeign]

theorem foreign_mutation_unauthorized_witness :
    ledgerB.read (envA [goodDoc]) phone1 = some (renderPreference recOfB) ∧
    (envA [goodDoc]).unmarshalPreference (renderPreference recOfB) = .ok recOfB ∧
    (envA [goodDoc]).cert = .ok ["OrgA"] ∧ recOfB.UpdatedBy ≠ "OrgA" ∧
    phoneOK phone1 ∧ lrnOK "4001" ∧ goodDoc.len = 11 ∧
    (setPreferences (envA [goodDoc]) ledgerB [renderMap goodDoc]).resp
      = .error "Unauthorized Access" :=
  have h1 : ledgerB.read (envA [goodDoc]) phone1 = some (renderPreference recOfB) := by rfl
  have h2 : (envA [goodDoc]).unmarshalPreference (renderPreference recOfB) = .ok recOfB := by
    rfl
  have h3 : recOfB.UpdatedBy ≠ "OrgA" := by decide
  have h4 : phoneOK phone1 := by decide
  have h5 : lrnOK "4001" := by decide
  have h6 : goodDoc.len = 11 := by decide
  ⟨h1, h2, rfl, h3, h4, h5, h6,
    (foreign_mutation_unauthorized (envA [goodDoc]) ledgerB phone1 _ recOfB "OrgA" [] h1 h2 rfl
      h3 rfl).1 (renderMap goodDoc) [] goodDoc "4001" (by rfl) (by rfl) h4 (by rfl) h5 h6⟩

/-- C2 as stated fails: `OrgA` submits `sp` for `phone1`, whose record belongs
to `OrgB`, with a map of ten keys; the answer is the wrong-number-of-keys
error, not the Unauthorized one. -/
theorem foreign_mutation_other_error :
    ledgerB.read (envA [tenKeyDoc]) phone1 = some (renderPreference recOfB) ∧
    (envA [tenKeyDoc]).unmarshalPreference (renderPreference recOfB) = .ok recOfB ∧
    callerOrg (envA [tenKeyDoc]) = some "OrgA" ∧ recOfB.UpdatedBy = "OrgB" ∧
    (envA [tenKeyDoc]).jsonUnmarshalMap (renderMap tenKeyDoc) = .ok tenKeyDoc ∧
    fieldStr tenKeyDoc "msisdn" = some phone1 ∧
    (setPreferences (envA [tenKeyDoc]) ledgerB [renderMap tenKeyDoc]).resp
      = .error ("setPreferences : Incorrect Number Of Arguments, Expected json structure : "
          ++ expectedJson) ∧
    (setPreferences (envA [tenKeyDoc]) ledgerB [renderMap tenKeyDoc]).resp
      ≠ .error "Unauthorized Access" := by
  refine ⟨by rfl, by rfl, by rfl, by rfl, by rfl, by rfl, by rfl, ?_⟩
  decide

/-! ## C3 and C4 -/

/-- When its four steps succeed, `persist` puts the marshalled record under its
phone and appends one event. -/
theorem persist_ok (env : Env) (l : Ledger) (w : Wording) (evt : String) (r : Preference)
    (bytes payload : String) (hmar : env.marshalPreference r = .ok bytes)
    (hput : env.putStateErr r.Phone bytes = none)
    (hev : env.marshalEvent ⟨bytes, env.txid⟩ = .ok payload)
    (hset : env.setEventErr evt payload = none) :
    persist env l w evt r =
      (none, { committed := l.committed
               state := fun k => if k = r.Phone then some bytes else l.state k
               puts := l.puts ++ [(r.Phone, bytes)]
               events := l.events ++ [(evt, payload)] }) := by
  simp [persist, putState, setEvent, hmar, hput, hev, hset]

/-- The record built from a map that has the eleven fields as strings. -/
theorem buildPreference_ok (data : JMap) (org : String) (others : List String)
    (p svcprv reqno rmode ctgr cmode day time lrn uts cts : String)
    (h1 : fieldStr data "msisdn" = some p) (h2 : fieldStr data "svcprv" = some svcprv)
    (h3 : fieldStr data "reqno" = some reqno) (h4 : fieldStr data "rmode" = some rmode)
    (h5 : fieldStr data "ctgr" = some ctgr) (h6 : fieldStr data "cmode" = some cmode)
    (h7 : fieldStr data "day" = some day) (h8 : fieldStr data "time" = some time)
    (h9 : fieldStr data "lrn" = some lrn) (h10 : fieldStr data "uts" = some uts)
    (h11 : fieldStr data "cts" = some cts) :
    buildPreference data (org :: others) =
      some { ObjType := "Preferences", Phone := p, ServiceProvider := svcprv,
             RequestNumber := reqno, RegistrationMode := rmode, Category := ctgr,
             CommunicationMode := cmode, DayType := day, DayTimeBand := time, Lrn := lrn,
             UpdateTs := uts, CreateTs := cts, UpdatedBy := org } := by
  simp [buildPreference, h1, h2, h3, h4, h5, h6, h7, h8, h9, h10, h11]

/-- C3: on a key `p` read as absent, `sp` with a map of exactly 11 keys that has
the eleven required fields as strings, msisdn `p` passing the phone check and
lrn passing the lrn check, by a caller whose first organization is `org`,
succeeds, puts under `p` the marshalled record with kind `Preferences`, the
submitted phone and ten fields and `UpdatedBy = org`, and appends exactly one
`ADD-PREFERENCES` event (the collaborators not failing). -/
theorem sp_creates_record (env : Env) (l : Ledger) (a : String) (rest : List String)
    (data : JMap) (org : String) (others : List String)
    (p svcprv reqno rmode ctgr cmode day time lrn uts cts bytes payload : String)
    (hj : env.jsonUnmarshalMap a = .ok data) (hlen : data.len = 11)
    (h1 : fieldStr data "msisdn" = some p) (h2 : fieldStr data "svcprv" = some svcprv)
    (h3 : fieldStr data "reqno" = some reqno) (h4 : fieldStr data "rmode" = some rmode)
    (h5 : fieldStr data "ctgr" = some ctgr) (h6 : fieldStr data "cmode" = some cmode)
    (h7 : fieldStr data "day" = some day) (h8 : fieldStr data "time" = some time)
    (h9 : fieldStr data "lrn" = some lrn) (h10 : fieldStr data "uts" = some uts)
    (h11 : fieldStr data "cts" = some cts)
    (hp : phoneOK p) (hlo : lrnOK lrn)
    (hcert : env.cert = .ok (org :: others))
    (hg : env.getStateErr p = none) (habsent : l.read env p = none)
    (hmar : env.marshalPreference
      { ObjType := "Preferences", Phone := p, ServiceProvider := svcprv,
        RequestNumber := reqno, RegistrationMode := rmode, Category := ctgr,
        CommunicationMode := cmode, DayType := day, DayTimeBand := time, Lrn := lrn,
        UpdateTs := uts, CreateTs := cts, UpdatedBy := org } = .ok bytes)
    (hput : env.putStateErr p bytes = none)
    (hev : env.marshalEvent ⟨bytes, env.txid⟩ = .ok payload)
    (hset : env.setEventErr EVTADDPREFERENCES payload = none) :
    (setPreferences env l (a :: rest)).resp
      = .success ("setPreferences : Preferences data added Successfully for MSISDN : "
          ++ p ++ " , TransactionID      " ++ env.txid) ∧
    (setPreferences env l (a :: rest)).ledger.state p = some bytes ∧
    (setPreferences env l (a :: rest)).ledger.puts = l.puts ++ [(p, bytes)] ∧
    (setPreferences env l (a :: rest)).ledger.events
      = l.events ++ [(EVTADDPREFERENCES, payload)] := by
  rw [setPreferences_reach env l a rest data _ p lrn hj hcert h1 hp h9 hlo hg, habsent]
  have hb := buildPreference_ok data org others p svcprv reqno rmode ctgr cmode day time lrn
    uts cts h1 h2 h3 h4 h5 h6 h7 h8 h9 h10 h11
  have hpers := persist_ok env l wordingSpAdd EVTADDPREFERENCES _ bytes payload hmar hput hev
    hset
  simp [spAbsent, hlen, hb, hpers]

/-- C4: on a key `p` whose stored record belongs to the caller organization
`org`, `sp` with a map of exactly 11 keys that has the eleven required fields
as strings, msisdn `p` and lrn passing the checks, succeeds, puts under `p`
the marshalled record made of the submitted fields and `UpdatedBy = org` only
(nothing of the old record), and appends one `UPDATE-PREFERENCES` event, which
is not an `ADD-PREFERENCES` one (the collaborators not failing). -/
theorem sp_replaces_record (env : Env) (l : Ledger) (a : String) (rest : List String)
    (data : JMap) (org : String) (others : List String) (value : String) (old : Preference)
    (p svcprv reqno rmode ctgr cmode day time lrn uts cts bytes payload : String)
    (hj : env.jsonUnmarshalMap a = .ok data) (hlen : data.len = 11)
    (h1 : fieldStr data "msisdn" = some p) (h2 : fieldStr data "svcprv" = some svcprv)
    (h3 : fieldStr data "reqno" = some reqno) (h4 : fieldStr data "rmode" = some rmode)
    (h5 : fieldStr data "ctgr" = some ctgr) (h6 : fieldStr data "cmode" = some cmode)
    (h7 : fieldStr data "day" = some day) (h8 : fieldStr data "time" = some time)
    (h9 : fieldStr data "lrn" = some lrn) (h10 : fieldStr data "uts" = some uts)
    (h11 : fieldStr data "cts" = some cts)
    (hp : phoneOK p) (hlo : lrnOK lrn)
    (hcert : env.cert = .ok (org :: others))
    (hg : env.getStateErr p = none) (hread : l.read env p = some value)
    (hdec : env.unmarshalPreference value = .ok old) (hown : old.UpdatedBy = org)
    (hmar : env.marshalPreference
      { ObjType := "Preferences", Phone := p, ServiceProvider := svcprv,
        RequestNumber := reqno, RegistrationMode := rmode, Category := ctgr,
        CommunicationMode := cmode, DayType := day, DayTimeBand := time, Lrn := lrn,
        UpdateTs := uts, CreateTs := cts, UpdatedBy := org } = .ok bytes)
    (hput : env.putStateErr p bytes = none)
    (hev : env.marshalEvent ⟨bytes, env.txid⟩ = .ok payload)
    (hset : env.setEventErr EVTUPDATEPREFERENCES payload = none) :
    (setPreferences env l (a :: rest)).resp
      = .success ("setPreferences : Preference data updated  successfully for MSISDN : "
          ++ p ++ " , TransactionID      " ++ env.txid) ∧
    (setPreferences env l (a :: rest)).ledger.state p = some bytes ∧
    (setPreferences env l (a :: rest)).ledger.puts = l.puts ++ [(p, bytes)] ∧
    (setPreferences env l (a :: rest)).ledger.events
      = l.events ++ [(EVTUPDATEPREFERENCES, payload)] ∧
    EVTUPDATEPREFERENCES ≠ EVTADDPREFERENCES := by
  rw [setPreferences_reach env l a rest data _ p lrn hj hcert h1 hp h9 hlo hg, hread]
  have hb := buildPreference_ok data org others p svcprv reqno rmode ctgr cmode day time lrn
    uts cts h1 h2 h3 h4 h5 h6 h7 h8 h9 h10 h11
  have hpers := persist_ok env l wordingSpUpdate EVTUPDATEPREFERENCES _ bytes payload hmar
    hput hev hset
  simp [spPresent, hlen, hdec, hown, hb, hpers]
  decide

theorem sp_creates_record_witness :
    (ledgerOf []).read (envA [goodDoc]) phone1 = none ∧
    goodDoc.len = 11 ∧ phoneOK phone1 ∧ lrnOK "4001" ∧
    (setPreferences (envA [goodDoc]) (ledgerOf []) [renderMap goodDoc]).resp
      = .success ("setPreferences : Preferences data added Successfully for MSISDN : "
          ++ phone1 ++ " , TransactionID      " ++ (envA [goodDoc]).txid) ∧
    (setPreferences (envA [goodDoc]) (ledgerOf []) [renderMap goodDoc]).ledger.state phone1
      = some (renderPreference goodRecord) ∧
    (setPreferences (envA [goodDoc]) (ledgerOf []) [renderMap goodDoc]).ledger.puts
      = (ledgerOf []).puts ++ [(phone1, renderPreference goodRecord)] ∧
    (setPreferences (envA [goodDoc]) (ledgerOf []) [renderMap goodDoc]).ledger.events
      = (ledgerOf []).events
        ++ [(EVTADDPREFERENCES, renderEvent ⟨renderPreference goodRecord, "tx1"⟩)] :=
  have hlen : goodDoc.len = 11 := by decide
  have hp : phoneOK phone1 := by decide
  have hlo : lrnOK "4001" := by decide
  ⟨rfl, hlen, hp, hlo,
    sp_creates_record (envA [goodDoc]) (ledgerOf []) (renderMap goodDoc) [] goodDoc "OrgA" []
      phone1 "P2" "R1" "web" "1" "sms" "all" "day" "4001" "1700000000" "1700000000"
      (renderPreference goodRecord) (renderEvent ⟨renderPreference goodRecord, "tx1"⟩)
      (by rfl) hlen (by rfl) (by rfl) (by rfl) (by rfl) (by rfl) (by rfl) (by rfl) (by rfl)
      (by rfl) (by rfl) (by rfl) hp hlo rfl rfl rfl rfl rfl rfl rfl⟩

theorem sp_replaces_record_witness :
    ledgerA.read (envA [goodDoc]) phone1 = some (renderPreference recOfA) ∧
    (envA [goodDoc]).unmarshalPreference (renderPreference recOfA) = .ok recOfA ∧
    recOfA.UpdatedBy = "OrgA" ∧ goodDoc.len = 11 ∧ phoneOK phone1 ∧ lrnOK "4001" ∧
    (setPreferences (envA [goodDoc]) ledgerA [renderMap goodDoc]).resp
      = .success ("setPreferences : Preference data updated  successfully for MSISDN : "
          ++ phone1 ++ " , TransactionID      " ++ (envA [goodDoc]).txid) ∧
    (setPreferences (envA [goodDoc]) ledgerA [renderMap goodDoc]).ledger.state phone1
      = some (renderPreference goodRecord) ∧
    (setPreferences (envA [goodDoc]) ledgerA [renderMap goodDoc]).ledger.puts
      = ledgerA.puts ++ [(phone1, renderPreference goodRecord)] ∧
    (setPreferences (envA [goodDoc]) ledgerA [renderMap goodDoc]).ledger.events
      = ledgerA.events
        ++ [(EVTUPDATEPREFERENCES, renderEvent ⟨renderPreference goodRecord, "tx1"⟩)] ∧
    EVTUPDATEPREFERENCES ≠ EVTADDPREFERENCES :=
  have hread : ledgerA.read (envA [goodDoc]) phone1 = some (renderPreference recOfA) := by rfl
  have hdec : (envA [goodDoc]).unmarshalPreference (renderPreference recOfA) = .ok recOfA := by
    rfl
  have hlen : goodDoc.len = 11 := by decide
  have hp : phoneOK phone1 := by decide
  have hlo : lrnOK "4001" := by decide
  ⟨hread, hdec, rfl, hlen, hp, hlo,
    sp_replaces_record (envA [goodDoc]) ledgerA (renderMap goodDoc) [] goodDoc "OrgA" []
      (renderPreference recOfA) recOfA
      phone1 "P2" "R1" "web" "1" "sms" "all" "day" "4001" "1700000000" "1700000000"
      (renderPreference goodRecord) (renderEvent ⟨renderPreference goodRecord, "tx1"⟩)
      (by rfl) hlen (by rfl) (by rfl) (by rfl) (by rfl) (by rfl) (by rfl) (by rfl) (by rfl)
      (by rfl) (by rfl) (by rfl) hp hlo rfl rfl hread hdec rfl rfl rfl rfl rfl⟩

/-! ## C5 -/

theorem buildPreference_cts (data : JMap) (orgs : List String) (r : Preference)
    (h : buildPreference data orgs = some r) : fieldStr data "cts" = some r.CreateTs := by
  unfold buildPreference at h
  split at h
  · simp at h
    subst h
    simp_all
  · simp at h

/-- A `persist` without error message has put the marshalled record under its phone. -/
theorem persist_none_inv (env : Env) (l l1 : Ledger) (w : Wording) (evt : String)
    (r : Preference) (h : persist env l w evt r = (none, l1)) :
    ∃ bytes, env.marshalPreference r = .ok bytes ∧ l1.state r.Phone = some bytes := by
  cases hm : env.marshalPreference r with
  | error e => simp [persist, hm] at h
  | ok b =>
    refine ⟨b, rfl, ?_⟩
    cases hp : env.putStateErr r.Phone b with
    | some e => simp [persist, putState, hm, hp] at h
    | none =>
      cases he : env.marshalEvent ⟨b, env.txid⟩ with
      | error e => simp [persist, putState, hm, hp, he] at h
      | ok pl =>
        cases hs : env.setEventErr evt pl with
        | some e => simp [persist, putState, setEvent, hm, hp, he, hs] at h
        | none =>
          simp [persist, putState, setEvent, hm, hp, he, hs] at h
          subst h
          simp

theorem spAbsent_success (env : Env) (l : Ledger) (data : JMap) (orgs : List String)
    (msg : String) (h : (spAbsent env l data orgs).resp = .success msg) :
    ∃ r, buildPreference data orgs = some r ∧
      persist env l wordingSpAdd EVTADDPREFERENCES r
        = (none, (spAbsent env l data orgs).ledger) := by
  by_cases hlen : data.len = 11
  · cases hb : buildPreference data orgs with
    | none => simp [spAbsent, hlen, hb] at h
    | some r =>
      refine ⟨r, rfl, ?_⟩
      cases hpers : persist env l wordingSpAdd EVTADDPREFERENCES r with
      | mk m l1 =>
        cases m with
        | some e => simp [spAbsent, hlen, hb, hpers] at h
        | none => simp [spAbsent, hlen, hb, hpers]
  · simp [spAbsent, hlen] at h

theorem spPresent_success (env : Env) (l : Ledger) (data : JMap) (orgs : List String)
    (value msg : String) (h : (spPresent env l data orgs value).resp = .success msg) :
    ∃ r, buildPreference data orgs = some r ∧
      persist env l wordingSpUpdate EVTUPDATEPREFERENCES r
        = (none, (spPresent env l data orgs value).ledger) := by
  by_cases hlen : data.len = 11
  · cases hu : env.unmarshalPreference value with
    | error e => simp [spPresent, hlen, hu] at h
    | ok old =>
      cases ho : orgs.head? with
      | none => simp [spPresent, hlen, hu, ho] at h
      | some org =>
        by_cases hown : old.UpdatedBy = org
        · cases hb : buildPreference data orgs with
          | none => simp [spPresent, hlen, hu, ho, hown, hb] at h
          | some r =>
            refine ⟨r, rfl, ?_⟩
            cases hpers : persist env l wordingSpUpdate EVTUPDATEPREFERENCES r with
            | mk m l1 =>
              cases m with
              | some e => simp [spPresent, hlen, hu, ho, hown, hb, hpers] at h
              | none => simp [spPresent, hlen, hu, ho, hown, hb, hpers]
        · simp [spPresent, hlen, hu, ho, hown] at h
  · simp [spPresent, hlen] at h

/-- A successful `sp` has built a record from the decoded input and persisted it. -/
theorem setPreferences_success (env : Env) (l : Ledger) (a : String) (rest : List String)
    (data : JMap) (msg : String) (hj : env.jsonUnmarshalMap a = .ok data)
    (h : (setPreferences env l (a :: rest)).resp = .success msg) :
    ∃ orgs r w evt, buildPreference data orgs = some r ∧
      persist env l w evt r = (none, (setPreferences env l (a :: rest)).ledger) := by
  rcases setPreferences_path env l (a :: rest) with
    ⟨_, hl⟩ | ⟨a1, rest1, data1, orgs, m, harg, hj1, hc, hm1, hb⟩
  · exact absurd h (hl msg)
  · simp at harg
    obtain ⟨rfl, rfl⟩ := harg
    rw [hj] at hj1
    simp at hj1
    subst hj1
    rcases hb with ⟨_, hb⟩ | ⟨value, _, hb⟩
    · rw [hb] at h ⊢
      obtain ⟨r, h1, h2⟩ := spAbsent_success env l data orgs msg h
      exact ⟨orgs, r, _, _, h1, h2⟩
    · rw [hb] at h ⊢
      obtain ⟨r, h1, h2⟩ := spPresent_success env l data orgs value msg h
      exact ⟨orgs, r, _, _, h1, h2⟩

/-- A successful `po` on a stored record has persisted the ported record. -/
theorem portOut_success (env : Env) (l : Ledger) (p sp2 ts2 value msg : String)
    (old : Preference) (hread : l.read env p = some value)
    (hdec : env.unmarshalPreference value = .ok old)
    (h : (portOut env l [p, sp2, ts2]).resp = .success msg) :
    ∃ org, persist env l wordingPo EVTPORTOUT (portedPreference old p sp2 ts2 org)
      = (none, (portOut env l [p, sp2, ts2]).ledger) := by
  revert h
  by_cases h1 : (atoi p).isNone = true
  · simp [portOut, h1]
  by_cases h2 : strLen p < 10
  · simp [portOut, h1, h2]
  cases hg : env.getStateErr p with
  | some e => simp [portOut, getState, h1, h2, hg]
  | none =>
    cases hc : env.cert with
    | error e => simp [portOut, getState, h1, h2, hg, hread, hdec, hc]
    | ok orgs =>
      cases ho : orgs.head? with
      | none => simp [portOut, getState, h1, h2, hg, hread, hdec, hc, ho]
      | some org =>
        by_cases hown : old.UpdatedBy = org
        · cases hpers : persist env l wordingPo EVTPORTOUT
              (portedPreference old p sp2 ts2 org) with
          | mk m l1 =>
            cases m with
            | some e => simp [portOut, getState, h1, h2, hg, hread, hdec, hc, ho, hown, hpers]
            | none =>
              intro _
              refine ⟨org, ?_⟩
              simp [portOut, getState, h1, h2, hg, hread, hdec, hc, ho, hown, hpers]
        · simp [portOut, getState, h1, h2, hg, hread, hdec, hc, ho, hown]

/-- C5 (amended): a successful `po` on a stored record leaves under `p` a
record with the `CreateTs` of the old one; a successful `sp` leaves under the
submitted msisdn a record whose `CreateTs` is the submitted `cts`, whether or
not a record was stored before. -/
theorem createTs_after_write (env : Env) (l : Ledger) (p : String) :
    (∀ sp2 ts2 value old msg, l.read env p = some value →
      env.unmarshalPreference value = .ok old →
      (portOut env l [p, sp2, ts2]).resp = .success msg →
      ∃ r bytes, env.marshalPreference r = .ok bytes ∧
        (portOut env l [p, sp2, ts2]).ledger.state p = some bytes ∧
        r.CreateTs = old.CreateTs) ∧
    (∀ a rest data msg, env.jsonUnmarshalMap a = .ok data →
      fieldStr data "msisdn" = some p →
      (setPreferences env l (a :: rest)).resp = .success msg →
      ∃ r bytes, env.marshalPreference r = .ok bytes ∧
        (setPreferences env l (a :: rest)).ledger.state p = some bytes ∧
        fieldStr data "cts" = some r.CreateTs) := by
  constructor
  · intro sp2 ts2 value old msg hread hdec hs
    obtain ⟨org, hp⟩ := portOut_success env l p sp2 ts2 value msg old hread hdec hs
    obtain ⟨bytes, hb1, hb2⟩ := persist_none_inv _ _ _ _ _ _ hp
    exact ⟨_, bytes, hb1, hb2, rfl⟩
  · intro a rest data msg hj hm hs
    obtain ⟨orgs, r, w, evt, hb, hp⟩ := setPreferences_success env l a rest data msg hj hs
    obtain ⟨bytes, hb1, hb2⟩ := persist_none_inv _ _ _ _ _ _ hp
    have hph := buildPreference_phone _ _ _ hb
    rw [hm] at hph
    simp at hph
    subst hph
    exact ⟨r, bytes, hb1, hb2, buildPreference_cts _ _ _ hb⟩

theorem createTs_after_write_witness :
    ledgerA.read (envA [goodDoc]) phone1 = some (renderPreference recOfA) ∧
    (envA [goodDoc]).unmarshalPreference (renderPreference recOfA) = .ok recOfA ∧
    (∃ msg, (portOut (envA [goodDoc]) ledgerA [phone1, "P9", "1800000000"]).resp
      = .success msg) ∧
    ∃ r bytes, (envA [goodDoc]).marshalPreference r = .ok bytes ∧
      (portOut (envA [goodDoc]) ledgerA [phone1, "P9", "1800000000"]).ledger.state phone1
        = some bytes ∧
      r.CreateTs = recOfA.CreateTs :=
  have hread : ledgerA.read (envA [goodDoc]) phone1 = some (renderPreference recOfA) := by rfl
  have hdec : (envA [goodDoc]).unmarshalPreference (renderPreference recOfA) = .ok recOfA := by
    rfl
  ⟨hread, hdec, ⟨_, by rfl⟩,
    (createTs_after_write (envA [goodDoc]) ledgerA phone1).1 "P9" "1800000000" _ recOfA _
      hread hdec (by rfl)⟩

/-- C5 as stated fails for `sp`: `phone1` holds a record of `OrgA` with
`CreateTs = "1500000000"`; `OrgA` updates it with `cts = "1700000000"`; the
update succeeds and the record now stored has `CreateTs = "1700000000"`. -/
theorem sp_update_overwrites_createTs :
    ledgerA.read (envA [goodDoc]) phone1 = some (renderPreference recOfA) ∧
    (envA [goodDoc]).unmarshalPreference (renderPreference recOfA) = .ok recOfA ∧
    recOfA.CreateTs = "1500000000" ∧
    (setPreferences (envA [goodDoc]) ledgerA [renderMap goodDoc]).resp
      = .success ("setPreferences : Preference data updated  successfully for MSISDN : "
          ++ phone1 ++ " , TransactionID      " ++ "tx1") ∧
    (setPreferences (envA [goodDoc]) ledgerA [renderMap goodDoc]).ledger.state phone1
      = some (renderPreference goodRecord) ∧
    (envA [goodDoc]).unmarshalPreference (renderPreference goodRecord) = .ok goodRecord ∧
    goodRecord.CreateTs = "1700000000" ∧ goodRecord.CreateTs ≠ recOfA.CreateTs := by
  refine ⟨by rfl, by rfl, by rfl, by rfl, by rfl, by rfl, by rfl, by decide⟩

/-! ## C6, C7 and C8: the format checks -/

/-- C6: the msisdn `-123456789` is not made of digits only, yet `sp` accepts it
and writes a record under it on an empty ledger, and so does `abp`. -/
theorem signed_msisdn_is_written :
    allDigits "-123456789" = false ∧
    fieldStr signedDoc "msisdn" = some "-123456789" ∧
    (setPreferences (envA [signedDoc]) (ledgerOf []) [renderMap signedDoc]).resp
      = .success ("setPreferences : Preferences data added Successfully for MSISDN : "
          ++ "-123456789" ++ " , TransactionID      " ++ "tx1") ∧
    (setPreferences (envA [signedDoc]) (ledgerOf []) [renderMap signedDoc]).ledger.puts
      = [("-123456789", renderPreference { goodRecord with Phone := "-123456789" })] ∧
    (batchPreferences (envA [signedDoc]) (ledgerOf []) [renderMap signedDoc]).resp
      = .success ("batchPreferences : Batch Preferences data added Successfully. "
          ++ "TransactionID : " ++ "tx1") ∧
    (batchPreferences (envA [signedDoc]) (ledgerOf []) [renderMap signedDoc]).ledger.puts
      = [("-123456789", renderPreference { goodRecord with Phone := "-123456789" })] := by
  refine ⟨by decide, by rfl, by rfl, by rfl, by rfl, by rfl⟩

/-- C7: the msisdn `99999999999999999999` is twenty decimal digits, yet `sp`
and `po` answer with the not-numeric error and `abp` records the not-numeric
entry for it and writes nothing. -/
theorem long_msisdn_is_rejected :
    allDigits "99999999999999999999" = true ∧ strLen "99999999999999999999" = 20 ∧
    fieldStr longDoc "msisdn" = some "99999999999999999999" ∧
    (setPreferences (envA [longDoc]) (ledgerOf []) [renderMap longDoc]).resp
      = .error msgNotNumeric ∧
    (portOut (envA [longDoc]) (ledgerOf []) ["99999999999999999999", "P9", "1800000000"]).resp
      = .error msgNotNumeric ∧
    (batchPreferences (envA [longDoc]) (ledgerOf []) [renderMap longDoc]).resp
      = .success ("batchPreferences : Updating batch Error : "
          ++ renderOutput ⟨"99999999999999999999",
              "MobileNumber Contains Only Numeric Characters,It is Not Numeric"⟩) ∧
    (batchPreferences (envA [longDoc]) (ledgerOf []) [renderMap longDoc]).ledger.puts = [] := by
  refine ⟨by decide, by decide, by rfl, by rfl, by rfl, by rfl, by rfl⟩

/-- C8: the lrn `+4001` is not made of digits only, yet `sp` accepts it and
writes the record on an empty ledger, and so does `abp`. -/
theorem signed_lrn_is_written :
    allDigits "+4001" = false ∧
    fieldStr plusLrnDoc "lrn" = some "+4001" ∧
    (setPreferences (envA [plusLrnDoc]) (ledgerOf []) [renderMap plusLrnDoc]).resp
      = .success ("setPreferences : Preferences data added Successfully for MSISDN : "
          ++ phone1 ++ " , TransactionID      " ++ "tx1") ∧
    (setPreferences (envA [plusLrnDoc]) (ledgerOf []) [renderMap plusLrnDoc]).ledger.puts
      = [(phone1, renderPreference { goodRecord with Lrn := "+4001" })] ∧
    (batchPreferences (envA [plusLrnDoc]) (ledgerOf []) [renderMap plusLrnDoc]).resp
      = .success ("batchPreferences : Batch Preferences data added Successfully. "
          ++ "TransactionID : " ++ "tx1") ∧
    (batchPreferences (envA [plusLrnDoc]) (ledgerOf []) [renderMap plusLrnDoc]).ledger.puts
      = [(phone1, renderPreference { goodRecord with Lrn := "+4001" })] := by
  refine ⟨by decide, by rfl, by rfl, by rfl, by rfl, by rfl⟩

/-! ## C9 -/

/-- With a msisdn and an lrn that pass, the three format checks of `abp` note nothing. -/
theorem batchChecks_pass (env : Env) (data : JMap) (result : List String) (n : Nat)
    (msisdn lrn : String) (hm : fieldStr data "msisdn" = some msisdn) (hp : phoneOK msisdn)
    (hl : fieldStr data "lrn" = some lrn) (hlo : lrnOK lrn) :
    batchChecks env data result n = some (.ok ⟨result, n, 0⟩) := by
  have h1 := isNone_false_of_isSome _ hp.1
  have h2 : ¬ strLen msisdn < 10 := Nat.not_lt.mpr hp.2
  have h3 := isNone_false_of_isSome _ hlo
  simp [batchChecks, noteFormat, hm, hl, h1, h2, h3]

/-- Where the loop body of `abp` arrives once the item is decoded, the
certificate read, the format checks passed and the state read. -/
theorem batchItem_reach (env : Env) (l : Ledger) (result : List String) (n : Nat)
    (a : String) (data : JMap) (orgs : List String) (msisdn lrn : String)
    (hj : env.jsonUnmarshalMap a = .ok data) (hc : env.cert = .ok orgs)
    (hm : fieldStr data "msisdn" = some msisdn) (hp : phoneOK msisdn)
    (hl : fieldStr data "lrn" = some lrn) (hlo : lrnOK lrn)
    (hg : env.getStateErr msisdn = none) :
    batchItem env l result n a =
      match l.read env msisdn with
      | none => batchAbsent env l result n a data orgs
      | some value => batchPresent env l result n a data orgs value := by
  have hk := batchChecks_pass env data result n msisdn lrn hm hp hl hlo
  cases hr : l.read env msisdn <;> simp [batchItem, getState, hj, hc, hk, hm, hg, hr]

/-- C9 (amended): for a decoded map whose msisdn and lrn are strings passing
the phone and lrn checks and whose number of keys is not 11, `sp` answers with
the wrong-number-of-keys error and leaves the ledger as it was, and the loop
body of `abp` appends one Output entry for the item, counts it and leaves the
ledger as it was (the certificate lookup and the state read succeeding). -/
theorem wrong_key_count_rejected (env : Env) (l : Ledger) (a : String) (data : JMap)
    (orgs : List String) (msisdn lrn : String)
    (hj : env.jsonUnmarshalMap a = .ok data) (hc : env.cert = .ok orgs)
    (hm : fieldStr data "msisdn" = some msisdn) (hp : phoneOK msisdn)
    (hl : fieldStr data "lrn" = some lrn) (hlo : lrnOK lrn)
    (hg : env.getStateErr msisdn = none) (hlen : data.len ≠ 11) :
    (∀ rest, setPreferences env l (a :: rest) =
      ⟨.error ("setPreferences : Incorrect Number Of Arguments, Expected json structure : "
        ++ expectedJson), l⟩) ∧
    (∀ result n edata,
      env.marshalOutput ⟨a, "IncorrectNumberOfArGumentsExceptin[11 keys]"⟩ = .ok edata →
      batchItem env l result n a = .next l (result ++ [edata]) (n + 1)) := by
  constructor
  · intro rest
    rw [setPreferences_reach env l a rest data orgs msisdn lrn hj hc hm hp hl hlo hg]
    cases l.read env msisdn <;> simp [spAbsent, spPresent, hlen]
  · intro result n edata he
    rw [batchItem_reach env l result n a data orgs msisdn lrn hj hc hm hp hl hlo hg]
    cases l.read env msisdn <;> simp [batchAbsent, batchPresent, rejectItem, hlen, he]

theorem wrong_key_count_rejected_witness :
    fieldStr tenKeyDoc "msisdn" = some phone1 ∧ phoneOK phone1 ∧
    fieldStr tenKeyDoc "lrn" = some "4001" ∧ lrnOK "4001" ∧ tenKeyDoc.len ≠ 11 ∧
    setPreferences (envA [tenKeyDoc]) ledgerA [renderMap tenKeyDoc] =
      ⟨.error ("setPreferences : Incorrect Number Of Arguments, Expected json structure : "
        ++ expectedJson), ledgerA⟩ :=
  have hm : fieldStr tenKeyDoc "msisdn" = some phone1 := by rfl
  have hp : phoneOK phone1 := by decide
  have hl : fieldStr tenKeyDoc "lrn" = some "4001" := by rfl
  have hlo : lrnOK "4001" := by decide
  have hlen : tenKeyDoc.len ≠ 11 := by decide
  ⟨hm, hp, hl, hlo, hlen,
    (wrong_key_count_rejected (envA [tenKeyDoc]) ledgerA (renderMap tenKeyDoc) tenKeyDoc
      ["OrgA"] phone1 "4001" (by rfl) rfl hm hp hl hlo rfl hlen).1 []⟩

/-- C9 as stated fails: a map with ten keys (`svcprv` missing) whose msisdn has
five digits is turned down by `sp` with the not-a-valid-length error, not with
the wrong-number-of-keys error. -/
theorem short_ten_key_map_not_schema_error :
    shortTenKeyDoc.len = 10 ∧ fieldStr shortTenKeyDoc "svcprv" = none ∧
    (envA [shortTenKeyDoc]).jsonUnmarshalMap (renderMap shortTenKeyDoc) = .ok shortTenKeyDoc ∧
    (setPreferences (envA [shortTenKeyDoc]) (ledgerOf []) [renderMap shortTenKeyDoc]).resp
      = .error msgNotValidLength ∧
    (setPreferences (envA [shortTenKeyDoc]) (ledgerOf []) [renderMap shortTenKeyDoc]).resp
      ≠ .error ("setPreferences : Incorrect Number Of Arguments, Expected json structure : "
          ++ expectedJson) := by
  refine ⟨by decide, by rfl, by rfl, by rfl, ?_⟩
  decide

/-! ## C10 -/

theorem batchChecks_faults (env : Env) (hout : ∀ o, ∃ e, env.marshalOutput o = .ok e)
    (data : JMap) (result : List String) (n : Nat) (msisdn lrn : String)
    (hm : fieldStr data "msisdn" = some msisdn) (hl : fieldStr data "lrn" = some lrn) :
    ∃ es : List String, es.length = formatFaults msisdn lrn ∧
      batchChecks env data result n
        = some (.ok ⟨result ++ es, n + formatFaults msisdn lrn, formatFaults msisdn lrn⟩) := by
  obtain ⟨e1, he1⟩ := hout ⟨msisdn, "MobileNumber Contains Only Numeric Characters,It is Not Numeric"⟩
  obtain ⟨e2, he2⟩ := hout ⟨msisdn, "MobileNumber is not Valid Length"⟩
  obtain ⟨e3, he3⟩ := hout ⟨lrn, "Lrn Containts Only Numeric Charcters,It is Not Numeric"⟩
  refine ⟨(if (atoi msisdn).isNone then [e1] else []) ++ (if strLen msisdn < 10 then [e2] else [])
    ++ (if (atoi lrn).isNone then [e3] else []), ?_, ?_⟩
  · by_cases c1 : (atoi msisdn).isNone = true <;> by_cases c2 : strLen msisdn < 10 <;>
      by_cases c3 : (atoi lrn).isNone = true <;> simp [formatFaults, c1, c2, c3]
  · by_cases c1 : (atoi msisdn).isNone = true <;> by_cases c2 : strLen msisdn < 10 <;>
      by_cases c3 : (atoi lrn).isNone = true <;>
      simp [batchChecks, noteFormat, formatFaults, hm, hl, c1, c2, c3, he1, he2, he3]

theorem formatFaults_le (msisdn lrn : String) : formatFaults msisdn lrn ≤ 3 := by
  unfold formatFaults
  split <;> split <;> split <;> omega

theorem formatFaults_zero (msisdn lrn : String) (h : formatFaults msisdn lrn = 0) :
    phoneOK msisdn ∧ lrnOK lrn := by
  unfold formatFaults at h
  unfold phoneOK lrnOK
  by_cases c1 : (atoi msisdn).isNone = true <;> by_cases c2 : strLen msisdn < 10 <;>
    by_cases c3 : (atoi lrn).isNone = true <;> simp [c1, c2, c3] at h
  refine ⟨⟨?_, by omega⟩, ?_⟩
  · cases hh : atoi msisdn <;> simp_all
  · cases hh : atoi lrn <;> simp_all

theorem buildPreference_head (data : JMap) (org : String) (others : List String) :
    buildPreference data (org :: others) = buildPreference data [org] := by
  simp [buildPreference]

theorem buildPreference_org (data : JMap) (org : String) (others : List String)
    (r : Preference) (h : buildPreference data (org :: others) = some r) :
    r.UpdatedBy = org := by
  unfold buildPreference at h
  split at h
  · simp at h
    subst h
    simp_all
  · simp at h

/-- An item failing a format check: its entries are appended, the ledger stays. -/
theorem batchItem_formatFault (env : Env) (hrel : env.reliable) (l : Ledger)
    (result : List String) (n : Nat) (a : String) (data : JMap) (orgs : List String)
    (msisdn lrn : String) (hj : env.jsonUnmarshalMap a = .ok data) (hc : env.cert = .ok orgs)
    (hm : fieldStr data "msisdn" = some msisdn) (hl : fieldStr data "lrn" = some lrn)
    (hf : formatFaults msisdn lrn ≠ 0) :
    ∃ es : List String, es.length = formatFaults msisdn lrn ∧
      batchItem env l result n a = .next l (result ++ es) (n + es.length) := by
  obtain ⟨es, hlen, hk⟩ := batchChecks_faults env hrel.2.2.2.2.2 data result n msisdn lrn hm hl
  refine ⟨es, hlen, ?_⟩
  simp [batchItem, hj, hc, hk, hf, hlen]

/-- An item passing the format checks whose map has not 11 keys, or whose
msisdn holds a record of another organization: one entry, the ledger stays. -/
theorem batchItem_turnedDown (env : Env) (hrel : env.reliable) (l : Ledger)
    (result : List String) (n : Nat) (a : String) (data : JMap) (org : String)
    (others : List String) (msisdn lrn : String)
    (hj : env.jsonUnmarshalMap a = .ok data) (hc : env.cert = .ok (org :: others))
    (hm : fieldStr data "msisdn" = some msisdn) (hl : fieldStr data "lrn" = some lrn)
    (hf : formatFaults msisdn lrn = 0)
    (hrej : data.len ≠ 11 ∨ foreignAt env org (l.read env msisdn) = true) :
    ∃ e : String, batchItem env l result n a = .next l (result ++ [e]) (n + 1) := by
  obtain ⟨hp, hlo⟩ := formatFaults_zero msisdn lrn hf
  rw [batchItem_reach env l result n a data _ msisdn lrn hj hc hm hp hl hlo (hrel.1 msisdn)]
  obtain ⟨e1, he1⟩ := hrel.2.2.2.2.2 ⟨a, "IncorrectNumberOfArGumentsExceptin[11 keys]"⟩
  obtain ⟨e2, he2⟩ := hrel.2.2.2.2.2 ⟨a, "Unaithorized Access"⟩
  by_cases hlen : data.len = 11
  · have hfo : foreignAt env org (l.read env msisdn) = true := by
      rcases hrej with h | h
      · exact absurd hlen h
      · exact h
    cases hr : l.read env msisdn with
    | none => simp [foreignAt, hr] at hfo
    | some value =>
      cases hu : env.unmarshalPreference value with
      | error err => simp [foreignAt, hr, hu] at hfo
      | ok old =>
        have hne : ¬ old.UpdatedBy = org := by simpa [foreignAt, hr, hu] using hfo
        exact ⟨e2, by simp [batchPresent, rejectItem, hlen, hu, hne, he2]⟩
  · refine ⟨e1, ?_⟩
    cases hr : l.read env msisdn <;> simp [batchAbsent, batchPresent, rejectItem, hlen, he1]

/-- A valid item: no entry, one `PutState` under its msisdn and one event. -/
theorem batchItem_valid (env : Env) (hrel : env.reliable) (l : Ledger)
    (result : List String) (n : Nat) (a : String) (data : JMap) (org : String)
    (others : List String) (msisdn lrn : String) (r : Preference)
    (hj : env.jsonUnmarshalMap a = .ok data) (hc : env.cert = .ok (org :: others))
    (hm : fieldStr data "msisdn" = some msisdn) (hl : fieldStr data "lrn" = some lrn)
    (hf : formatFaults msisdn lrn = 0) (hlen : data.len = 11)
    (hb : buildPreference data [org] = some r)
    (hown : ownAt env org (l.read env msisdn) = true) :
    ∃ bytes payload evt, env.marshalPreference r = .ok bytes ∧ r.UpdatedBy = org ∧
      batchItem env l result n a =
        .next { committed := l.committed
                state := fun k => if k = msisdn then some bytes else l.state k
                puts := l.puts ++ [(msisdn, bytes)]
                events := l.events ++ [(evt, payload)] } result n := by
  obtain ⟨hp, hlo⟩ := formatFaults_zero msisdn lrn hf
  rw [batchItem_reach env l result n a data _ msisdn lrn hj hc hm hp hl hlo (hrel.1 msisdn)]
  have hb1 : buildPreference data (org :: others) = some r := by
    rw [buildPreference_head]
    exact hb
  have hph : r.Phone = msisdn := by
    have := buildPreference_phone _ _ _ hb1
    rw [hm] at this
    simpa using this.symm
  obtain ⟨bytes, hbytes⟩ := hrel.2.2.2.1 r
  obtain ⟨payload, hpl⟩ := hrel.2.2.2.2.1 ⟨bytes, env.txid⟩
  have hput := hrel.2.1 r.Phone bytes
  refine ⟨bytes, payload, ?_⟩
  cases hr : l.read env msisdn with
  | none =>
    have hpers := persist_ok env l wordingAbpAdd EVTADDPREFERENCES r bytes payload hbytes hput
      hpl (hrel.2.2.1 _ _)
    exact ⟨EVTADDPREFERENCES, hbytes, buildPreference_org _ _ _ _ hb1, by
      simp [batchAbsent, hlen, hb1, hpers, hph]⟩
  | some value =>
    have hpers := persist_ok env l wordingAbpUpdate EVTUPDATEPREFERENCES r bytes payload hbytes
      hput hpl (hrel.2.2.1 _ _)
    cases hu : env.unmarshalPreference value with
    | error err => simp [ownAt, hr, hu] at hown
    | ok old =>
      have hown1 : old.UpdatedBy = org := by simpa [ownAt, hr, hu] using hown
      exact ⟨EVTUPDATEPREFERENCES, hbytes, buildPreference_org _ _ _ _ hb1, by
        simp [batchPresent, hlen, hu, hown1, hb1, hpers, hph]⟩

theorem own_not_foreign (env : Env) (org : String) (v : Option String)
    (h : ownAt env org v = true) : foreignAt env org v = false := by
  cases v with
  | none => rfl
  | some value =>
    cases hu : env.unmarshalPreference value with
    | error e => simp [foreignAt, hu]
    | ok old => simpa [ownAt, foreignAt, hu] using h

/-- What the hypothesis "valid or rejected" says of an item, unfolded. -/
theorem item_cases (env : Env) (view : String → Option String) (org a : String)
    (h : itemValid env view org a = true ∨ itemRejected env view org a = true) :
    ∃ data msisdn lrn, env.jsonUnmarshalMap a = .ok data ∧
      fieldStr data "msisdn" = some msisdn ∧ fieldStr data "lrn" = some lrn ∧
      ((itemValid env view org a = true ∧ itemRejected env view org a = false ∧
          itemEntries env view org a = 0 ∧ formatFaults msisdn lrn = 0 ∧ data.len = 11 ∧
          (∃ r, buildPreference data [org] = some r) ∧ ownAt env org (view msisdn) = true) ∨
       (itemValid env view org a = false ∧ itemRejected env view org a = true ∧
          ((formatFaults msisdn lrn ≠ 0 ∧ itemEntries env view org a = formatFaults msisdn lrn) ∨
           (formatFaults msisdn lrn = 0 ∧ itemEntries env view org a = 1 ∧
             (data.len ≠ 11 ∨ foreignAt env org (view msisdn) = true))))) := by
  cases hj : env.jsonUnmarshalMap a with
  | error e => simp [itemValid, itemRejected, itemMalformed, itemUnauthorized, hj] at h
  | ok data =>
    cases hm : fieldStr data "msisdn" with
    | none => simp [itemValid, itemRejected, itemMalformed, itemUnauthorized, hj, hm] at h
    | some msisdn =>
      cases hl : fieldStr data "lrn" with
      | none => simp [itemValid, itemRejected, itemMalformed, itemUnauthorized, hj, hm, hl] at h
      | some lrn =>
        refine ⟨data, msisdn, lrn, rfl, hm, hl, ?_⟩
        by_cases hf : formatFaults msisdn lrn = 0
        · by_cases hlen : data.len = 11
          · cases hfo : foreignAt env org (view msisdn) with
            | true =>
              right
              have hown : ownAt env org (view msisdn) = false := by
                cases ho : ownAt env org (view msisdn) with
                | false => rfl
                | true => rw [own_not_foreign env org _ ho] at hfo; cases hfo
              simp [itemValid, itemRejected, itemMalformed, itemUnauthorized, itemEntries, hj, hm,
                hl, hf, hlen, hfo, hown]
            | false =>
              left
              simp [itemValid, itemRejected, itemMalformed, itemUnauthorized, hj, hm, hl, hf,
                hlen, hfo] at h
              simp [itemValid, itemRejected, itemMalformed, itemUnauthorized, itemEntries, hj, hm,
                hl, hf, hlen, hfo, h]
              exact Option.isSome_iff_exists.mp h.1
          · right
            simp [itemValid, itemRejected, itemMalformed, itemUnauthorized, itemEntries, hj, hm,
              hl, hf, hlen]
        · right
          simp [itemValid, itemRejected, itemMalformed, itemUnauthorized, itemEntries, hj, hm,
            hl, hf]

/-- After a valid item is written, every key reads as before as far as
ownership goes. -/
theorem class_after_put (env : Env) (hrb : env.readsBack) (org : String) (l : Ledger)
    (msisdn bytes : String) (r : Preference) (evs : List (String × String))
    (hbytes : env.marshalPreference r = .ok bytes) (horg : r.UpdatedBy = org)
    (hown : ownAt env org (l.read env msisdn) = true) (k : String) :
    foreignAt env org
        (Ledger.read env { committed := l.committed
                           state := fun k => if k = msisdn then some bytes else l.state k
                           puts := l.puts ++ [(msisdn, bytes)]
                           events := evs } k)
      = foreignAt env org (l.read env k) ∧
    ownAt env org
        (Ledger.read env { committed := l.committed
                           state := fun k => if k = msisdn then some bytes else l.state k
                           puts := l.puts ++ [(msisdn, bytes)]
                           events := evs } k)
      = ownAt env org (l.read env k) := by
  cases hw : env.readOwnWrites with
  | false => simp [Ledger.read, hw]
  | true =>
    by_cases hk : k = msisdn
    · subst hk
      obtain ⟨r1, hr1, ho1⟩ := hrb hw r bytes hbytes
      have hnf := own_not_foreign env org _ hown
      rw [hnf, hown]
      simp [Ledger.read, hw, foreignAt, ownAt, hr1, ho1, horg]
    · simp [Ledger.read, hw, hk]

/-- The loop of `abp` over items that are each valid or rejected: it runs to
its end, appends the entries of the rejected items and puts once per valid item. -/
theorem batchLoop_counts (env : Env) (hrel : env.reliable) (hrb : env.readsBack)
    (org : String) (others : List String) (hc : env.cert = .ok (org :: others))
    (view : String → Option String) (args : List String) :
    (∀ a ∈ args, itemValid env view org a = true ∨ itemRejected env view org a = true) →
    ∀ (l : Ledger) (result : List String) (n : Nat),
      (∀ k, foreignAt env org (l.read env k) = foreignAt env org (view k) ∧
            ownAt env org (l.read env k) = ownAt env org (view k)) →
      ∃ (l2 : Ledger) (es : List String),
        batchLoop env l result n args = .next l2 (result ++ es) (n + es.length) ∧
        es.length = (args.map (itemEntries env view org)).sum ∧
        l2.puts.length = l.puts.length + (args.filter (itemValid env view org)).length := by
  induction args with
  | nil =>
    intro _ l result n _
    exact ⟨l, [], by simp [batchLoop], by simp, by simp⟩
  | cons a rest ih =>
    intro hitems l result n hinv
    have hrest : ∀ b ∈ rest, itemValid env view org b = true ∨ itemRejected env view org b = true :=
      fun b hb => hitems b (List.mem_cons_of_mem a hb)
    obtain ⟨data, msisdn, lrn, hj, hm, hl, hcase⟩ :=
      item_cases env view org a (hitems a (List.mem_cons_self a rest))
    rcases hcase with ⟨hv, _, hent, hf, hlen, ⟨r, hb⟩, hown⟩ | ⟨hv, _, hcase⟩
    · have hown1 : ownAt env org (l.read env msisdn) = true := by
        rw [(hinv msisdn).2]
        exact hown
      obtain ⟨bytes, payload, evt, hbytes, horg, hstep⟩ :=
        batchItem_valid env hrel l result n a data org others msisdn lrn r hj hc hm hl hf hlen hb
          hown1
      have hinv1 := fun k =>
        class_after_put env hrb org l msisdn bytes r (l.events ++ [(evt, payload)]) hbytes horg
          hown1 k
      obtain ⟨l2, es, hloop, hes, hputs⟩ := ih hrest _ result n (fun k => by
        rw [(hinv1 k).1, (hinv1 k).2]
        exact hinv k)
      refine ⟨l2, es, ?_, ?_, ?_⟩
      · simp [batchLoop, hstep, hloop]
      · simp [hent, hes]
      · simp [hv, hputs]
        omega
    · have hstep : ∃ es1 : List String, es1.length = itemEntries env view org a ∧
          batchItem env l result n a = .next l (result ++ es1) (n + es1.length) := by
        rcases hcase with ⟨hf, hent⟩ | ⟨hf, hent, hrej⟩
        · obtain ⟨es1, h1, h2⟩ :=
            batchItem_formatFault env hrel l result n a data _ msisdn lrn hj hc hm hl hf
          exact ⟨es1, by rw [h1, hent], h2⟩
        · have hrej1 : data.len ≠ 11 ∨ foreignAt env org (l.read env msisdn) = true := by
            rcases hrej with h | h
            · exact Or.inl h
            · exact Or.inr (by rw [(hinv msisdn).1]; exact h)
          obtain ⟨e, he⟩ :=
            batchItem_turnedDown env hrel l result n a data org others msisdn lrn hj hc hm hl hf
              hrej1
          exact ⟨[e], by simp [hent], by simpa using he⟩
      obtain ⟨es1, hlen1, hstep⟩ := hstep
      obtain ⟨l2, es, hloop, hes, hputs⟩ := ih hrest l (result ++ es1) (n + es1.length) hinv
      refine ⟨l2, es1 ++ es, ?_, ?_, ?_⟩
      · simp [batchLoop, hstep, hloop, Nat.add_assoc]
      · simp [hlen1, hes]
      · simp [hv, hputs]

/-- Over items that are each valid or rejected, the valid ones are those not
rejected, and the entries number between one and three per rejected item. -/
theorem counts_of_items (env : Env) (view : String → Option String) (org : String)
    (args : List String)
    (hitems : ∀ a ∈ args, itemValid env view org a = true ∨ itemRejected env view org a = true) :
    (args.filter (itemValid env view org)).length + (args.filter (itemRejected env view org)).length
      = args.length ∧
    (args.filter (itemRejected env view org)).length ≤ (args.map (itemEntries env view org)).sum ∧
    (args.map (itemEntries env view org)).sum
      ≤ 3 * (args.filter (itemRejected env view org)).length := by
  induction args with
  | nil => simp
  | cons a rest ih =>
    obtain ⟨h1, h2, h3⟩ := ih (fun b hb => hitems b (List.mem_cons_of_mem a hb))
    obtain ⟨data, msisdn, lrn, _, _, _, hcase⟩ :=
      item_cases env view org a (hitems a (List.mem_cons_self a rest))
    rcases hcase with ⟨hv, hr, hent, _⟩ | ⟨hv, hr, hcase⟩
    · simp [hv, hr, hent]
      omega
    · have hbound : 1 ≤ itemEntries env view org a ∧ itemEntries env view org a ≤ 3 := by
        rcases hcase with ⟨hf, hent⟩ | ⟨_, hent, _⟩
        · rw [hent]
          exact ⟨Nat.pos_of_ne_zero hf, formatFaults_le msisdn lrn⟩
        · rw [hent]
          omega
      simp [hv, hr]
      omega

/-- C10 (amended): for a batch whose items are each valid or rejected
(malformed or unauthorized), `M` of them rejected, with no collaborator
failing, `abp` runs through all items, issues exactly `N - M` `PutState` calls
and reports one Output entry per failed format check of an item, or one for an
item with a wrong number of keys or a record of another organization: at
least `M` and at most `3 * M` entries in all.  The response is the plain
success message when `M = 0` and otherwise the success message that embeds the
entries joined with a bar. -/
theorem batch_counts (env : Env) (hrel : env.reliable) (hrb : env.readsBack)
    (org : String) (others : List String) (hc : env.cert = .ok (org :: others))
    (l : Ledger) (args : List String)
    (hitems : ∀ a ∈ args, itemValid env (l.read env) org a = true ∨
      itemRejected env (l.read env) org a = true) :
    ∃ (l2 : Ledger) (result : List String),
      batchLoop env l [] 0 args = .next l2 result result.length ∧
      (batchPreferences env l args).ledger = l2 ∧
      result.length = (args.map (itemEntries env (l.read env) org)).sum ∧
      (args.filter (itemRejected env (l.read env) org)).length ≤ result.length ∧
      result.length ≤ 3 * (args.filter (itemRejected env (l.read env) org)).length ∧
      l2.puts.length
        = l.puts.length
          + (args.length - (args.filter (itemRejected env (l.read env) org)).length) ∧
      ((args.filter (itemRejected env (l.read env) org)).length = 0 →
        (batchPreferences env l args).resp
          = .success ("batchPreferences : Batch Preferences data added Successfully. TransactionID : "
              ++ env.txid)) ∧
      (0 < (args.filter (itemRejected env (l.read env) org)).length →
        (batchPreferences env l args).resp
          = .success ("batchPreferences : Updating batch Error : " ++ "|".intercalate result)) := by
  obtain ⟨l2, es, hloop, hes, hputs⟩ :=
    batchLoop_counts env hrel hrb org others hc (l.read env) args hitems l [] 0
      (fun k => ⟨rfl, rfl⟩)
  obtain ⟨h1, h2, h3⟩ := counts_of_items env (l.read env) org args hitems
  simp only [List.nil_append, Nat.zero_add] at hloop
  refine ⟨l2, es, hloop, ?_, hes, ?_, ?_, ?_, ?_, ?_⟩
  · simp [batchPreferences, hloop]
    split <;> rfl
  · omega
  · omega
  · omega
  · intro hM
    have : es.length = 0 := by omega
    simp [batchPreferences, hloop, this]
  · intro hM
    have : es.length ≠ 0 := by omega
    simp [batchPreferences, hloop, this]

theorem batch_counts_witness :
    (peerEnv [goodDoc, badDoc]).reliable ∧ (peerEnv [goodDoc, badDoc]).readsBack ∧
    itemValid (peerEnv [goodDoc, badDoc]) ((ledgerOf []).read (peerEnv [goodDoc, badDoc])) "OrgA"
      (renderMap goodDoc) = true ∧
    itemRejected (peerEnv [goodDoc, badDoc]) ((ledgerOf []).read (peerEnv [goodDoc, badDoc]))
      "OrgA" (renderMap badDoc) = true ∧
    ∃ (l2 : Ledger) (result : List String),
      batchLoop (peerEnv [goodDoc, badDoc]) (ledgerOf []) [] 0
        [renderMap goodDoc, renderMap badDoc] = .next l2 result result.length ∧
      l2.puts.length = (ledgerOf []).puts.length + (2 - 1) ∧
      1 ≤ result.length ∧ result.length ≤ 3 * 1 :=
  have hrel : (peerEnv [goodDoc, badDoc]).reliable :=
    ⟨fun _ => rfl, fun _ _ => rfl, fun _ _ => rfl, fun _ => ⟨_, rfl⟩, fun _ => ⟨_, rfl⟩,
      fun _ => ⟨_, rfl⟩⟩
  have hrb : (peerEnv [goodDoc, badDoc]).readsBack := fun h => absurd h (by decide)
  have hv : itemValid (peerEnv [goodDoc, badDoc])
      ((ledgerOf []).read (peerEnv [goodDoc, badDoc])) "OrgA" (renderMap goodDoc) = true := by
    rfl
  have hr : itemRejected (peerEnv [goodDoc, badDoc])
      ((ledgerOf []).read (peerEnv [goodDoc, badDoc])) "OrgA" (renderMap badDoc) = true := by
    rfl
  have hM : ([renderMap goodDoc, renderMap badDoc].filter
      (itemRejected (peerEnv [goodDoc, badDoc])
        ((ledgerOf []).read (peerEnv [goodDoc, badDoc])) "OrgA")).length = 1 := by
    rfl
  ⟨hrel, hrb, hv, hr, by
    obtain ⟨l2, result, h1, _, _, h4, h5, h6, _, _⟩ :=
      batch_counts (peerEnv [goodDoc, badDoc]) hrel hrb "OrgA" [] rfl (ledgerOf [])
        [renderMap goodDoc, renderMap badDoc] (by
          intro a ha
          rcases List.mem_cons.mp ha with rfl | ha
          · exact Or.inl hv
          · rcases List.mem_cons.mp ha with rfl | ha
            · exact Or.inr hr
            · cases ha)
    rw [hM] at h4 h5 h6
    exact ⟨l2, result, h1, h6, h4, h5⟩⟩

/-- C10 as stated fails: the batch of the single item `badDoc`, whose msisdn
`abc` is neither numeric nor ten bytes long, has one rejected item, and `abp`
reports two Output entries for it. -/
theorem one_rejected_item_two_entries :
    [renderMap badDoc].length = 1 ∧
    ([renderMap badDoc].filter (itemRejected (envA [badDoc])
        ((ledgerOf []).read (envA [badDoc])) "OrgA")).length = 1 ∧
    (∃ l2, batchLoop (envA [badDoc]) (ledgerOf []) [] 0 [renderMap badDoc]
      = .next l2
          [renderOutput ⟨"abc", "MobileNumber Contains Only Numeric Characters,It is Not Numeric"⟩,
           renderOutput ⟨"abc", "MobileNumber is not Valid Length"⟩] 2) ∧
    (batchPreferences (envA [badDoc]) (ledgerOf []) [renderMap badDoc]).resp
      = .success ("batchPreferences : Updating batch Error : "
          ++ renderOutput ⟨"abc", "MobileNumber Contains Only Numeric Characters,It is Not Numeric"⟩
          ++ "|" ++ renderOutput ⟨"abc", "MobileNumber is not Valid Length"⟩) ∧
    (batchPreferences (envA [badDoc]) (ledgerOf []) [renderMap badDoc]).ledger.puts = [] := by
  refine ⟨by rfl, by rfl, ⟨_, by rfl⟩, by rfl, by rfl⟩

/-! ## C11 -/

/-- C11: the single item of this batch parses (to a map of eleven keys whose
msisdn is the JSON number 9876543210) and no collaborator fails, yet `abp`
does not answer: the type assertion on the msisdn panics. -/
theorem batch_number_msisdn_panics :
    (envA [numberDoc]).jsonUnmarshalMap (renderMap numberDoc) = .ok numberDoc ∧
    numberDoc.len = 11 ∧ numberDoc.index "msisdn" = some (JVal.other "9876543210") ∧
    (envA [numberDoc]).reliable ∧ (envA [numberDoc]).cert = .ok ["OrgA"] ∧
    (batchPreferences (envA [numberDoc]) (ledgerOf []) [renderMap numberDoc]).resp
      = .panic := by
  refine ⟨by rfl, by decide, by rfl, ?_, by rfl, by rfl⟩
  exact ⟨fun _ => rfl, fun _ _ => rfl, fun _ _ => rfl, fun _ => ⟨_, rfl⟩, fun _ => ⟨_, rfl⟩,
    fun _ => ⟨_, rfl⟩⟩

/-! ## C12 -/

/-- C12 (amended): when the certificate lookup fails, `abp` on a non-empty
argument list stops at its first item with an error response and the ledger
untouched (the certificate error when the item parses, the unmarshalling error
otherwise); on the empty list it answers with the plain success message. -/
theorem batch_cert_failure (env : Env) (l : Ledger) (e : String)
    (hc : env.cert = .error e) :
    (∀ arg rest data, env.jsonUnmarshalMap arg = .ok data →
      batchPreferences env l (arg :: rest)
        = ⟨.error ("batchPreferences : Getting certificate Details Error : " ++ e), l⟩) ∧
    (∀ arg rest e1, env.jsonUnmarshalMap arg = .error e1 →
      batchPreferences env l (arg :: rest)
        = ⟨.error ("batchPreferences : Input arguments unmarhsaling Error : " ++ e1), l⟩) ∧
    batchPreferences env l []
      = ⟨.success ("batchPreferences : Batch Preferences data added Successfully. TransactionID : "
          ++ env.txid), l⟩ := by
  refine ⟨?_, ?_, ?_⟩
  · intro arg rest data hj
    simp [batchPreferences, batchLoop, batchItem, hj, hc]
  · intro arg rest e1 hj
    simp [batchPreferences, batchLoop, batchItem, hj]
  · simp [batchPreferences, batchLoop]

theorem batch_cert_failure_witness :
    (noCertEnv [badDoc]).cert = .error "no certificate" ∧
    batchPreferences (noCertEnv [badDoc]) ledgerA [renderMap badDoc, renderMap goodDoc]
      = ⟨.error ("batchPreferences : Getting certificate Details Error : "
          ++ "no certificate"), ledgerA⟩ :=
  ⟨rfl, (batch_cert_failure (noCertEnv [badDoc]) ledgerA "no certificate" rfl).1
    (renderMap badDoc) [renderMap goodDoc] badDoc (by rfl)⟩

/-- C12 as stated fails on the empty list: with a failing certificate lookup,
`abp []` answers with the plain success message. -/
theorem batch_empty_ignores_cert_failure :
    (noCertEnv []).cert = .error "no certificate" ∧
    (batchPreferences (noCertEnv []) ledgerA []).resp
      = .success ("batchPreferences : Batch Preferences data added Successfully. TransactionID : "
          ++ "tx1") := by
  refine ⟨by rfl, by rfl⟩

/-! ## Porting out -/

/-- On a key `p` that passes the phone check and whose stored record belongs
to the caller organization `org`, `po [p, P2, T2]` succeeds, puts under `p`
the marshalled record that has the request number, registration mode,
category, communication mode, day type, day time band, lrn and `CreateTs` of
the old record, `ServiceProvider = P2`, `UpdateTs = T2` and `UpdatedBy = org`,
and appends one `PORT-OUT` event (the collaborators not failing). -/
theorem portOut_ported (env : Env) (l : Ledger) (p P2 T2 value : String) (old : Preference)
    (org : String) (others : List String) (bytes payload : String)
    (hp : phoneOK p) (hg : env.getStateErr p = none)
    (hread : l.read env p = some value)
    (hdec : env.unmarshalPreference value = .ok old)
    (hcert : env.cert = .ok (org :: others)) (hown : old.UpdatedBy = org)
    (hmar : env.marshalPreference
      { ObjType := "Preferences", Phone := p, ServiceProvider := P2,
        RequestNumber := old.RequestNumber, RegistrationMode := old.RegistrationMode,
        Category := old.Category, CommunicationMode := old.CommunicationMode,
        DayType := old.DayType, DayTimeBand := old.DayTimeBand, Lrn := old.Lrn,
        UpdateTs := T2, CreateTs := old.CreateTs, UpdatedBy := org } = .ok bytes)
    (hput : env.putStateErr p bytes = none)
    (hev : env.marshalEvent ⟨bytes, env.txid⟩ = .ok payload)
    (hset : env.setEventErr EVTPORTOUT payload = none) :
    (portOut env l [p, P2, T2]).resp
      = .success ("portOut : PutState Success for MSISDN : " ++ p ++ " , TransactionID : "
          ++ env.txid) ∧
    (portOut env l [p, P2, T2]).ledger.state p = some bytes ∧
    (portOut env l [p, P2, T2]).ledger.puts = l.puts ++ [(p, bytes)] ∧
    (portOut env l [p, P2, T2]).ledger.events = l.events ++ [(EVTPORTOUT, payload)] := by
  have h1 := isNone_false_of_isSome _ hp.1
  have h2 : ¬ strLen p < 10 := Nat.not_lt.mpr hp.2
  have hpers := persist_ok env l wordingPo EVTPORTOUT (portedPreference old p P2 T2 org) bytes
    payload hmar hput hev hset
  simp only [portedPreference] at hpers
  simp [portOut, getState, h1, h2, hg, hread, hdec, hcert, hown, hpers, portedPreference]

/-! ## C14 -/

/-- C14: when nothing is read under `p`, `dp [p]` answers with its
no-existing-preferences success message and leaves the ledger (state and
events) as it was, and so does `po [p, P2, T2]` for a `p` passing the phone
check; the certificate is not looked at (the state read succeeding). -/
theorem absent_key_is_benign (env : Env) (l : Ledger) (p : String)
    (hg : env.getStateErr p = none) (hread : l.read env p = none) :
    delPreferences env l [p]
      = ⟨.success ("delPreferences : No Existing preferences for MSISDN : " ++ p), l⟩ ∧
    (∀ P2 T2, phoneOK p →
      portOut env l [p, P2, T2]
        = ⟨.success ("portOut : No Existing preferences for MSISDN : " ++ p), l⟩) := by
  constructor
  · simp [delPreferences, getState, hg, hread]
  · intro P2 T2 hp
    have h1 := isNone_false_of_isSome _ hp.1
    have h2 : ¬ strLen p < 10 := Nat.not_lt.mpr hp.2
    simp [portOut, getState, h1, h2, hg, hread]

theorem absent_key_is_benign_witness :
    (noCertEnv []).getStateErr phone1 = none ∧
    (ledgerOf []).read (noCertEnv []) phone1 = none ∧ phoneOK phone1 ∧
    delPreferences (noCertEnv []) (ledgerOf []) [phone1]
      = ⟨.success ("delPreferences : No Existing preferences for MSISDN : " ++ phone1),
          ledgerOf []⟩ ∧
    portOut (noCertEnv []) (ledgerOf []) [phone1, "P9", "1800000000"]
      = ⟨.success ("portOut : No Existing preferences for MSISDN : " ++ phone1),
          ledgerOf []⟩ :=
  have hp : phoneOK phone1 := by decide
  ⟨rfl, rfl, hp, (absent_key_is_benign (noCertEnv []) (ledgerOf []) phone1 rfl rfl).1,
    (absent_key_is_benign (noCertEnv []) (ledgerOf []) phone1 rfl rfl).2 "P9" "1800000000" hp⟩

/-! ## C15 -/

/-- C15: on a key `p` whose stored record belongs to the caller organization,
`dp [p]` succeeds, leaves nothing under `p` and every other key as it was, and
appends exactly one `DELETE-PREFERENCES` event, whose payload is the marshalled
event with data `p` and the transaction id (the collaborators not failing). -/
theorem dp_removes_record (env : Env) (l : Ledger) (p value : String) (old : Preference)
    (org : String) (others : List String) (payload : String)
    (hg : env.getStateErr p = none) (hread : l.read env p = some value)
    (hdec : env.unmarshalPreference value = .ok old)
    (hcert : env.cert = .ok (org :: others)) (hown : old.UpdatedBy = org)
    (hdel : env.delStateErr p = none)
    (hev : env.marshalEvent { Data := p, Txid := env.txid } = .ok payload)
    (hset : env.setEventErr EVTDELPREFERENCES payload = none) :
    (delPreferences env l [p]).resp
      = .success ("Preferences is deleled from dlt for msisdn is " ++ p
          ++ "with TransactionID is " ++ env.txid) ∧
    (delPreferences env l [p]).ledger.state p = none ∧
    (∀ k, k ≠ p → (delPreferences env l [p]).ledger.state k = l.state k) ∧
    (delPreferences env l [p]).ledger.events = l.events ++ [(EVTDELPREFERENCES, payload)] := by
  refine ⟨?_, ?_, ?_, ?_⟩
  · simp [delPreferences, getState, delState, setEvent, hg, hread, hdec, hcert, hown, hdel,
      hev, hset]
  · simp [delPreferences, getState, delState, setEvent, hg, hread, hdec, hcert, hown, hdel,
      hev, hset]
  · intro k hk
    exact delPreferences_frame env l p k hk
  · simp [delPreferences, getState, delState, setEvent, hg, hread, hdec, hcert, hown, hdel,
      hev, hset]

theorem dp_removes_record_witness :
    ledgerA.read (envA []) phone1 = some (renderPreference recOfA) ∧
    (envA []).unmarshalPreference (renderPreference recOfA) = .ok recOfA ∧
    recOfA.UpdatedBy = "OrgA" ∧
    (delPreferences (envA []) ledgerA [phone1]).resp
      = .success ("Preferences is deleled from dlt for msisdn is " ++ phone1
          ++ "with TransactionID is " ++ (envA []).txid) ∧
    (delPreferences (envA []) ledgerA [phone1]).ledger.state phone1 = none ∧
    (∀ k, k ≠ phone1 → (delPreferences (envA []) ledgerA [phone1]).ledger.state k
      = ledgerA.state k) ∧
    (delPreferences (envA []) ledgerA [phone1]).ledger.events
      = ledgerA.events ++ [(EVTDELPREFERENCES, renderEvent ⟨phone1, "tx1"⟩)] :=
  have hread : ledgerA.read (envA []) phone1 = some (renderPreference recOfA) := by rfl
  have hdec : (envA []).unmarshalPreference (renderPreference recOfA) = .ok recOfA := by rfl
  ⟨hread, hdec, rfl,
    dp_removes_record (envA []) ledgerA phone1 _ recOfA "OrgA" [] (renderEvent ⟨phone1, "tx1"⟩)
      rfl hread hdec rfl rfl rfl rfl rfl⟩

/-! ## C16 and C17 -/

theorem queryEntry_pieces (kv : KV) :
    "\x7b\"Key\":" ++ ("\"" ++ (kv.Key ++ ("\"" ++ (", \"Record\":" ++ (kv.Value ++ "\x7d")))))
      = queryEntry kv := by
  have h1 : ∀ t : String, "\x7b\"Key\":" ++ ("\"" ++ t) = "\x7b\"Key\":\"" ++ t := by
    intro t
    rw [← String.append_assoc]
    rfl
  have h2 : ∀ t : String, "\"" ++ (", \"Record\":" ++ t) = "\", \"Record\":" ++ t := by
    intro t
    rw [← String.append_assoc]
    rfl
  rw [h1, h2]
  simp [queryEntry, String.append_assoc]

/-- The loop of `qp`, once a member is written, appends a comma and the entry
for each result that is left. -/
theorem queryLoop_written (kvs : List KV) :
    ∀ buffer acc : String,
      queryLoop (buffer ++ acc) true (kvs.map Except.ok)
        = .ok (buffer ++ String.intercalate.go acc "," (kvs.map queryEntry)) := by
  induction kvs with
  | nil =>
    intro buffer acc
    simp [queryLoop, String.intercalate.go]
  | cons kv rest ih =>
    intro buffer acc
    simp only [List.map_cons, queryLoop, if_true, String.intercalate.go]
    rw [← ih buffer (acc ++ "," ++ queryEntry kv)]
    congr 1
    rw [← queryEntry_pieces kv]
    simp only [String.append_assoc]

theorem queryLoop_all (kvs : List KV) :
    queryLoop "[" false (kvs.map Except.ok)
      = .ok ("[" ++ ",".intercalate (kvs.map queryEntry)) := by
  cases kvs with
  | nil => simp [queryLoop, String.intercalate]
  | cons kv rest =>
    simp only [List.map_cons, queryLoop, String.intercalate]
    rw [← queryLoop_written rest "[" (queryEntry kv)]
    congr 1
    rw [← queryEntry_pieces kv]
    simp only [String.append_assoc, Bool.false_eq_true, if_false]

theorem queryLoop_fails (e : String) (rest : List (Except String KV)) (kvs : List KV) :
    ∀ (buffer : String) (written : Bool),
      queryLoop buffer written (kvs.map Except.ok ++ .error e :: rest) = .error e := by
  induction kvs with
  | nil =>
    intro buffer written
    simp [queryLoop]
  | cons kv more ih =>
    intro buffer written
    simp only [List.map_cons, List.cons_append, queryLoop]
    exact ih _ _

/-- C16: when the query iterator yields the pairs `kvs` and then ends, `qp`
answers with the text that opens with a bracket, holds the entries of the
pairs in iterator order separated by single commas, and closes with a
bracket; the ledger is untouched, and for no pair the text is `[]`. -/
theorem qp_renders_results (env : Env) (l : Ledger) (q : String) (kvs : List KV)
    (hq : env.getQueryResult q = .ok (kvs.map Except.ok)) :
    queryPreferences env l [q]
      = ⟨.success ("[" ++ ",".intercalate (kvs.map queryEntry) ++ "]"), l⟩ ∧
    (kvs = [] → (queryPreferences env l [q]).resp = .success "[]") := by
  have h : queryPreferences env l [q]
      = ⟨.success ("[" ++ ",".intercalate (kvs.map queryEntry) ++ "]"), l⟩ := by
    simp [queryPreferences, getQueryResultForQueryString, constructQueryResponseFromIterator,
      hq, queryLoop_all]
  refine ⟨h, ?_⟩
  intro hk
  subst hk
  rw [h]
  rfl

theorem qp_renders_results_witness :
    (queryEnv (.ok [.ok ⟨"k1", "\x7b\"a\":1\x7d"⟩, .ok ⟨"k2", "\x7b\"b\":2\x7d"⟩])).getQueryResult "q"
      = .ok ([⟨"k1", "\x7b\"a\":1\x7d"⟩, ⟨"k2", "\x7b\"b\":2\x7d"⟩].map Except.ok) ∧
    (queryPreferences
        (queryEnv (.ok [.ok ⟨"k1", "\x7b\"a\":1\x7d"⟩, .ok ⟨"k2", "\x7b\"b\":2\x7d"⟩]))
        ledgerA ["q"]).resp
      = .success ("[\x7b\"Key\":\"k1\", \"Record\":\x7b\"a\":1\x7d\x7d,"
          ++ "\x7b\"Key\":\"k2\", \"Record\":\x7b\"b\":2\x7d\x7d]") :=
  ⟨rfl, by
    rw [(qp_renders_results
      (queryEnv (.ok [.ok ⟨"k1", "\x7b\"a\":1\x7d"⟩, .ok ⟨"k2", "\x7b\"b\":2\x7d"⟩])) ledgerA "q"
      [⟨"k1", "\x7b\"a\":1\x7d"⟩, ⟨"k2", "\x7b\"b\":2\x7d"⟩] rfl).1]
    decide⟩

/-- C17: when opening the query iterator fails with `e`, or one of its steps
fails with `e` after any number of pairs, `qp` answers with the error response
made of the fixed wording and `e` alone, and leaves the ledger untouched. -/
theorem qp_error_no_result (env : Env) (l : Ledger) (q e : String) :
    (env.getQueryResult q = .error e →
      queryPreferences env l [q]
        = ⟨.error ("queryPreferences : getQueryResultForQueryString Failed Error : " ++ e),
            l⟩) ∧
    (∀ (kvs : List KV) (rest : List (Except String KV)),
      env.getQueryResult q = .ok (kvs.map Except.ok ++ .error e :: rest) →
      queryPreferences env l [q]
        = ⟨.error ("queryPreferences : getQueryResultForQueryString Failed Error : " ++ e),
            l⟩) := by
  constructor
  · intro hq
    simp [queryPreferences, getQueryResultForQueryString, hq]
  · intro kvs rest hq
    simp [queryPreferences, getQueryResultForQueryString, constructQueryResponseFromIterator,
      hq, queryLoop_fails]

theorem qp_error_no_result_witness :
    (queryEnv (.ok [.ok ⟨"k1", "\x7b\"a\":1\x7d"⟩, .error "timeout"])).getQueryResult "q"
      = .ok ([⟨"k1", "\x7b\"a\":1\x7d"⟩].map Except.ok ++ .error "timeout" :: []) ∧
    queryPreferences (queryEnv (.ok [.ok ⟨"k1", "\x7b\"a\":1\x7d"⟩, .error "timeout"])) ledgerA ["q"]
      = ⟨.error ("queryPreferences : getQueryResultForQueryString Failed Error : " ++ "timeout"),
          ledgerA⟩ :=
  ⟨rfl, (qp_error_no_result
    (queryEnv (.ok [.ok ⟨"k1", "\x7b\"a\":1\x7d"⟩, .error "timeout"])) ledgerA "q" "timeout").2
    [⟨"k1", "\x7b\"a\":1\x7d"⟩] [] rfl⟩

/-! ## C18 -/

/-- C18: a function name that is none of `sp`, `abp`, `dp`, `po`, `qp` gets the
error response of the default case with the ledger untouched; but that message
lists `DP`, which `Invoke` does not route: `Invoke` with `DP` gets the same
error, while `dp` goes to `delPreferences`. -/
theorem unknown_function_message_lists_DP :
    (∀ env l function args, function ∉ routedFunctions →
      Invoke env l function args = ⟨.error msgAvailableFunctions, l⟩) ∧
    listedFunctions = ["sp", "abp", "DP", "po", "qp"] ∧
    "DP" ∈ listedFunctions ∧ "DP" ∉ routedFunctions ∧
    (∀ env l args, Invoke env l "DP" args = ⟨.error msgAvailableFunctions, l⟩) ∧
    (∀ env l args, Invoke env l "dp" args = delPreferences env l args) := by
  refine ⟨?_, by rfl, by decide, by decide, ?_, ?_⟩
  · intro env l function args h
    simp [routedFunctions] at h
    simp [Invoke, h]
  · intro env l args
    simp [Invoke]
  · intro env l args
    simp [Invoke]

/-! ## C19 -/

/-- With event marshalling and `SetEvent` not failing, a `persist` that ends
with an error message has not touched the ledger. -/
theorem persist_error_ledger (env : Env) (l l1 : Ledger) (w : Wording) (evt : String)
    (r : Preference) (msg : String)
    (hev : ∀ e, ∃ payload, env.marshalEvent e = .ok payload)
    (hset : ∀ name payload, env.setEventErr name payload = none)
    (h : persist env l w evt r = (some msg, l1)) : l1 = l := by
  cases hm : env.marshalPreference r with
  | error e =>
    simp [persist, hm] at h
    exact h.2.symm
  | ok b =>
    cases hp : env.putStateErr r.Phone b with
    | some e =>
      simp [persist, putState, hm, hp] at h
      exact h.2.symm
    | none =>
      obtain ⟨payload, hpl⟩ := hev ⟨b, env.txid⟩
      simp [persist, putState, setEvent, hm, hp, hpl, hset] at h

theorem spAbsent_error_ledger (env : Env) (l : Ledger) (data : JMap) (orgs : List String)
    (hev : ∀ e, ∃ payload, env.marshalEvent e = .ok payload)
    (hset : ∀ name payload, env.setEventErr name payload = none) (msg : String)
    (h : (spAbsent env l data orgs).resp = .error msg) :
    (spAbsent env l data orgs).ledger = l := by
  by_cases hlen : data.len = 11
  · cases hb : buildPreference data orgs with
    | none => simp [spAbsent, hlen, hb]
    | some r =>
      cases hpers : persist env l wordingSpAdd EVTADDPREFERENCES r with
      | mk m l1 =>
        cases m with
        | some e =>
          have := persist_error_ledger env l l1 _ _ r e hev hset hpers
          simp [spAbsent, hlen, hb, hpers, this]
        | none => simp [spAbsent, hlen, hb, hpers] at h
  · simp [spAbsent, hlen]

theorem spPresent_error_ledger (env : Env) (l : Ledger) (data : JMap) (orgs : List String)
    (value : String) (hev : ∀ e, ∃ payload, env.marshalEvent e = .ok payload)
    (hset : ∀ name payload, env.setEventErr name payload = none) (msg : String)
    (h : (spPresent env l data orgs value).resp = .error msg) :
    (spPresent env l data orgs value).ledger = l := by
  by_cases hlen : data.len = 11
  · cases hu : env.unmarshalPreference value with
    | error e => simp [spPresent, hlen, hu]
    | ok old =>
      cases ho : orgs.head? with
      | none => simp [spPresent, hlen, hu, ho]
      | some org =>
        by_cases hown : old.UpdatedBy = org
        · cases hb : buildPreference data orgs with
          | none => simp [spPresent, hlen, hu, ho, hown, hb]
          | some r =>
            cases hpers : persist env l wordingSpUpdate EVTUPDATEPREFERENCES r with
            | mk m l1 =>
              cases m with
              | some e =>
                have := persist_error_ledger env l l1 _ _ r e hev hset hpers
                simp [spPresent, hlen, hu, ho, hown, hb, hpers, this]
              | none => simp [spPresent, hlen, hu, ho, hown, hb, hpers] at h
        · simp [spPresent, hlen, hu, ho, hown]
  · simp [spPresent, hlen]

theorem delPreferences_error_ledger (env : Env) (l : Ledger) (args : List String)
    (hev : ∀ e, ∃ payload, env.marshalEvent e = .ok payload)
    (hset : ∀ name payload, env.setEventErr name payload = none) (msg : String)
    (h : (delPreferences env l args).resp = .error msg) :
    (delPreferences env l args).ledger = l := by
  by_cases hlen : args.length = 1
  · obtain ⟨key, rfl⟩ := List.length_eq_one.mp hlen
    revert h
    cases hg : env.getStateErr key with
    | some e => simp [delPreferences, getState, hg]
    | none =>
      cases hr : l.read env key with
      | none => simp [delPreferences, getState, hg, hr]
      | some value =>
        cases hu : env.unmarshalPreference value with
        | error e => simp [delPreferences, getState, hg, hr, hu]
        | ok old =>
          cases hc : env.cert with
          | error e => simp [delPreferences, getState, hg, hr, hu, hc]
          | ok orgs =>
            cases ho : orgs.head? with
            | none => simp [delPreferences, getState, hg, hr, hu, hc, ho]
            | some org =>
              by_cases hown : old.UpdatedBy = org
              · cases hd : env.delStateErr key with
                | some e =>
                  simp [delPreferences, getState, delState, hg, hr, hu, hc, ho, hown, hd]
                | none =>
                  obtain ⟨payload, hpl⟩ := hev ⟨key, env.txid⟩
                  simp [delPreferences, getState, delState, setEvent, hg, hr, hu, hc, ho, hown,
                    hd, hpl, hset]
              · simp [delPreferences, getState, hg, hr, hu, hc, ho, hown]
  · exact delPreferences_arity env l args hlen

theorem portOut_error_ledger (env : Env) (l : Ledger) (args : List String)
    (hev : ∀ e, ∃ payload, env.marshalEvent e = .ok payload)
    (hset : ∀ name payload, env.setEventErr name payload = none) (msg : String)
    (h : (portOut env l args).resp = .error msg) :
    (portOut env l args).ledger = l := by
  rcases portOut_path env l args with
    hl | ⟨phone, svc, uts, v, old, orgs, org, harg, hr, hu, hc, ho, hown, _⟩
  · exact hl
  · subst harg
    revert h
    by_cases h1 : (atoi phone).isNone = true
    · simp [portOut, h1]
    by_cases h2 : strLen phone < 10
    · simp [portOut, h1, h2]
    cases hg : env.getStateErr phone with
    | some e => simp [portOut, getState, h1, h2, hg]
    | none =>
      cases hpers : persist env l wordingPo EVTPORTOUT
          (portedPreference old phone svc uts org) with
      | mk m l1 =>
        cases m with
        | some e =>
          have := persist_error_ledger env l l1 _ _ _ e hev hset hpers
          simp [portOut, getState, h1, h2, hg, hr, hu, hc, ho, hown, hpers, this]
        | none => simp [portOut, getState, h1, h2, hg, hr, hu, hc, ho, hown, hpers]

theorem queryPreferences_ledger (env : Env) (l : Ledger) (args : List String) :
    (queryPreferences env l args).ledger = l := by
  unfold queryPreferences
  split
  · split <;> rfl
  · rfl

/-- C19 (amended): when event marshalling and `SetEvent` do not fail, every
error response of `sp`, `dp` and `po` comes with the ledger exactly as it was
before the invocation; `qp` never changes the ledger. -/
theorem error_before_write_keeps_ledger (env : Env) (l : Ledger)
    (hev : ∀ e, ∃ payload, env.marshalEvent e = .ok payload)
    (hset : ∀ name payload, env.setEventErr name payload = none) :
    (∀ args msg, (setPreferences env l args).resp = .error msg →
      (setPreferences env l args).ledger = l) ∧
    (∀ args msg, (delPreferences env l args).resp = .error msg →
      (delPreferences env l args).ledger = l) ∧
    (∀ args msg, (portOut env l args).resp = .error msg →
      (portOut env l args).ledger = l) ∧
    (∀ args, (queryPreferences env l args).ledger = l) := by
  refine ⟨?_, ?_, ?_, ?_⟩
  · intro args msg h
    rcases setPreferences_path env l args with
      ⟨hl, _⟩ | ⟨a, rest, data, orgs, m, _, _, _, _, hb⟩
    · exact hl
    · rcases hb with ⟨_, hb⟩ | ⟨value, _, hb⟩
      · rw [hb] at h ⊢
        exact spAbsent_error_ledger env l data orgs hev hset msg h
      · rw [hb] at h ⊢
        exact spPresent_error_ledger env l data orgs value hev hset msg h
  · intro args msg h
    exact delPreferences_error_ledger env l args hev hset msg h
  · intro args msg h
    exact portOut_error_ledger env l args hev hset msg h
  · exact queryPreferences_ledger env l

theorem error_before_write_keeps_ledger_witness :
    (∀ e, ∃ payload, (envA [tenKeyDoc]).marshalEvent e = .ok payload) ∧
    (∀ name payload, (envA [tenKeyDoc]).setEventErr name payload = none) ∧
    (setPreferences (envA [tenKeyDoc]) ledgerA [renderMap tenKeyDoc]).resp
      = .error ("setPreferences : Incorrect Number Of Arguments, Expected json structure : "
          ++ expectedJson) ∧
    (setPreferences (envA [tenKeyDoc]) ledgerA [renderMap tenKeyDoc]).ledger = ledgerA :=
  have hev : ∀ e, ∃ payload, (envA [tenKeyDoc]).marshalEvent e = .ok payload :=
    fun _ => ⟨_, rfl⟩
  have hset : ∀ name payload, (envA [tenKeyDoc]).setEventErr name payload = none :=
    fun _ _ => rfl
  have hresp : (setPreferences (envA [tenKeyDoc]) ledgerA [renderMap tenKeyDoc]).resp
      = .error ("setPreferences : Incorrect Number Of Arguments, Expected json structure : "
          ++ expectedJson) := by rfl
  ⟨hev, hset, hresp,
    (error_before_write_keeps_ledger (envA [tenKeyDoc]) ledgerA hev hset).1 _ _ hresp⟩

/-- C19 as stated fails: `sp` of `goodDoc` on the empty ledger, with `SetEvent`
failing, answers with the event-creation error, and `phone1`, which held
nothing before, now holds the record. -/
theorem sp_event_error_after_write :
    (ledgerOf []).state phone1 = none ∧
    (setPreferences (eventFailEnv [goodDoc]) (ledgerOf []) [renderMap goodDoc]).resp
      = .error ("setPreferences : Event Creation Error for EventID : " ++ EVTADDPREFERENCES) ∧
    (setPreferences (eventFailEnv [goodDoc]) (ledgerOf []) [renderMap goodDoc]).ledger.state
        phone1
      = some (renderPreference goodRecord) := by
  refine ⟨by rfl, by rfl, by rfl⟩

/-! ## C20 -/

/-- When `SetEvent` fails after the three steps before it succeeded, `persist`
ends with the event-creation message and the record stays written. -/
theorem persist_event_fails (env : Env) (l : Ledger) (w : Wording) (evt : String)
    (r : Preference) (bytes payload e : String)
    (hmar : env.marshalPreference r = .ok bytes)
    (hput : env.putStateErr r.Phone bytes = none)
    (hev : env.marshalEvent ⟨bytes, env.txid⟩ = .ok payload)
    (hset : env.setEventErr evt payload = some e) :
    persist env l w evt r =
      (some (w.event ++ evt),
        { committed := l.committed
          state := fun k => if k = r.Phone then some bytes else l.state k
          puts := l.puts ++ [(r.Phone, bytes)]
          events := l.events }) := by
  simp [persist, putState, setEvent, hmar, hput, hev, hset]

/-- C20: when `SetEvent` fails after the write or delete succeeded, `sp` (on an
absent key and on an owned record), `dp` and `po` answer with their
event-creation error while the ledger keeps the mutation: the record put
under `p` by `sp` and `po`, nothing under `p` after `dp`. -/
theorem event_failure_keeps_mutation (env : Env) (l : Ledger) (p : String)
    (hg : env.getStateErr p = none) :
    (∀ a rest data orgs lrn r bytes payload e,
      env.jsonUnmarshalMap a = .ok data → env.cert = .ok orgs →
      fieldStr data "msisdn" = some p → phoneOK p →
      fieldStr data "lrn" = some lrn → lrnOK lrn → data.len = 11 →
      buildPreference data orgs = some r → l.read env p = none →
      env.marshalPreference r = .ok bytes → env.putStateErr p bytes = none →
      env.marshalEvent ⟨bytes, env.txid⟩ = .ok payload →
      env.setEventErr EVTADDPREFERENCES payload = some e →
      (setPreferences env l (a :: rest)).resp
        = .error ("setPreferences : Event Creation Error for EventID : " ++ EVTADDPREFERENCES) ∧
      (setPreferences env l (a :: rest)).ledger.state p = some bytes) ∧
    (∀ a rest data orgs lrn r value old bytes payload e,
      env.jsonUnmarshalMap a = .ok data → env.cert = .ok orgs →
      fieldStr data "msisdn" = some p → phoneOK p →
      fieldStr data "lrn" = some lrn → lrnOK lrn → data.len = 11 →
      buildPreference data orgs = some r → l.read env p = some value →
      env.unmarshalPreference value = .ok old → orgs.head? = some old.UpdatedBy →
      env.marshalPreference r = .ok bytes → env.putStateErr p bytes = none →
      env.marshalEvent ⟨bytes, env.txid⟩ = .ok payload →
      env.setEventErr EVTUPDATEPREFERENCES payload = some e →
      (setPreferences env l (a :: rest)).resp
        = .error ("setPreferences : Event Creation Error for EventID : "
            ++ EVTUPDATEPREFERENCES) ∧
      (setPreferences env l (a :: rest)).ledger.state p = some bytes) ∧
    (∀ value old orgs payload e,
      l.read env p = some value → env.unmarshalPreference value = .ok old →
      env.cert = .ok orgs → orgs.head? = some old.UpdatedBy →
      env.delStateErr p = none → env.marshalEvent ⟨p, env.txid⟩ = .ok payload →
      env.setEventErr EVTDELPREFERENCES payload = some e →
      (delPreferences env l [p]).resp
        = .error ("delPreferences : Event Creation Error for EventID : " ++ EVTDELPREFERENCES) ∧
      (delPreferences env l [p]).ledger.state p = none) ∧
    (∀ P2 T2 value old orgs bytes payload e, phoneOK p →
      l.read env p = some value → env.unmarshalPreference value = .ok old →
      env.cert = .ok orgs → orgs.head? = some old.UpdatedBy →
      env.marshalPreference (portedPreference old p P2 T2 old.UpdatedBy) = .ok bytes →
      env.putStateErr p bytes = none →
      env.marshalEvent ⟨bytes, env.txid⟩ = .ok payload →
      env.setEventErr EVTPORTOUT payload = some e →
      (portOut env l [p, P2, T2]).resp
        = .error ("portOut : Event Creation Error for EventID : " ++ EVTPORTOUT) ∧
      (portOut env l [p, P2, T2]).ledger.state p = some bytes) := by
  refine ⟨?_, ?_, ?_, ?_⟩
  · intro a rest data orgs lrn r bytes payload e hj hc hm hp hl hlo hlen hb hread hmar hput
      hev hset
    have hph : r.Phone = p := by
      have := buildPreference_phone _ _ _ hb
      rw [hm] at this
      simpa using this.symm
    rw [← hph] at hput
    have hpers := persist_event_fails env l wordingSpAdd EVTADDPREFERENCES r bytes payload e
      hmar hput hev hset
    rw [setPreferences_reach env l a rest data orgs p lrn hj hc hm hp hl hlo hg, hread]
    simp [spAbsent, hlen, hb, hpers, hph]
    rfl
  · intro a rest data orgs lrn r value old bytes payload e hj hc hm hp hl hlo hlen hb hread
      hdec ho hmar hput hev hset
    have hph : r.Phone = p := by
      have := buildPreference_phone _ _ _ hb
      rw [hm] at this
      simpa using this.symm
    rw [← hph] at hput
    have hpers := persist_event_fails env l wordingSpUpdate EVTUPDATEPREFERENCES r bytes
      payload e hmar hput hev hset
    rw [setPreferences_reach env l a rest data orgs p lrn hj hc hm hp hl hlo hg, hread]
    simp [spPresent, hlen, hdec, ho, hb, hpers, hph]
    rfl
  · intro value old orgs payload e hread hdec hc ho hdel hev hset
    simp [delPreferences, getState, delState, setEvent, hg, hread, hdec, hc, ho, hdel, hev,
      hset]
  · intro P2 T2 value old orgs bytes payload e hp hread hdec hc ho hmar hput hev hset
    have h1 := isNone_false_of_isSome _ hp.1
    have h2 : ¬ strLen p < 10 := Nat.not_lt.mpr hp.2
    have hpers := persist_event_fails env l wordingPo EVTPORTOUT
      (portedPreference old p P2 T2 old.UpdatedBy) bytes payload e hmar hput hev hset
    simp [portOut, getState, h1, h2, hg, hread, hdec, hc, ho, hpers]
    simp [wordingPo, portedPreference]

theorem event_failure_keeps_mutation_witness :
    ledgerA.read (eventFailEnv []) phone1 = some (renderPreference recOfA) ∧
    (eventFailEnv []).unmarshalPreference (renderPreference recOfA) = .ok recOfA ∧
    (eventFailEnv []).setEventErr EVTDELPREFERENCES (renderEvent ⟨phone1, "tx1"⟩)
      = some "event failed" ∧
    ledgerA.state phone1 = some (renderPreference recOfA) ∧
    (delPreferences (eventFailEnv []) ledgerA [phone1]).resp
      = .error ("delPreferences : Event Creation Error for EventID : " ++ EVTDELPREFERENCES) ∧
    (delPreferences (eventFailEnv []) ledgerA [phone1]).ledger.state phone1 = none :=
  have hread : ledgerA.read (eventFailEnv []) phone1 = some (renderPreference recOfA) := by rfl
  have hdec : (eventFailEnv []).unmarshalPreference (renderPreference recOfA) = .ok recOfA := by
    rfl
  ⟨hread, hdec, rfl, by rfl,
    (event_failure_keeps_mutation (eventFailEnv []) ledgerA phone1 rfl).2.2.1 _ recOfA ["OrgA"]
      (renderEvent ⟨phone1, "tx1"⟩) "event failed" hread hdec rfl rfl rfl rfl rfl⟩

/-! ## C21 -/

/-- C21: with a certificate whose issuer has no organization entry, `sp` and
`abp` on a valid item and `dp` and `po` on an existing record do not answer
with an error response: indexing `Organizations[0]` panics.  The ledger is
left as it was. -/
theorem empty_organizations_panic :
    (noOrgEnv [goodDoc]).cert = .ok [] ∧
    setPreferences (noOrgEnv [goodDoc]) (ledgerOf []) [renderMap goodDoc]
      = ⟨.panic, ledgerOf []⟩ ∧
    setPreferences (noOrgEnv [goodDoc]) ledgerA [renderMap goodDoc] = ⟨.panic, ledgerA⟩ ∧
    (batchPreferences (noOrgEnv [goodDoc]) (ledgerOf []) [renderMap goodDoc]).resp = .panic ∧
    (batchPreferences (noOrgEnv [goodDoc]) (ledgerOf []) [renderMap goodDoc]).ledger.puts = [] ∧
    delPreferences (noOrgEnv []) ledgerA [phone1] = ⟨.panic, ledgerA⟩ ∧
    portOut (noOrgEnv []) ledgerA [phone1, "P9", "1800000000"] = ⟨.panic, ledgerA⟩ := by
  refine ⟨by rfl, by rfl, by rfl, by rfl, by rfl, by rfl, by rfl⟩

/-! ## C22 -/

/-- C22: `sp` and `po` with no argument panic on `args[0]`, and `sp` with a
second argument goes on with the first one and writes the record; `dp` and
`qp` with a wrong number of arguments, and `po` with one, two or more than
three, answer with their wrong-number-of-arguments error and leave the ledger
as it was. -/
theorem arity_is_not_checked_by_sp :
    (∀ env l, setPreferences env l [] = ⟨.panic, l⟩) ∧
    (∀ env l, portOut env l [] = ⟨.panic, l⟩) ∧
    (setPreferences (envA [goodDoc]) (ledgerOf []) [renderMap goodDoc, "extra"]).resp
      = .success ("setPreferences : Preferences data added Successfully for MSISDN : "
          ++ phone1 ++ " , TransactionID      " ++ "tx1") ∧
    (setPreferences (envA [goodDoc]) (ledgerOf []) [renderMap goodDoc, "extra"]).ledger.puts
      = [(phone1, renderPreference goodRecord)] ∧
    (∀ env l args, args.length ≠ 1 →
      delPreferences env l args
        = ⟨.error "delPreferences : Incorrect Number Of Arguments, MSISDN Expected.", l⟩) ∧
    (∀ env l args, args.length ≠ 1 →
      queryPreferences env l args
        = ⟨.error "queryPreferences : Incorrect number of arguments, Expected 1 [Query String]",
            l⟩) ∧
    (∀ env l args, args.length ≠ 3 → args ≠ [] →
      portOut env l args
        = ⟨.error ("portOut : Incorrect number of arguments, Excepted 3  "
            ++ "[msisdn,serviceprovide,updatedtime]"), l⟩) := by
  refine ⟨fun _ _ => rfl, fun _ _ => rfl, by rfl, by rfl, ?_, ?_, ?_⟩
  · intro env l args h
    unfold delPreferences
    split
    · simp at h
    · rfl
  · intro env l args h
    unfold queryPreferences
    split
    · simp at h
    · rfl
  · intro env l args h hne
    unfold portOut
    split
    · exact absurd rfl hne
    · simp at h
    · rfl

/-! ## What an invocation writes -/

theorem persist_written (env : Env) (l : Ledger) (w : Wording) (evt : String)
    (r : Preference) (k v : String) (h : (persist env l w evt r).2.state k = some v) :
    l.state k = some v ∨ (k = r.Phone ∧ env.marshalPreference r = .ok v) := by
  revert h
  cases hm : env.marshalPreference r with
  | error e =>
    intro h
    simp [persist, hm] at h
    exact Or.inl h
  | ok b =>
    cases hp : env.putStateErr r.Phone b with
    | some e =>
      intro h
      simp [persist, putState, hm, hp] at h
      exact Or.inl h
    | none =>
      have key : (if k = r.Phone then some b else l.state k) = some v →
          l.state k = some v ∨ (k = r.Phone ∧ Except.ok (ε := String) b = Except.ok v) := by
        intro h
        by_cases hk : k = r.Phone
        · simp [hk] at h
          exact Or.inr ⟨hk, by rw [h]⟩
        · simp [hk] at h
          exact Or.inl h
      cases he : env.marshalEvent ⟨b, env.txid⟩ with
      | error e => simpa [persist, putState, hm, hp, he] using key
      | ok pl =>
        cases hs : env.setEventErr evt pl <;>
          simpa [persist, putState, setEvent, hm, hp, he, hs] using key

theorem buildPreference_kind (data : JMap) (orgs : List String) (r : Preference)
    (h : buildPreference data orgs = some r) :
    r.ObjType = "Preferences" ∧ orgs.head? = some r.UpdatedBy := by
  unfold buildPreference at h
  split at h
  · simp at h
    subst h
    simp_all
  · simp at h

/-- A record built by `sp` or `abp` and persisted is a write of the caller. -/
theorem built_written (env : Env) (l : Ledger) (w : Wording) (evt : String) (data : JMap)
    (orgs : List String) (r : Preference) (msisdn k v : String)
    (hc : env.cert = .ok orgs) (hm : fieldStr data "msisdn" = some msisdn)
    (hp : phoneOK msisdn) (hb : buildPreference data orgs = some r)
    (m : Option String) (l1 : Ledger) (heq : persist env l w evt r = (m, l1))
    (h : l1.state k = some v) :
    l.state k = some v ∨ WrittenBy env k v := by
  have h0 : (persist env l w evt r).2.state k = some v := by
    rw [heq]
    exact h
  rcases persist_written env l w evt r k v h0 with h1 | ⟨hk, hv⟩
  · exact Or.inl h1
  · right
    have hph := buildPreference_phone _ _ _ hb
    rw [hm] at hph
    simp at hph
    obtain ⟨hkind, hhead⟩ := buildPreference_kind _ _ _ hb
    refine ⟨r, hv, hkind, hk.symm, ?_, callerOrg_head env orgs _ hc hhead⟩
    rw [hk, ← hph]
    exact hp

theorem spAbsent_written (env : Env) (l : Ledger) (data : JMap) (orgs : List String)
    (msisdn k v : String) (hc : env.cert = .ok orgs)
    (hm : fieldStr data "msisdn" = some msisdn) (hp : phoneOK msisdn)
    (h : (spAbsent env l data orgs).ledger.state k = some v) :
    l.state k = some v ∨ WrittenBy env k v := by
  revert h
  unfold spAbsent
  split
  · cases hb : buildPreference data orgs with
    | none => exact fun h => Or.inl h
    | some r =>
      dsimp only
      split <;>
      · rename_i heq
        intro h
        exact built_written env l _ _ data orgs r msisdn k v hc hm hp hb _ _ heq h
  · exact fun h => Or.inl h

theorem spPresent_written (env : Env) (l : Ledger) (data : JMap) (orgs : List String)
    (value msisdn k v : String) (hc : env.cert = .ok orgs)
    (hm : fieldStr data "msisdn" = some msisdn) (hp : phoneOK msisdn)
    (h : (spPresent env l data orgs value).ledger.state k = some v) :
    l.state k = some v ∨ WrittenBy env k v := by
  revert h
  unfold spPresent
  split
  · cases hu : env.unmarshalPreference value with
    | error e => exact fun h => Or.inl h
    | ok old =>
      cases ho : orgs.head? with
      | none => exact fun h => Or.inl h
      | some org =>
        dsimp only
        split
        · cases hb : buildPreference data orgs with
          | none => exact fun h => Or.inl h
          | some r =>
            dsimp only
            split <;>
            · rename_i heq
              intro h
              exact built_written env l _ _ data orgs r msisdn k v hc hm hp hb _ _ heq h
        · exact fun h => Or.inl h
  · exact fun h => Or.inl h

/-- Either `sp` leaves the ledger untouched, or it reaches one of its two arms
with a msisdn that passed the phone check. -/
theorem setPreferences_arms (env : Env) (l : Ledger) (args : List String) :
    (setPreferences env l args).ledger = l ∨
    ∃ a rest data orgs msisdn, args = a :: rest ∧ env.jsonUnmarshalMap a = .ok data ∧
      env.cert = .ok orgs ∧ fieldStr data "msisdn" = some msisdn ∧ phoneOK msisdn ∧
      (setPreferences env l args = spAbsent env l data orgs ∨
       ∃ value, setPreferences env l args = spPresent env l data orgs value) := by
  cases args with
  | nil => exact Or.inl rfl
  | cons a rest =>
    cases hj : env.jsonUnmarshalMap a with
    | error e => exact Or.inl (by simp [setPreferences, hj])
    | ok data =>
      cases hc : env.cert with
      | error e => exact Or.inl (by simp [setPreferences, hj, hc])
      | ok orgs =>
        cases hm : fieldStr data "msisdn" with
        | none => exact Or.inl (by simp [setPreferences, hj, hc, hm])
        | some msisdn =>
          by_cases h1 : (atoi msisdn).isNone = true
          · exact Or.inl (by simp [setPreferences, hj, hc, hm, h1])
          by_cases h2 : strLen msisdn < 10
          · exact Or.inl (by simp [setPreferences, hj, hc, hm, h1, h2])
          have hp : phoneOK msisdn := by
            refine ⟨?_, Nat.not_lt.mp h2⟩
            cases hh : atoi msisdn <;> simp_all
          cases hl : fieldStr data "lrn" with
          | none => exact Or.inl (by simp [setPreferences, hj, hc, hm, h1, h2, hl])
          | some lrn =>
            by_cases h3 : (atoi lrn).isNone = true
            · exact Or.inl (by simp [setPreferences, hj, hc, hm, h1, h2, hl, h3])
            cases hg : env.getStateErr msisdn with
            | some e =>
              exact Or.inl (by simp [setPreferences, getState, hj, hc, hm, h1, h2, hl, h3, hg])
            | none =>
              refine Or.inr ⟨a, rest, data, orgs, msisdn, rfl, hj, rfl, hm, hp, ?_⟩
              cases hr : l.read env msisdn with
              | none =>
                exact Or.inl (by
                  simp [setPreferences, getState, hj, hc, hm, h1, h2, hl, h3, hg, hr])
              | some value =>
                exact Or.inr ⟨value, by
                  simp [setPreferences, getState, hj, hc, hm, h1, h2, hl, h3, hg, hr]⟩

theorem setPreferences_written (env : Env) (l : Ledger) (args : List String) (k v : String)
    (h : (setPreferences env l args).ledger.state k = some v) :
    l.state k = some v ∨ WrittenBy env k v := by
  rcases setPreferences_arms env l args with
    hl | ⟨a, rest, data, orgs, m, _, _, hc, hm, hp, hb⟩
  · rw [hl] at h
    exact Or.inl h
  · rcases hb with hb | ⟨value, hb⟩
    · rw [hb] at h
      exact spAbsent_written env l data orgs m k v hc hm hp h
    · rw [hb] at h
      exact spPresent_written env l data orgs value m k v hc hm hp h

/-- A key that is not the submitted msisdn is left alone by `sp`. -/
theorem setPreferences_frame (env : Env) (l : Ledger) (args : List String) (k : String)
    (hk : ∀ a rest, args = a :: rest → msisdnOf env a ≠ some k) :
    (setPreferences env l args).ledger.state k = l.state k := by
  rcases setPreferences_arms env l args with
    hl | ⟨a, rest, data, orgs, m, harg, hj, _, hm, _, hb⟩
  · rw [hl]
  · have hne : fieldStr data "msisdn" ≠ some k := by
      have := hk a rest harg
      simpa [msisdnOf, hj] using this
    rcases hb with hb | ⟨value, hb⟩
    · rw [hb]
      exact spAbsent_frame env l data orgs k hne
    · rw [hb]
      exact spPresent_frame env l data orgs value k hne

/-! ### `dp` and `po` -/

/-- Under every key, `dp` leaves what was there or nothing. -/
theorem delPreferences_state (env : Env) (l : Ledger) (args : List String) (k : String) :
    (delPreferences env l args).ledger.state k = l.state k ∨
    (delPreferences env l args).ledger.state k = none := by
  by_cases hlen : args.length = 1
  · obtain ⟨key, rfl⟩ := List.length_eq_one.mp hlen
    by_cases hk : k = key
    · subst hk
      cases hg : env.getStateErr k with
      | some e => simp [delPreferences, getState, hg]
      | none =>
        cases hr : l.read env k with
        | none => simp [delPreferences, getState, hg, hr]
        | some value =>
          cases hu : env.unmarshalPreference value with
          | error e => simp [delPreferences, getState, hg, hr, hu]
          | ok old =>
            cases hc : env.cert with
            | error e => simp [delPreferences, getState, hg, hr, hu, hc]
            | ok orgs =>
              cases ho : orgs.head? with
              | none => simp [delPreferences, getState, hg, hr, hu, hc, ho]
              | some org =>
                by_cases hown : old.UpdatedBy = org
                · cases hd : env.delStateErr k with
                  | some e =>
                    simp [delPreferences, getState, delState, hg, hr, hu, hc, ho, hown, hd]
                  | none =>
                    right
                    cases he : env.marshalEvent ⟨k, env.txid⟩ with
                    | error e =>
                      simp [delPreferences, getState, delState, hg, hr, hu, hc, ho, hown, hd, he]
                    | ok pl =>
                      cases hs : env.setEventErr EVTDELPREFERENCES pl <;>
                        simp [delPreferences, getState, delState, setEvent, hg, hr, hu, hc, ho,
                          hown, hd, he, hs]
                · simp [delPreferences, getState, hg, hr, hu, hc, ho, hown]
    · exact Or.inl (delPreferences_frame env l key k hk)
  · rw [delPreferences_arity env l args hlen]
    exact Or.inl rfl

theorem delPreferences_written (env : Env) (l : Ledger) (args : List String) (k v : String)
    (h : (delPreferences env l args).ledger.state k = some v) : l.state k = some v := by
  rcases delPreferences_state env l args k with h1 | h1
  · rw [h1] at h
    exact h
  · rw [h1] at h
    cases h

/-- A key that is not the first argument is left alone by `dp`. -/
theorem delPreferences_frame_head (env : Env) (l : Ledger) (args : List String) (k : String)
    (hk : args.head? ≠ some k) : (delPreferences env l args).ledger.state k = l.state k := by
  by_cases hlen : args.length = 1
  · obtain ⟨key, rfl⟩ := List.length_eq_one.mp hlen
    exact delPreferences_frame env l key k (by
      intro h
      exact hk (by simp [h]))
  · rw [delPreferences_arity env l args hlen]

/-- A phone that does not pass the phone check stops `po` with the ledger untouched. -/
theorem portOut_phone (env : Env) (l : Ledger) (phone svc uts : String)
    (h : ¬ phoneOK phone) : (portOut env l [phone, svc, uts]).ledger = l := by
  by_cases h1 : (atoi phone).isNone = true
  · simp [portOut, h1]
  by_cases h2 : strLen phone < 10
  · simp [portOut, h1, h2]
  exfalso
  apply h
  refine ⟨?_, Nat.not_lt.mp h2⟩
  cases hh : atoi phone <;> simp_all

theorem portOut_written (env : Env) (l : Ledger) (args : List String) (k v : String)
    (h : (portOut env l args).ledger.state k = some v) :
    l.state k = some v ∨ WrittenBy env k v := by
  rcases portOut_path env l args with
    hl | ⟨phone, svc, uts, value, old, orgs, org, harg, _, _, hc, ho, _, hled⟩
  · rw [hl] at h
    exact Or.inl h
  · subst harg
    by_cases hp : phoneOK phone
    · rw [hled] at h
      rcases persist_written env l _ _ _ k v h with h1 | ⟨hk, hv⟩
      · exact Or.inl h1
      · right
        refine ⟨_, hv, rfl, ?_, ?_, ?_⟩
        · exact hk.symm
        · rw [hk]
          exact hp
        · exact callerOrg_head env orgs org hc ho
    · rw [portOut_phone env l phone svc uts hp] at h
      exact Or.inl h

/-- A key that is not the first argument is left alone by `po`. -/
theorem portOut_frame_head (env : Env) (l : Ledger) (args : List String) (k : String)
    (hk : args.head? ≠ some k) : (portOut env l args).ledger.state k = l.state k := by
  rcases portOut_path env l args with
    hl | ⟨phone, svc, uts, value, old, orgs, org, harg, _, _, _, _, _, _⟩
  · rw [hl]
  · subst harg
    exact portOut_frame env l phone svc uts k (by
      intro h
      exact hk (by simp [h]))

/-! ### `abp` -/

theorem noteFormat_check (env : Env) (failed : Bool) (out : Output) (t t1 : Tally)
    (h : noteFormat env failed out t = .ok t1) :
    t.errorCheck ≤ t1.errorCheck ∧ (failed = true → t.errorCheck < t1.errorCheck) := by
  unfold noteFormat at h
  cases failed with
  | false =>
    simp at h
    subst h
    simp
  | true =>
    cases hm : env.marshalOutput out with
    | error e => simp [hm] at h
    | ok edata =>
      simp [hm] at h
      subst h
      simp

/-- When the three format checks of `abp` note nothing, the msisdn is a string
that passes the phone check. -/
theorem batchChecks_clean (env : Env) (data : JMap) (result : List String) (n : Nat)
    (t : Tally) (h : batchChecks env data result n = some (.ok t)) (h0 : t.errorCheck = 0) :
    ∃ msisdn, fieldStr data "msisdn" = some msisdn ∧ phoneOK msisdn := by
  cases hm : fieldStr data "msisdn" with
  | none => simp [batchChecks, hm] at h
  | some msisdn =>
    refine ⟨msisdn, rfl, ?_⟩
    cases h1 : noteFormat env (atoi msisdn).isNone
        ⟨msisdn, "MobileNumber Contains Only Numeric Characters,It is Not Numeric"⟩
        ⟨result, n, 0⟩ with
    | error e => simp [batchChecks, hm, h1] at h
    | ok t1 =>
      cases h2 : noteFormat env (decide (strLen msisdn < 10))
          ⟨msisdn, "MobileNumber is not Valid Length"⟩ t1 with
      | error e => simp [batchChecks, hm, h1, h2] at h
      | ok t2 =>
        cases hl : fieldStr data "lrn" with
        | none => simp [batchChecks, hm, h1, h2, hl] at h
        | some lrn =>
          cases h3 : noteFormat env (atoi lrn).isNone
              ⟨lrn, "Lrn Containts Only Numeric Charcters,It is Not Numeric"⟩ t2 with
          | error e => simp [batchChecks, hm, h1, h2, hl, h3] at h
          | ok t3 =>
            simp [batchChecks, hm, h1, h2, hl, h3] at h
            subst h
            have c1 := noteFormat_check env _ _ _ _ h1
            have c2 := noteFormat_check env _ _ _ _ h2
            have c3 := noteFormat_check env _ _ _ _ h3
            have e2 : t2.errorCheck = 0 := by omega
            have e1 : t1.errorCheck = 0 := by omega
            constructor
            · cases hh : atoi msisdn with
              | some z => rfl
              | none =>
                have := c1.2 (by simp [hh])
                simp at this
                omega
            · by_cases hs : strLen msisdn < 10
              · have := c2.2 (by simp [hs])
                omega
              · exact Nat.not_lt.mp hs

/-- Either the loop body leaves the ledger untouched, or it reaches one of its
two arms with a msisdn that passed the phone check. -/
theorem batchItem_arms (env : Env) (l : Ledger) (result : List String) (n : Nat)
    (arg : String) :
    (batchItem env l result n arg).ledger = l ∨
    ∃ (data : JMap) (orgs : List String) (msisdn : String) (t : Tally),
      env.jsonUnmarshalMap arg = .ok data ∧ env.cert = .ok orgs ∧
      fieldStr data "msisdn" = some msisdn ∧ phoneOK msisdn ∧
      (batchItem env l result n arg = batchAbsent env l t.result t.errorCount arg data orgs ∨
       ∃ value, batchItem env l result n arg
          = batchPresent env l t.result t.errorCount arg data orgs value) := by
  cases hj : env.jsonUnmarshalMap arg with
  | error e => exact Or.inl (by simp [batchItem, hj, BatchStep.ledger])
  | ok data =>
    cases hc : env.cert with
    | error e => exact Or.inl (by simp [batchItem, hj, hc, BatchStep.ledger])
    | ok orgs =>
      cases hk : batchChecks env data result n with
      | none => exact Or.inl (by simp [batchItem, hj, hc, hk, BatchStep.ledger])
      | some ck =>
        cases ck with
        | error e => exact Or.inl (by simp [batchItem, hj, hc, hk, BatchStep.ledger])
        | ok t =>
          by_cases h0 : t.errorCheck = 0
          · obtain ⟨msisdn, hm, hp⟩ := batchChecks_clean env data result n t hk h0
            cases hg : env.getStateErr msisdn with
            | some e =>
              exact Or.inl (by
                simp [batchItem, getState, hj, hc, hk, h0, hm, hg, BatchStep.ledger])
            | none =>
              refine Or.inr ⟨data, orgs, msisdn, t, rfl, rfl, hm, hp, ?_⟩
              cases hr : l.read env msisdn with
              | none =>
                exact Or.inl (by simp [batchItem, getState, hj, hc, hk, h0, hm, hg, hr])
              | some value =>
                exact Or.inr ⟨value, by
                  simp [batchItem, getState, hj, hc, hk, h0, hm, hg, hr]⟩
          · exact Or.inl (by simp [batchItem, hj, hc, hk, h0, BatchStep.ledger])

theorem batchAbsent_written (env : Env) (l : Ledger) (result : List String) (n : Nat)
    (arg : String) (data : JMap) (orgs : List String)
    (msisdn k v : String) (hc : env.cert = .ok orgs)
    (hm : fieldStr data "msisdn" = some msisdn) (hp : phoneOK msisdn)
    (h : (batchAbsent env l result n arg data orgs).ledger.state k = some v) :
    l.state k = some v ∨ WrittenBy env k v := by
  revert h
  unfold batchAbsent
  split
  · cases hb : buildPreference data orgs with
    | none => exact fun h => Or.inl h
    | some r =>
      dsimp only
      split <;>
      · rename_i heq
        intro h
        exact built_written env l _ _ data orgs r msisdn k v hc hm hp hb _ _ heq h
  · rw [rejectItem_ledger]
    exact fun h => Or.inl h

theorem batchPresent_written (env : Env) (l : Ledger) (result : List String) (n : Nat)
    (arg : String) (data : JMap) (orgs : List String)
    (value msisdn k v : String) (hc : env.cert = .ok orgs)
    (hm : fieldStr data "msisdn" = some msisdn) (hp : phoneOK msisdn)
    (h : (batchPresent env l result n arg data orgs value).ledger.state k = some v) :
    l.state k = some v ∨ WrittenBy env k v := by
  revert h
  unfold batchPresent
  split
  · cases hu : env.unmarshalPreference value with
    | error e => exact fun h => Or.inl h
    | ok old =>
      cases ho : orgs.head? with
      | none => exact fun h => Or.inl h
      | some org =>
        dsimp only
        split
        · cases hb : buildPreference data orgs with
          | none => exact fun h => Or.inl h
          | some r =>
            dsimp only
            split <;>
            · rename_i heq
              intro h
              exact built_written env l _ _ data orgs r msisdn k v hc hm hp hb _ _ heq h
        · rw [rejectItem_ledger]
          exact fun h => Or.inl h
  · rw [rejectItem_ledger]
    exact fun h => Or.inl h

theorem batchItem_written (env : Env) (l : Ledger) (result : List String) (n : Nat)
    (arg k v : String) (h : (batchItem env l result n arg).ledger.state k = some v) :
    l.state k = some v ∨ WrittenBy env k v := by
  rcases batchItem_arms env l result n arg with
    hl | ⟨data, orgs, m, t, _, hc, hm, hp, hb⟩
  · rw [hl] at h
    exact Or.inl h
  · rcases hb with hb | ⟨value, hb⟩
    · rw [hb] at h
      exact batchAbsent_written env l _ _ arg data orgs m k v hc hm hp h
    · rw [hb] at h
      exact batchPresent_written env l _ _ arg data orgs value m k v hc hm hp h

theorem batchItem_frame (env : Env) (l : Ledger) (result : List String) (n : Nat)
    (arg k : String) (hk : msisdnOf env arg ≠ some k) :
    (batchItem env l result n arg).ledger.state k = l.state k := by
  rcases batchItem_arms env l result n arg with
    hl | ⟨data, orgs, m, t, hj, _, hm, _, hb⟩
  · rw [hl]
  · have hne : fieldStr data "msisdn" ≠ some k := by
      simpa [msisdnOf, hj] using hk
    rcases hb with hb | ⟨value, hb⟩
    · rw [hb]
      exact batchAbsent_frame env l _ _ arg data orgs k hne
    · rw [hb]
      exact batchPresent_frame env l _ _ arg data orgs value k hne

theorem batchLoop_written (env : Env) (k v : String) (args : List String) :
    ∀ (l : Ledger) (result : List String) (n : Nat),
      (batchLoop env l result n args).ledger.state k = some v →
      l.state k = some v ∨ WrittenBy env k v := by
  induction args with
  | nil =>
    intro l result n h
    exact Or.inl h
  | cons arg rest ih =>
    intro l result n h
    have hstep := batchItem_written env l result n arg k v
    unfold batchLoop at h
    cases hi : batchItem env l result n arg with
    | halt r l1 =>
      rw [hi] at h hstep
      exact hstep h
    | next l1 result1 n1 =>
      rw [hi] at h hstep
      rcases ih l1 result1 n1 h with h1 | h1
      · exact hstep h1
      · exact Or.inr h1

theorem batchLoop_frame (env : Env) (k : String) (args : List String)
    (hk : ∀ a ∈ args, msisdnOf env a ≠ some k) :
    ∀ (l : Ledger) (result : List String) (n : Nat),
      (batchLoop env l result n args).ledger.state k = l.state k := by
  induction args with
  | nil =>
    intro l result n
    rfl
  | cons arg rest ih =>
    intro l result n
    have hstep := batchItem_frame env l result n arg k (hk arg (List.mem_cons_self arg rest))
    unfold batchLoop
    cases hi : batchItem env l result n arg with
    | halt r l1 =>
      rw [hi] at hstep
      exact hstep
    | next l1 result1 n1 =>
      rw [hi] at hstep
      dsimp only
      rw [ih (fun a ha => hk a (List.mem_cons_of_mem arg ha)) l1 result1 n1]
      exact hstep

/-! ### The dispatcher -/

theorem Invoke_written (env : Env) (l : Ledger) (function : String) (args : List String)
    (k v : String) (h : (Invoke env l function args).ledger.state k = some v) :
    l.state k = some v ∨ WrittenBy env k v := by
  unfold Invoke at h
  split at h
  · exact setPreferences_written env l args k v h
  split at h
  · rw [batchPreferences_ledger] at h
    exact batchLoop_written env k v args l [] 0 h
  split at h
  · exact Or.inl (delPreferences_written env l args k v h)
  split at h
  · exact portOut_written env l args k v h
  split at h
  · rw [queryPreferences_ledger] at h
    exact Or.inl h
  · exact Or.inl h

/-! ## C23 -/

theorem runCalls_written (k v : String) (calls : List Call) :
    ∀ l : Ledger, (runCalls l calls).state k = some v →
      l.state k = some v ∨ ∃ c ∈ calls, WrittenBy c.env k v := by
  induction calls with
  | nil =>
    intro l h
    exact Or.inl h
  | cons c rest ih =>
    intro l h
    rcases ih _ h with h1 | ⟨c1, hc1, hw⟩
    · rcases Invoke_written c.env l c.function c.args k v h1 with h2 | h2
      · exact Or.inl h2
      · exact Or.inr ⟨c, List.mem_cons_self c rest, h2⟩
    · exact Or.inr ⟨c1, List.mem_cons_of_mem c hc1, hw⟩

/-- C23: in the ledger reached from the empty one by any sequence of
invocations, whatever is stored under a key `k` is the marshalled text of a
record whose kind is `Preferences`, whose phone is `k`, with `k` passing the
phone check (so at least 10 bytes long), and whose `UpdatedBy` is the caller
organization of one of the invocations, the one that marshalled it. -/
theorem reachable_records (calls : List Call) (k v : String)
    (h : (runCalls (ledgerOf []) calls).state k = some v) :
    ∃ c ∈ calls, ∃ r : Preference, c.env.marshalPreference r = .ok v ∧
      r.ObjType = "Preferences" ∧ r.Phone = k ∧ phoneOK k ∧ 10 ≤ strLen k ∧
      callerOrg c.env = some r.UpdatedBy := by
  rcases runCalls_written k v calls (ledgerOf []) h with h1 | ⟨c, hc, r, h1, h2, h3, h4, h5⟩
  · simp [ledgerOf] at h1
  · exact ⟨c, hc, r, h1, h2, h3, h4, h4.2, h5⟩

theorem reachable_records_witness :
    (runCalls (ledgerOf [])
        [⟨envA [goodDoc], "sp", [renderMap goodDoc]⟩, ⟨envA [], "qp", ["q"]⟩]).state phone1
      = some (renderPreference goodRecord) ∧
    ∃ c ∈ [(⟨envA [goodDoc], "sp", [renderMap goodDoc]⟩ : Call), ⟨envA [], "qp", ["q"]⟩],
      ∃ r : Preference, c.env.marshalPreference r = .ok (renderPreference goodRecord) ∧
        r.ObjType = "Preferences" ∧ r.Phone = phone1 ∧ phoneOK phone1 ∧ 10 ≤ strLen phone1 ∧
        callerOrg c.env = some r.UpdatedBy :=
  have h : (runCalls (ledgerOf [])
      [⟨envA [goodDoc], "sp", [renderMap goodDoc]⟩, ⟨envA [], "qp", ["q"]⟩]).state phone1
      = some (renderPreference goodRecord) := by rfl
  ⟨h, reachable_records _ phone1 _ h⟩

/-! ## C13 -/

/-- The ledger a sequence of invocations leaves has no write or event of an
invocation under way. -/
theorem runCalls_fresh (calls : List Call) :
    ∀ l : Ledger, l.committed = l.state → l.puts = [] → l.events = [] →
      (runCalls l calls).committed = (runCalls l calls).state ∧
      (runCalls l calls).puts = [] ∧ (runCalls l calls).events = [] := by
  induction calls with
  | nil =>
    intro l h1 h2 h3
    exact ⟨h1, h2, h3⟩
  | cons c rest ih =>
    intro l _ _ _
    exact ih _ rfl rfl rfl

/-- C13: on a ledger reached from the empty one by any sequence of
invocations, where key `p` holds a record that belongs to the caller
organization `org`, `po [p, P2, T2]` succeeds, stores under `p` the marshalled
record that has the request number, registration mode, category,
communication mode, day type, day time band, lrn and `CreateTs` of the old
record, `ServiceProvider = P2`, `UpdateTs = T2` and `UpdatedBy = org`, and
emits one `PORT-OUT` event (the collaborators not failing). -/
theorem po_ports_record (calls : List Call) (env : Env) (p P2 T2 value : String)
    (old : Preference) (org : String) (others : List String) (bytes payload : String)
    (hstate : (runCalls (ledgerOf []) calls).state p = some value)
    (hg : env.getStateErr p = none)
    (hdec : env.unmarshalPreference value = .ok old)
    (hcert : env.cert = .ok (org :: others)) (hown : old.UpdatedBy = org)
    (hmar : env.marshalPreference
      { ObjType := "Preferences", Phone := p, ServiceProvider := P2,
        RequestNumber := old.RequestNumber, RegistrationMode := old.RegistrationMode,
        Category := old.Category, CommunicationMode := old.CommunicationMode,
        DayType := old.DayType, DayTimeBand := old.DayTimeBand, Lrn := old.Lrn,
        UpdateTs := T2, CreateTs := old.CreateTs, UpdatedBy := org } = .ok bytes)
    (hput : env.putStateErr p bytes = none)
    (hev : env.marshalEvent ⟨bytes, env.txid⟩ = .ok payload)
    (hset : env.setEventErr EVTPORTOUT payload = none) :
    (portOut env (runCalls (ledgerOf []) calls) [p, P2, T2]).resp
      = .success ("portOut : PutState Success for MSISDN : " ++ p ++ " , TransactionID : "
          ++ env.txid) ∧
    (portOut env (runCalls (ledgerOf []) calls) [p, P2, T2]).ledger.state p = some bytes ∧
    (portOut env (runCalls (ledgerOf []) calls) [p, P2, T2]).ledger.puts = [(p, bytes)] ∧
    (portOut env (runCalls (ledgerOf []) calls) [p, P2, T2]).ledger.events
      = [(EVTPORTOUT, payload)] := by
  obtain ⟨hfresh, hputs, hevents⟩ := runCalls_fresh calls (ledgerOf []) rfl rfl rfl
  have hp : phoneOK p := by
    rcases runCalls_written p value calls (ledgerOf []) hstate with h1 | ⟨_, _, _, _, _, _, h4, _⟩
    · simp [ledgerOf] at h1
    · exact h4
  have hread : (runCalls (ledgerOf []) calls).read env p = some value := by
    unfold Ledger.read
    rw [hfresh]
    simpa using hstate
  have h := portOut_ported env (runCalls (ledgerOf []) calls) p P2 T2 value old org others
    bytes payload hp hg hread hdec hcert hown hmar hput hev hset
  rw [hputs, hevents] at h
  simpa using h

theorem po_ports_record_witness :
    (runCalls (ledgerOf []) [⟨envA [goodDoc], "sp", [renderMap goodDoc]⟩]).state phone1
      = some (renderPreference goodRecord) ∧
    (envA []).unmarshalPreference (renderPreference goodRecord) = .ok goodRecord ∧
    goodRecord.UpdatedBy = "OrgA" ∧
    (portOut (envA []) (runCalls (ledgerOf []) [⟨envA [goodDoc], "sp", [renderMap goodDoc]⟩])
        [phone1, "P9", "1800000000"]).resp
      = .success ("portOut : PutState Success for MSISDN : " ++ phone1
          ++ " , TransactionID : " ++ (envA []).txid) ∧
    (portOut (envA []) (runCalls (ledgerOf []) [⟨envA [goodDoc], "sp", [renderMap goodDoc]⟩])
        [phone1, "P9", "1800000000"]).ledger.state phone1
      = some (renderPreference
          { goodRecord with ServiceProvider := "P9", UpdateTs := "1800000000" }) ∧
    (portOut (envA []) (runCalls (ledgerOf []) [⟨envA [goodDoc], "sp", [renderMap goodDoc]⟩])
        [phone1, "P9", "1800000000"]).ledger.puts
      = [(phone1, renderPreference
          { goodRecord with ServiceProvider := "P9", UpdateTs := "1800000000" })] ∧
    (portOut (envA []) (runCalls (ledgerOf []) [⟨envA [goodDoc], "sp", [renderMap goodDoc]⟩])
        [phone1, "P9", "1800000000"]).ledger.events
      = [(EVTPORTOUT, renderEvent ⟨renderPreference
          { goodRecord with ServiceProvider := "P9", UpdateTs := "1800000000" }, "tx1"⟩)] :=
  have hstate : (runCalls (ledgerOf [])
      [⟨envA [goodDoc], "sp", [renderMap goodDoc]⟩]).state phone1
      = some (renderPreference goodRecord) := by rfl
  have hdec : (envA []).unmarshalPreference (renderPreference goodRecord) = .ok goodRecord := by
    rfl
  ⟨hstate, hdec, rfl,
    po_ports_record [⟨envA [goodDoc], "sp", [renderMap goodDoc]⟩] (envA []) phone1 "P9"
      "1800000000" _ goodRecord "OrgA" []
      (renderPreference { goodRecord with ServiceProvider := "P9", UpdateTs := "1800000000" })
      (renderEvent ⟨renderPreference
        { goodRecord with ServiceProvider := "P9", UpdateTs := "1800000000" }, "tx1"⟩)
      hstate rfl hdec rfl rfl rfl rfl rfl rfl⟩

/-! ## C24 -/

/-- C24: when an invocation starts on a ledger where key `k` holds a record
with `UpdatedBy = A`, whatever is stored under `k` after it, for any function
name and parameters, is the text that was there or the marshalled text of a
record with `UpdatedBy = A`. -/
theorem owner_is_kept (env : Env) (l : Ledger) (hfresh : l.committed = l.state)
    (k v : String) (old : Preference) (hk : l.state k = some v)
    (hdec : env.unmarshalPreference v = .ok old)
    (function : String) (args : List String) (v1 : String)
    (h : (Invoke env l function args).ledger.state k = some v1) :
    v1 = v ∨ ∃ r : Preference, env.marshalPreference r = .ok v1 ∧
      r.UpdatedBy = old.UpdatedBy := by
  have hread : l.read env k = some v := by
    unfold Ledger.read
    rw [hfresh]
    simpa using hk
  by_cases hco : callerOrg env = some old.UpdatedBy
  · rcases Invoke_written env l function args k v1 h with h1 | ⟨r, h1, _, _, _, h5⟩
    · rw [hk] at h1
      simp at h1
      exact Or.inl h1.symm
    · rw [hco] at h5
      simp at h5
      exact Or.inr ⟨r, h1, h5.symm⟩
  · left
    have hsame : (Invoke env l function args).ledger.state k = l.state k := by
      unfold Invoke
      split
      · exact setPreferences_frozen env l k v old hread hdec hco args
      split
      · rw [batchPreferences_ledger]
        exact batchLoop_frozen env k v old hdec hco args l [] 0 hread
      split
      · exact delPreferences_frozen env l k v old hread hdec hco args
      split
      · rcases portOut_frozen env l k v old hread hdec hco args with h1 | h1
        · rw [h1]
        · exact h1.1
      split
      · rw [queryPreferences_ledger]
      · rfl
    rw [hsame, hk] at h
    simp at h
    exact h.symm

theorem owner_is_kept_witness :
    ledgerA.committed = ledgerA.state ∧
    ledgerA.state phone1 = some (renderPreference recOfA) ∧
    (envA []).unmarshalPreference (renderPreference recOfA) = .ok recOfA ∧
    (Invoke (envA []) ledgerA "po" [phone1, "P9", "1800000000"]).ledger.state phone1
      = some (renderPreference { recOfA with ServiceProvider := "P9", UpdateTs := "1800000000" })
    ∧ (renderPreference { recOfA with ServiceProvider := "P9", UpdateTs := "1800000000" }
        = renderPreference recOfA ∨
      ∃ r : Preference, (envA []).marshalPreference r
          = .ok (renderPreference
              { recOfA with ServiceProvider := "P9", UpdateTs := "1800000000" }) ∧
        r.UpdatedBy = recOfA.UpdatedBy) :=
  have hk : ledgerA.state phone1 = some (renderPreference recOfA) := by rfl
  have hdec : (envA []).unmarshalPreference (renderPreference recOfA) = .ok recOfA := by rfl
  have h : (Invoke (envA []) ledgerA "po" [phone1, "P9", "1800000000"]).ledger.state phone1
      = some (renderPreference
          { recOfA with ServiceProvider := "P9", UpdateTs := "1800000000" }) := by rfl
  ⟨rfl, hk, hdec, h,
    owner_is_kept (envA []) ledgerA rfl phone1 _ recOfA hk hdec "po"
      [phone1, "P9", "1800000000"] _ h⟩

/-! ## C26 -/

/-- C26: a key that is not the msisdn submitted to `sp`, not the first
argument of `dp` or `po`, not the msisdn of any item of `abp`, keeps its
stored value; `qp` leaves the whole ledger as it was. -/
theorem only_addressed_key_changes (env : Env) (l : Ledger) (k : String) :
    (∀ args, (∀ a rest, args = a :: rest → msisdnOf env a ≠ some k) →
      (setPreferences env l args).ledger.state k = l.state k) ∧
    (∀ args, args.head? ≠ some k → (delPreferences env l args).ledger.state k = l.state k) ∧
    (∀ args, args.head? ≠ some k → (portOut env l args).ledger.state k = l.state k) ∧
    (∀ args, (∀ a ∈ args, msisdnOf env a ≠ some k) →
      (batchPreferences env l args).ledger.state k = l.state k) ∧
    (∀ args, (queryPreferences env l args).ledger = l) := by
  refine ⟨?_, ?_, ?_, ?_, ?_⟩
  · intro args h
    exact setPreferences_frame env l args k h
  · intro args h
    exact delPreferences_frame_head env l args k h
  · intro args h
    exact portOut_frame_head env l args k h
  · intro args h
    rw [batchPreferences_ledger]
    exact batchLoop_frame env k args h l [] 0
  · exact queryPreferences_ledger env l

theorem only_addressed_key_changes_witness :
    msisdnOf (envA [goodDoc]) (renderMap goodDoc) ≠ some "9876543211" ∧
    (batchPreferences (envA [goodDoc]) ledgerA [renderMap goodDoc]).ledger.state "9876543211"
      = ledgerA.state "9876543211" ∧
    (batchPreferences (envA [goodDoc]) ledgerA [renderMap goodDoc]).ledger.state phone1
      ≠ ledgerA.state phone1 :=
  have h : msisdnOf (envA [goodDoc]) (renderMap goodDoc) ≠ some "9876543211" := by decide
  ⟨h, (only_addressed_key_changes (envA [goodDoc]) ledgerA "9876543211").2.2.2.1
      [renderMap goodDoc] (by
        intro a ha
        rcases List.mem_cons.mp ha with rfl | ha
        · exact h
        · cases ha),
    by decide⟩

/-! ## C25 -/

end Preferences
